import Mathlib

/-!
Verification development for the Citra rasterizer surface cache
(`src/video_core/rasterizer_cache`).  The C++ sources are shallowly embedded:
guest physical addresses and machine integers become `Nat` (overflow is
irrelevant on the paths modelled here and is noted where it would matter),
`boost::icl` interval sets become lists of half-open intervals with set
semantics, shared-pointer identity becomes a numeric surface id into a store,
and the external collaborators (host texture runtime, pixel codecs, guest
memory) are modelled exactly to the extent the cache observes them.

Functions whose bodies live in `surface_params.cpp` / `surface_base.cpp`
(absent from the repository snapshot; only their declarations are present) are
modelled from the specification and carry a doc comment starting with
`Modelled from the spec:`.  Everything else is translated from the C++
sources, with file/line references in comments.
-/

namespace Citra

/-- Half-open interval `[lo, hi)` of guest physical addresses
(`SurfaceInterval` in the sources). -/
structure Iv where
  lo : Nat
  hi : Nat
deriving DecidableEq, Repr

/-- Interval is empty. -/
def Iv.isEmpty (I : Iv) : Bool := decide (I.hi ≤ I.lo)

/-- `boost::icl::length`. -/
def Iv.len (I : Iv) : Nat := I.hi - I.lo

/-- Interval intersection (`operator&`). -/
def Iv.inter (I J : Iv) : Iv := ⟨max I.lo J.lo, min I.hi J.hi⟩

/-- Address membership. -/
def Iv.mem (a : Nat) (I : Iv) : Bool := decide (I.lo ≤ a) && decide (a < I.hi)

/-- Two intervals share at least one address. -/
def Iv.overlaps (I J : Iv) : Bool := !(I.inter J).isEmpty

/-- The (up to two) parts of `I` outside `J`. -/
def Iv.subtract (I J : Iv) : List Iv :=
  (if I.lo < min I.hi J.lo then [⟨I.lo, min I.hi J.lo⟩] else []) ++
  (if max I.lo J.hi < I.hi then [⟨max I.lo J.hi, I.hi⟩] else [])

/-- A `boost::icl::interval_set` value: a list of intervals whose union is the
set.  The list need not be sorted or disjoint; all operations below are
correct for plain union semantics, and component iteration (which icl performs
over maximal joined components) is recovered by `Regions.firstComponent`. -/
abbrev Regions := List Iv

/-- Set membership as a decidable proposition. -/
def Regions.MemP (S : Regions) (a : Nat) : Prop := ∃ I, I ∈ S ∧ I.lo ≤ a ∧ a < I.hi

instance (S : Regions) (a : Nat) : Decidable (Regions.MemP S a) := by
  unfold Regions.MemP; infer_instance

/-- Set membership, executable form. -/
def Regions.memB (S : Regions) (a : Nat) : Bool := S.any (Iv.mem a)

/-- `interval_set::erase` / `operator-=` with a single interval. -/
def Regions.erase (S : Regions) (J : Iv) : Regions := S.flatMap (Iv.subtract · J)

/-- `operator&` with a single interval. -/
def Regions.inter (S : Regions) (J : Iv) : Regions :=
  S.filterMap (fun I => if (I.inter J).isEmpty then none else some (I.inter J))

/-- `operator-` on two interval sets. -/
def Regions.diff (S T : Regions) : Regions := T.foldl Regions.erase S

/-- Sum of component lengths; an upper bound for the number of addresses. -/
def Regions.totalLen (S : Regions) : Nat := (S.map Iv.len).sum

/-- `interval_set::empty`. -/
def Regions.isEmptyB (S : Regions) : Bool := S.all Iv.isEmpty

/-- Least start address among nonempty components. -/
def Regions.firstLo (S : Regions) : Option Nat :=
  ((S.filter (fun I => decide (I.lo < I.hi))).map Iv.lo).min?

/-- Extend an endpoint across touching/overlapping components, as the joining
`interval_set` does when normalising. -/
def Regions.extendHi (S : Regions) : Nat → Nat → Nat
  | 0, hi => hi
  | fuel + 1, hi =>
    match S.find? (fun I => decide (I.lo ≤ hi) && decide (hi < I.hi)) with
    | some I => Regions.extendHi S fuel I.hi
    | none => hi

/-- The first (leftmost maximal) component of the set, i.e. what
`*interval_set::begin()` yields after icl's join-normalisation. -/
def Regions.firstComponent (S : Regions) : Option Iv :=
  match S.firstLo with
  | none => none
  | some lo => some ⟨lo, Regions.extendHi S S.length lo⟩

/-- Maximal components in address order (icl iteration order), via repeated
extraction of the first component. -/
def Regions.componentsAux : Nat → Regions → List Iv
  | 0, _ => []
  | fuel + 1, S =>
    match S.firstComponent with
    | none => []
    | some I => I :: Regions.componentsAux fuel (S.erase I)

def Regions.components (S : Regions) : List Iv := Regions.componentsAux S.totalLen S

section RegionLemmas

theorem Iv.mem_iff {a : Nat} {I : Iv} : I.mem a = true ↔ I.lo ≤ a ∧ a < I.hi := by
  simp [Iv.mem]

theorem Iv.mem_subtract {a : Nat} {I J : Iv} :
    (∃ K, K ∈ I.subtract J ∧ K.lo ≤ a ∧ a < K.hi) ↔
      (I.lo ≤ a ∧ a < I.hi) ∧ ¬(J.lo ≤ a ∧ a < J.hi) := by
  constructor
  · rintro ⟨K, hK, h1, h2⟩
    simp only [Iv.subtract, List.mem_append] at hK
    rcases hK with hK | hK
    · split at hK
      · simp only [List.mem_singleton] at hK
        subst hK
        have h1' : I.lo ≤ a := h1
        have h2' : a < min I.hi J.lo := h2
        constructor <;> omega
      · simp at hK
    · split at hK
      · simp only [List.mem_singleton] at hK
        subst hK
        have h1' : max I.lo J.hi ≤ a := h1
        have h2' : a < I.hi := h2
        constructor <;> omega
      · simp at hK
  · rintro ⟨⟨h1, h2⟩, h3⟩
    by_cases hlt : a < J.lo
    · refine ⟨⟨I.lo, min I.hi J.lo⟩, ?_, ?_, ?_⟩
      · simp only [Iv.subtract, List.mem_append]
        left
        have hcond : I.lo < min I.hi J.lo := by omega
        simp [hcond]
      · show I.lo ≤ a; omega
      · show a < min I.hi J.lo; omega
    · refine ⟨⟨max I.lo J.hi, I.hi⟩, ?_, ?_, ?_⟩
      · simp only [Iv.subtract, List.mem_append]
        right
        have hcond : max I.lo J.hi < I.hi := by omega
        simp [hcond]
      · show max I.lo J.hi ≤ a; omega
      · show a < I.hi; omega

theorem Regions.memP_erase {S : Regions} {J : Iv} {a : Nat} :
    (S.erase J).MemP a ↔ S.MemP a ∧ ¬(J.lo ≤ a ∧ a < J.hi) := by
  simp only [Regions.MemP, Regions.erase, List.mem_flatMap]
  constructor
  · rintro ⟨K, ⟨I, hI, hKI⟩, h1, h2⟩
    have := Iv.mem_subtract (a := a) (I := I) (J := J) |>.mp ⟨K, hKI, h1, h2⟩
    exact ⟨⟨I, hI, this.1.1, this.1.2⟩, this.2⟩
  · rintro ⟨⟨I, hI, h1, h2⟩, h3⟩
    obtain ⟨K, hK, hk1, hk2⟩ := Iv.mem_subtract (a := a) (I := I) (J := J) |>.mpr ⟨⟨h1, h2⟩, h3⟩
    exact ⟨K, ⟨I, hI, hK⟩, hk1, hk2⟩

theorem Regions.memP_inter {S : Regions} {J : Iv} {a : Nat} :
    (S.inter J).MemP a ↔ S.MemP a ∧ J.lo ≤ a ∧ a < J.hi := by
  simp only [Regions.MemP, Regions.inter, List.mem_filterMap]
  constructor
  · rintro ⟨K, ⟨I, hI, hKI⟩, h1, h2⟩
    split at hKI
    · simp at hKI
    · cases hKI
      have h1' : max I.lo J.lo ≤ a := h1
      have h2' : a < min I.hi J.hi := h2
      exact ⟨⟨I, hI, by omega, by omega⟩, by omega, by omega⟩
  · rintro ⟨⟨I, hI, h1, h2⟩, h3, h4⟩
    refine ⟨I.inter J, ⟨I, hI, ?_⟩, ?_, ?_⟩
    · have hne : (I.inter J).isEmpty = false := by
        simp only [Iv.inter, Iv.isEmpty, decide_eq_false_iff_not]
        omega
      simp [hne]
    · show max I.lo J.lo ≤ a; omega
    · show a < min I.hi J.hi; omega

theorem Regions.memP_cons {I : Iv} {S : Regions} {a : Nat} :
    Regions.MemP (I :: S) a ↔ (I.lo ≤ a ∧ a < I.hi) ∨ S.MemP a := by
  simp only [Regions.MemP, List.mem_cons]
  constructor
  · rintro ⟨K, hK | hK, h1, h2⟩
    · left; subst hK; exact ⟨h1, h2⟩
    · right; exact ⟨K, hK, h1, h2⟩
  · rintro (⟨h1, h2⟩ | ⟨K, hK, h1, h2⟩)
    · exact ⟨I, Or.inl rfl, h1, h2⟩
    · exact ⟨K, Or.inr hK, h1, h2⟩

theorem Regions.memP_diff {S T : Regions} {a : Nat} :
    (S.diff T).MemP a ↔ S.MemP a ∧ ¬ T.MemP a := by
  induction T generalizing S with
  | nil => simp [Regions.diff, Regions.MemP]
  | cons J T ih =>
    have : Regions.diff S (J :: T) = Regions.diff (S.erase J) T := rfl
    rw [this, ih, Regions.memP_erase]
    constructor
    · rintro ⟨⟨h1, h2⟩, h3⟩
      refine ⟨h1, ?_⟩
      rw [Regions.memP_cons]; tauto
    · rintro ⟨h1, h2⟩
      rw [Regions.memP_cons] at h2; tauto

theorem Regions.not_memP_of_isEmptyB {S : Regions} (h : S.isEmptyB = true) (a : Nat) :
    ¬ S.MemP a := by
  rintro ⟨I, hI, h1, h2⟩
  simp only [Regions.isEmptyB, List.all_eq_true] at h
  have := h I hI
  simp [Iv.isEmpty] at this
  omega

theorem Regions.memB_iff {S : Regions} {a : Nat} : S.memB a = true ↔ S.MemP a := by
  simp only [Regions.memB, List.any_eq_true, Regions.MemP, Iv.mem_iff]

theorem Regions.extendHi_ge (S : Regions) : ∀ fuel hi, hi ≤ S.extendHi fuel hi := by
  intro fuel
  induction fuel with
  | zero => intro hi; simp [Regions.extendHi]
  | succ n ih =>
    intro hi
    rw [Regions.extendHi]
    cases hfind : S.find? (fun I => decide (I.lo ≤ hi) && decide (hi < I.hi)) with
    | none => exact le_refl hi
    | some I =>
      have hp := List.find?_some hfind
      simp only [Bool.and_eq_true, decide_eq_true_eq] at hp
      exact le_trans (le_of_lt hp.2) (ih I.hi)

theorem Regions.extendHi_mem (S : Regions) :
    ∀ fuel hi lo, lo ≤ hi → (∀ x, lo ≤ x → x < hi → S.MemP x) →
      ∀ x, lo ≤ x → x < S.extendHi fuel hi → S.MemP x := by
  intro fuel
  induction fuel with
  | zero => intro hi lo _ hmem x h1 h2; exact hmem x h1 h2
  | succ n ih =>
    intro hi lo hlh hmem x h1 h2
    rw [Regions.extendHi] at h2
    cases hfind : S.find? (fun I => decide (I.lo ≤ hi) && decide (hi < I.hi)) with
    | none => rw [hfind] at h2; exact hmem x h1 h2
    | some I =>
      rw [hfind] at h2
      have hp := List.find?_some hfind
      have hIS := List.mem_of_find?_eq_some hfind
      simp only [Bool.and_eq_true, decide_eq_true_eq] at hp
      refine ih I.hi lo (by omega) ?_ x h1 h2
      intro y hy1 hy2
      by_cases hyy : y < hi
      · exact hmem y hy1 hyy
      · exact ⟨I, hIS, by omega, hy2⟩

theorem Regions.firstComponent_some {S : Regions} {I : Iv}
    (h : S.firstComponent = some I) :
    I.lo < I.hi ∧ ∀ x, I.lo ≤ x → x < I.hi → S.MemP x := by
  unfold Regions.firstComponent at h
  cases hlo : S.firstLo with
  | none => rw [hlo] at h; cases h
  | some lo =>
    rw [hlo] at h
    cases h
    unfold Regions.firstLo at hlo
    have hin := List.min?_mem (fun a b => min_choice a b) hlo
    simp only [List.mem_map, List.mem_filter, decide_eq_true_eq] at hin
    obtain ⟨I0, ⟨hI0S, hI0ne⟩, hI0lo⟩ := hin
    have hstrict : lo < Regions.extendHi S S.length lo := by
      cases hS : S with
      | nil => rw [hS] at hI0S; cases hI0S
      | cons hd tl =>
        rw [← hS]
        have hlen : S.length = tl.length + 1 := by rw [hS]; rfl
        rw [hlen, Regions.extendHi]
        have hex : ∃ K ∈ S, (fun I => decide (I.lo ≤ lo) && decide (lo < I.hi)) K = true := by
          refine ⟨I0, hI0S, ?_⟩
          simp only [Bool.and_eq_true, decide_eq_true_eq]
          omega
        rw [← List.find?_isSome] at hex
        cases hfind : S.find? (fun I => decide (I.lo ≤ lo) && decide (lo < I.hi)) with
        | none => rw [hfind] at hex; cases hex
        | some K =>
          have hp := List.find?_some hfind
          simp only [Bool.and_eq_true, decide_eq_true_eq] at hp
          exact lt_of_lt_of_le hp.2 (Regions.extendHi_ge S tl.length K.hi)
    refine ⟨hstrict, ?_⟩
    exact Regions.extendHi_mem S S.length lo lo (le_refl lo) (by omega)

theorem Regions.firstComponent_none {S : Regions} (h : S.firstComponent = none) :
    ∀ x, ¬ S.MemP x := by
  unfold Regions.firstComponent at h
  cases hlo : S.firstLo with
  | some lo => rw [hlo] at h; cases h
  | none =>
    unfold Regions.firstLo at hlo
    rw [List.min?_eq_none_iff, List.map_eq_nil_iff, List.filter_eq_nil_iff] at hlo
    rintro x ⟨I, hI, h1, h2⟩
    have := hlo I hI
    simp only [decide_eq_true_eq] at this
    omega

/-- Union of the components as a `Finset`, for counting arguments. -/
def Regions.toF (S : Regions) : Finset Nat :=
  S.foldr (fun I acc => Finset.Ico I.lo I.hi ∪ acc) ∅

theorem Regions.mem_toF {S : Regions} {x : Nat} : x ∈ Regions.toF S ↔ Regions.MemP S x := by
  induction S with
  | nil => simp [Regions.toF, Regions.MemP]
  | cons I S ih =>
    have hT : Regions.toF (I :: S) = Finset.Ico I.lo I.hi ∪ Regions.toF S := rfl
    rw [hT, Regions.memP_cons, Finset.mem_union, Finset.mem_Ico, ih]

theorem Regions.card_toF_le_totalLen (S : Regions) :
    (Regions.toF S).card ≤ Regions.totalLen S := by
  induction S with
  | nil => simp [Regions.toF, Regions.totalLen]
  | cons I S ih =>
    have hT : Regions.toF (I :: S) = Finset.Ico I.lo I.hi ∪ Regions.toF S := rfl
    have hL : Regions.totalLen (I :: S) = I.len + Regions.totalLen S := by
      simp [Regions.totalLen]
    rw [hT, hL]
    calc (Finset.Ico I.lo I.hi ∪ Regions.toF S).card
        ≤ (Finset.Ico I.lo I.hi).card + (Regions.toF S).card := Finset.card_union_le _ _
      _ ≤ I.len + Regions.totalLen S := by
          rw [Nat.card_Ico]
          exact Nat.add_le_add (le_refl _) ih

theorem Regions.toF_erase_subset (S : Regions) (J : Iv) : (S.erase J).toF ⊆ S.toF := by
  intro y hy
  rw [Regions.mem_toF] at hy ⊢
  exact (Regions.memP_erase.mp hy).1

theorem Regions.card_erase_lt {S : Regions} {J : Iv} {x : Nat}
    (hx : S.MemP x) (hJ1 : J.lo ≤ x) (hJ2 : x < J.hi) :
    (S.erase J).toF.card < S.toF.card := by
  have hx1 : x ∈ S.toF := Regions.mem_toF.mpr hx
  have hx2 : x ∉ (S.erase J).toF := by
    rw [Regions.mem_toF, Regions.memP_erase]
    rintro ⟨-, h⟩
    exact h ⟨hJ1, hJ2⟩
  exact Finset.card_lt_card ((Finset.ssubset_iff_of_subset (Regions.toF_erase_subset S J)).mpr
    ⟨x, hx1, hx2⟩)

end RegionLemmas

/-! ## Pixel formats (`rasterizer_cache/pixel_format.h`) -/

/-- `VideoCore::PixelFormat` (pixel_format.h:15). -/
inductive PixelFormat
  | RGBA8 | RGB8 | RGB5A1 | RGB565 | RGBA4 | IA8 | RG8 | I8 | A8 | IA4 | I4 | A4
  | ETC1 | ETC1A4 | D16 | D24 | D24S8 | Invalid
deriving DecidableEq, Repr

/-- `VideoCore::SurfaceType` (pixel_format.h:38). -/
inductive SurfaceType
  | Color | Texture | Depth | DepthStencil | Fill | Invalid
deriving DecidableEq, Repr

/-- `GetFormatBpp` via `FORMAT_MAP` (pixel_format.h:64-89); the C++ asserts on
`PixelFormat::Invalid` (index out of range), modelled as 0 bits. -/
def GetFormatBpp : PixelFormat → Nat
  | .RGBA8 => 32 | .RGB8 => 24 | .RGB5A1 => 16 | .RGB565 => 16 | .RGBA4 => 16
  | .IA8 => 16 | .RG8 => 16 | .I8 => 8 | .A8 => 8 | .IA4 => 8 | .I4 => 4 | .A4 => 4
  | .ETC1 => 4 | .ETC1A4 => 8 | .D16 => 16 | .D24 => 24 | .D24S8 => 32
  | .Invalid => 0

/-- `GetBytesPerPixel` via `FORMAT_MAP` (pixel_format.h:91). -/
def GetBytesPerPixel : PixelFormat → Nat
  | .RGBA8 => 4 | .RGB8 => 3 | .RGB5A1 => 2 | .RGB565 => 2 | .RGBA4 => 2
  | .IA8 => 4 | .RG8 => 4 | .I8 => 4 | .A8 => 4 | .IA4 => 4 | .I4 => 4 | .A4 => 4
  | .ETC1 => 4 | .ETC1A4 => 4 | .D16 => 2 | .D24 => 4 | .D24S8 => 4
  | .Invalid => 0

/-- `GetFormatType` via `FORMAT_MAP` (pixel_format.h:97). -/
def GetFormatType : PixelFormat → SurfaceType
  | .RGBA8 | .RGB8 | .RGB5A1 | .RGB565 | .RGBA4 => .Color
  | .IA8 | .RG8 | .I8 | .A8 | .IA4 | .I4 | .A4 | .ETC1 | .ETC1A4 => .Texture
  | .D16 | .D24 => .Depth
  | .D24S8 => .DepthStencil
  | .Invalid => .Invalid

/-- `Pica::TexturingRegs::TextureFormat`, restricted to the values that
`PixelFormatFromTextureFormat` maps (pixel_format.cpp:31-64). -/
inductive TextureFormat
  | RGBA8 | RGB8 | RGB5A1 | RGB565 | RGBA4 | IA8 | RG8 | I8 | A8 | IA4 | I4 | A4
  | ETC1 | ETC1A4
deriving DecidableEq, Repr

/-- `PixelFormatFromTextureFormat` (pixel_format.cpp:31). -/
def PixelFormatFromTextureFormat : TextureFormat → PixelFormat
  | .RGBA8 => .RGBA8 | .RGB8 => .RGB8 | .RGB5A1 => .RGB5A1 | .RGB565 => .RGB565
  | .RGBA4 => .RGBA4 | .IA8 => .IA8 | .RG8 => .RG8 | .I8 => .I8 | .A8 => .A8
  | .IA4 => .IA4 | .I4 => .I4 | .A4 => .A4 | .ETC1 => .ETC1 | .ETC1A4 => .ETC1A4

/-- `Pica::FramebufferRegs::ColorFormat` (subset mapped by
`PixelFormatFromColorFormat`, pixel_format.cpp:66). -/
inductive ColorFormat
  | RGBA8 | RGB8 | RGB5A1 | RGB565 | RGBA4 | Other
deriving DecidableEq, Repr

/-- `PixelFormatFromColorFormat` (pixel_format.cpp:66). -/
def PixelFormatFromColorFormat : ColorFormat → PixelFormat
  | .RGBA8 => .RGBA8 | .RGB8 => .RGB8 | .RGB5A1 => .RGB5A1 | .RGB565 => .RGB565
  | .RGBA4 => .RGBA4 | .Other => .Invalid

/-- `Pica::FramebufferRegs::DepthFormat` (pixel_format.cpp:83). -/
inductive DepthFormat
  | D16 | D24 | D24S8 | Other
deriving DecidableEq, Repr

/-- `PixelFormatFromDepthFormat` (pixel_format.cpp:83). -/
def PixelFormatFromDepthFormat : DepthFormat → PixelFormat
  | .D16 => .D16 | .D24 => .D24 | .D24S8 => .D24S8 | .Other => .Invalid

/-! ## Rectangles and alignment -/

/-- `Common::Rectangle<u32>`; the cache uses `{left, top, right, bottom}` with
`GetRect() = {0, height, width, 0}` (surface_params.h:56). -/
structure Rect where
  left : Nat
  top : Nat
  right : Nat
  bottom : Nat
deriving DecidableEq, Repr

/-- `Common::AlignDown` on `Nat`; total (alignment 0 returns the input, which
the C++ never evaluates on the modelled paths). -/
def alignDown (x a : Nat) : Nat := if a = 0 then x else x / a * a

/-- `Common::AlignUp` on `Nat`. -/
def alignUp (x a : Nat) : Nat := if a = 0 then x else (x + a - 1) / a * a

theorem alignDown_le (x a : Nat) : alignDown x a ≤ x := by
  unfold alignDown
  split
  · exact le_refl x
  · exact Nat.div_mul_le_self x a

theorem le_alignUp (x a : Nat) : x ≤ alignUp x a := by
  unfold alignUp
  split
  · exact le_refl x
  · rename_i h
    have h1 : x + a - 1 + 1 ≤ (x + a - 1) / a * a + a := by
      have := Nat.lt_div_mul_add (a := x + a - 1) (b := a) (Nat.pos_of_ne_zero h)
      omega
    omega

theorem alignDown_dvd (x a : Nat) (ha : a ≠ 0) : a ∣ alignDown x a := by
  unfold alignDown
  rw [if_neg ha]
  exact Dvd.intro_left _ rfl

theorem alignUp_dvd (x a : Nat) (ha : a ≠ 0) : a ∣ alignUp x a := by
  unfold alignUp
  rw [if_neg ha]
  exact Dvd.intro_left _ rfl

theorem alignDown_eq_sub_mod (x a : Nat) (ha : a ≠ 0) : alignDown x a = x - x % a := by
  unfold alignDown
  rw [if_neg ha]
  have := Nat.mod_add_div x a
  have h2 : x / a * a = a * (x / a) := Nat.mul_comm _ _
  omega


theorem alignDown_of_lt (x a : Nat) (h : x < a) : alignDown x a = 0 := by
  unfold alignDown
  rw [if_neg (by omega)]
  rw [Nat.div_eq_of_lt h, Nat.zero_mul]

theorem alignUp_sub (b d a : Nat) (ha : a ≠ 0) (hd : a ∣ d) (hdb : d ≤ b) :
    alignUp (b - d) a = alignUp b a - d := by
  obtain ⟨k, rfl⟩ := hd
  unfold alignUp
  rw [if_neg ha, if_neg ha]
  have h2 : b - a * k + a - 1 = b + a - 1 - a * k := by omega
  rw [h2, Nat.sub_mul_div (b + a - 1) a k (by omega)]
  rw [Nat.sub_mul, Nat.mul_comm k a]

/-! ## SurfaceParams (`rasterizer_cache/surface_params.h`) -/

/-- `VideoCore::SurfaceParams` (surface_params.h:11-87).  `end` is a Lean
keyword, so the field is named `endAddr`.  `texture_type` is omitted: it only
feeds the cube-map path, which no claim concerns. -/
@[ext]
structure SurfaceParams where
  addr : Nat := 0
  endAddr : Nat := 0
  size : Nat := 0
  width : Nat := 0
  height : Nat := 0
  stride : Nat := 0
  levels : Nat := 1
  res_scale : Nat := 1
  is_tiled : Bool := false
  pixel_format : PixelFormat := .Invalid
  type : SurfaceType := .Invalid
deriving DecidableEq, Repr

/-- surface_params.h:40. -/
def SurfaceParams.GetInterval (p : SurfaceParams) : Iv := ⟨p.addr, p.endAddr⟩

/-- surface_params.h:44. -/
def SurfaceParams.GetFormatBpp (p : SurfaceParams) : Nat :=
  Citra.GetFormatBpp p.pixel_format

/-- surface_params.h:68; integer division as in the C++. -/
def SurfaceParams.BytesInPixels (p : SurfaceParams) (pixels : Nat) : Nat :=
  pixels * p.GetFormatBpp / 8

/-- surface_params.h:64. -/
def SurfaceParams.PixelsInBytes (p : SurfaceParams) (sz : Nat) : Nat :=
  sz * 8 / p.GetFormatBpp

/-- surface_params.h:48. -/
def SurfaceParams.GetScaledWidth (p : SurfaceParams) : Nat := p.width * p.res_scale

/-- surface_params.h:52. -/
def SurfaceParams.GetScaledHeight (p : SurfaceParams) : Nat := p.height * p.res_scale

/-- surface_params.h:56. -/
def SurfaceParams.GetRect (p : SurfaceParams) : Rect := ⟨0, p.height, p.width, 0⟩

/-- surface_params.h:60. -/
def SurfaceParams.GetScaledRect (p : SurfaceParams) : Rect :=
  ⟨0, p.GetScaledHeight, p.GetScaledWidth, 0⟩

/-- `is_tiled ? 8 : 1`, as used throughout the geometry code. -/
def SurfaceParams.tiledSize (p : SurfaceParams) : Nat := if p.is_tiled then 8 else 1

/-- Bytes of one row of tiles (8 pixel rows when tiled, 1 otherwise). -/
def SurfaceParams.rowTiledBytes (p : SurfaceParams) : Nat :=
  p.BytesInPixels (p.stride * p.tiledSize)

/-- Modelled from the spec: `SurfaceParams::UpdateParams` (declared
surface_params.h:26, body missing from the snapshot).  Spec §3: `size =
stride·(height−1)·bpp/8 + width·bpp/8`; the source comment at
rasterizer_cache.cpp:538 ("reset stride and let UpdateParams re-initialize
it") fixes that a zero stride is replaced by the width; `type` is derived from
the pixel format (spec §3). -/
def SurfaceParams.UpdateParams (p : SurfaceParams) : SurfaceParams :=
  { p with
    stride := if p.stride = 0 then p.width else p.stride,
    type := GetFormatType p.pixel_format,
    size := p.BytesInPixels ((if p.stride = 0 then p.width else p.stride) * (p.height - 1)
              + p.width),
    endAddr := p.addr + p.BytesInPixels ((if p.stride = 0 then p.width else p.stride)
              * (p.height - 1) + p.width) }

/-- Modelled from the spec: `SurfaceParams::FromInterval` (declared
surface_params.h:35, body missing).  Spec §4.1: "smallest SurfaceParams
(addr/end/size/height) within self whose memory is exactly I" — the interval
is widened outwards to whole rows of tiles (8 pixel rows when tiled, matching
the §3 invariant that tiled heights are multiples of 8) and only
addr/end/size/height change. -/
def SurfaceParams.FromInterval (p : SurfaceParams) (I : Iv) : SurfaceParams :=
  { p with
    addr := p.addr + alignDown (I.lo - p.addr) p.rowTiledBytes,
    endAddr := p.addr + alignUp (I.hi - p.addr) p.rowTiledBytes,
    size := (p.addr + alignUp (I.hi - p.addr) p.rowTiledBytes) -
            (p.addr + alignDown (I.lo - p.addr) p.rowTiledBytes),
    height := ((p.addr + alignUp (I.hi - p.addr) p.rowTiledBytes) -
               (p.addr + alignDown (I.lo - p.addr) p.rowTiledBytes)) /
              p.BytesInPixels p.stride }

/-- Modelled from the spec: `SurfaceParams::GetSubRect` (declared
surface_params.h:29, body missing).  Spec §4.1: "pixel rectangle of b within
a"; tiled surfaces count rows top-down in 8-row tiles, linear surfaces count
bottom-up, consistent with `GetRect() = {0, height, width, 0}`. -/
def SurfaceParams.GetSubRect (p sub : SurfaceParams) : Rect :=
  if p.is_tiled then
    ⟨(p.PixelsInBytes (sub.addr - p.addr) % (p.stride * 8)) / 8,
     p.height - (p.PixelsInBytes (sub.addr - p.addr) / (p.stride * 8)) * 8,
     (p.PixelsInBytes (sub.addr - p.addr) % (p.stride * 8)) / 8 + sub.width,
     p.height - ((p.PixelsInBytes (sub.addr - p.addr) / (p.stride * 8)) * 8 + sub.height)⟩
  else
    ⟨p.PixelsInBytes (sub.addr - p.addr) % p.stride,
     p.PixelsInBytes (sub.addr - p.addr) / p.stride + sub.height,
     p.PixelsInBytes (sub.addr - p.addr) % p.stride + sub.width,
     p.PixelsInBytes (sub.addr - p.addr) / p.stride⟩

/-- Modelled from the spec: `SurfaceParams::GetScaledSubRect` (declared
surface_params.h:32, body missing); the sub-rectangle scaled by the host
resolution scale (spec §4.1). -/
def SurfaceParams.GetScaledSubRect (p sub : SurfaceParams) : Rect :=
  ⟨(p.GetSubRect sub).left * p.res_scale, (p.GetSubRect sub).top * p.res_scale,
   (p.GetSubRect sub).right * p.res_scale, (p.GetSubRect sub).bottom * p.res_scale⟩

/-- Modelled from the spec: `SurfaceParams::ExactMatch` (declared
surface_params.h:14, body missing).  Spec §4.1: same interval, pixel format,
tiling, stride and width/height (res-scale compatibility is checked separately
inside `FindMatch`). -/
def SurfaceParams.ExactMatch (p other : SurfaceParams) : Bool :=
  decide (other.addr = p.addr) && decide (other.width = p.width) &&
  decide (other.height = p.height) && decide (other.stride = p.stride) &&
  decide (other.pixel_format = p.pixel_format) && decide (other.is_tiled = p.is_tiled) &&
  decide (p.pixel_format ≠ .Invalid)

/-- Modelled from the spec: `SurfaceParams::CanSubRect` (declared
surface_params.h:17, body missing).  Spec §4.1: sub fully contained
positionally, same format and tiling, start byte-aligned to a tile (64 pixels
when tiled), full-stride rows or a single (tile-)row, and the sub-row fits in
the stride. -/
def SurfaceParams.CanSubRect (p sub : SurfaceParams) : Bool :=
  decide (p.addr ≤ sub.addr) && decide (sub.endAddr ≤ p.endAddr) &&
  decide (sub.pixel_format = p.pixel_format) && decide (p.pixel_format ≠ .Invalid) &&
  decide (sub.is_tiled = p.is_tiled) &&
  decide ((sub.addr - p.addr) % p.BytesInPixels (if p.is_tiled then 64 else 1) = 0) &&
  (decide (sub.stride = p.stride) || decide (sub.height ≤ p.tiledSize)) &&
  decide ((p.GetSubRect sub).left + sub.width ≤ p.stride)

/-- Modelled from the spec: `SurfaceParams::CanExpand` (declared
surface_params.h:20, body missing).  Spec §4.1: same format/tiling/stride,
memory intervals overlap or touch, and the union stays aligned to whole rows
of tiles. -/
def SurfaceParams.CanExpand (p exp2 : SurfaceParams) : Bool :=
  decide (p.pixel_format ≠ .Invalid) && decide (p.pixel_format = exp2.pixel_format) &&
  decide (p.addr ≤ exp2.endAddr) && decide (exp2.addr ≤ p.endAddr) &&
  decide (p.is_tiled = exp2.is_tiled) && decide (p.stride = exp2.stride) &&
  decide ((max exp2.addr p.addr - min exp2.addr p.addr) % p.rowTiledBytes = 0)

/-- Modelled from the spec: `SurfaceParams::CanTexCopy` (declared
surface_params.h:23, body missing).  Spec §4.1: "a can serve a raw byte copy
for b": b contained in a; gapped copies must be tile-aligned rows within one
stride, ungapped copies must round-trip through `FromInterval`. -/
def SurfaceParams.CanTexCopy (p tc : SurfaceParams) : Bool :=
  if p.pixel_format = .Invalid ∨ tc.addr < p.addr ∨ p.endAddr < tc.endAddr then false
  else if tc.width ≠ tc.stride then
    decide ((tc.addr - p.addr) % p.BytesInPixels (if p.is_tiled then 64 else 1) = 0) &&
    decide (tc.width % p.BytesInPixels (if p.is_tiled then 64 else 1) = 0) &&
    (decide (tc.height = 1) || decide (tc.stride = p.rowTiledBytes)) &&
    decide ((tc.addr - p.addr) % p.rowTiledBytes + tc.width ≤ p.rowTiledBytes)
  else decide ((p.FromInterval tc.GetInterval).GetInterval = tc.GetInterval)

theorem SurfaceParams.fromInterval_rowTiledBytes (p : SurfaceParams) (I : Iv) :
    (p.FromInterval I).rowTiledBytes = p.rowTiledBytes := rfl

theorem SurfaceParams.fromInterval_addr_le (p : SurfaceParams) (I : Iv)
    (hlo : p.addr ≤ I.lo) : (p.FromInterval I).addr ≤ I.lo := by
  show p.addr + alignDown (I.lo - p.addr) p.rowTiledBytes ≤ I.lo
  have := alignDown_le (I.lo - p.addr) p.rowTiledBytes
  omega

theorem SurfaceParams.le_fromInterval_endAddr (p : SurfaceParams) (I : Iv)
    (hlo : p.addr ≤ I.hi) : I.hi ≤ (p.FromInterval I).endAddr := by
  show I.hi ≤ p.addr + alignUp (I.hi - p.addr) p.rowTiledBytes
  have := le_alignUp (I.hi - p.addr) p.rowTiledBytes
  omega

/-- Applying `FromInterval` twice with the same interval is the identity; this
mirrors the fact that in the sources the params handed to `FindMatch` inside
`ValidateSurface` are already of the form `surface->FromInterval(interval)`. -/
theorem SurfaceParams.fromInterval_idem (p : SurfaceParams) (I : Iv)
    (hlo : p.addr ≤ I.lo) (hne : I.lo < I.hi) :
    (p.FromInterval I).FromInterval I = p.FromInterval I := by
  set R := p.rowTiledBytes with hR
  have hRq : (p.FromInterval I).rowTiledBytes = R := rfl
  set d := alignDown (I.lo - p.addr) R with hd
  set u := alignUp (I.hi - p.addr) R with hu
  have hd_le : d ≤ I.lo - p.addr := alignDown_le _ _
  have hu_ge : I.hi - p.addr ≤ u := le_alignUp _ _
  have haddr : (p.FromInterval I).addr = p.addr + d := rfl
  have hend : (p.FromInterval I).endAddr = p.addr + u := rfl
  have key_lo : alignDown (I.lo - (p.addr + d)) R = 0 := by
    rcases Nat.eq_zero_or_pos R with hR0 | hRpos
    · have : d = I.lo - p.addr := by
        rw [hd, hR0]; unfold alignDown; simp
      rw [this]
      have : I.lo - (p.addr + (I.lo - p.addr)) = 0 := by omega
      rw [this]
      unfold alignDown; simp
    · have hmod : d = (I.lo - p.addr) - (I.lo - p.addr) % R := by
        rw [hd, alignDown_eq_sub_mod _ _ (by omega)]
      have hlt : I.lo - (p.addr + d) < R := by
        have := Nat.mod_lt (I.lo - p.addr) hRpos
        omega
      exact alignDown_of_lt _ _ hlt
  have key_hi : alignUp (I.hi - (p.addr + d)) R = u - d := by
    rcases Nat.eq_zero_or_pos R with hR0 | hRpos
    · have hdval : d = I.lo - p.addr := by
        rw [hd, hR0]; unfold alignDown; simp
      have huval : u = I.hi - p.addr := by
        rw [hu, hR0]; unfold alignUp; simp
      rw [hdval, huval, hR0]
      unfold alignUp; simp
      omega
    · have hdvd : R ∣ d := alignDown_dvd _ _ (by omega)
      have h1 : I.hi - (p.addr + d) = (I.hi - p.addr) - d := by omega
      rw [h1, alignUp_sub _ _ _ (by omega) hdvd (by omega), ← hu]
  have haddr2 : (p.FromInterval I).addr + alignDown (I.lo - (p.FromInterval I).addr)
      ((p.FromInterval I).rowTiledBytes) = (p.FromInterval I).addr := by
    rw [hRq, haddr, key_lo]
    omega
  have hend2 : (p.FromInterval I).addr + alignUp (I.hi - (p.FromInterval I).addr)
      ((p.FromInterval I).rowTiledBytes) = (p.FromInterval I).endAddr := by
    rw [hRq, haddr, hend, key_hi]
    have hdu : d ≤ u := by omega
    omega
  refine SurfaceParams.ext ?_ ?_ ?_ ?_ ?_ ?_ ?_ ?_ ?_ ?_ ?_
  · exact haddr2
  · exact hend2
  · show (p.FromInterval I).addr + alignUp (I.hi - (p.FromInterval I).addr)
        ((p.FromInterval I).rowTiledBytes) -
      ((p.FromInterval I).addr + alignDown (I.lo - (p.FromInterval I).addr)
        ((p.FromInterval I).rowTiledBytes)) = (p.FromInterval I).size
    rw [haddr2, hend2]
    rfl
  · rfl
  · show ((p.FromInterval I).addr + alignUp (I.hi - (p.FromInterval I).addr)
        ((p.FromInterval I).rowTiledBytes) -
      ((p.FromInterval I).addr + alignDown (I.lo - (p.FromInterval I).addr)
        ((p.FromInterval I).rowTiledBytes))) /
      (p.FromInterval I).BytesInPixels ((p.FromInterval I).stride) = (p.FromInterval I).height
    rw [haddr2, hend2]
    rfl
  · rfl
  · rfl
  · rfl
  · rfl
  · rfl
  · rfl

/-! ## Surfaces (`cached_surface.h` / `cached_surface.cpp`) -/

/-- `OpenGL::CachedSurface` (cached_surface.h:46): its `SurfaceParams` base plus
the cache-visible members.  The host `OGLTexture` is external state the cache
never reads back, so it is not modelled.  `fill_data` is a byte array indexed
modulo 4. -/
structure SurfaceData where
  params : SurfaceParams := {}
  invalid_regions : Regions := []
  fill_size : Nat := 0
  fill_data : Nat → Nat := fun _ => 0
  registered : Bool := false
  watcherIds : List Nat := []
  levelWatchers : Nat → Option Nat := fun _ => none

/-- cached_surface.h:65 — `invalid_regions.find(interval) == end`. -/
def SurfaceData.IsRegionValid (s : SurfaceData) (iv : Iv) : Bool :=
  Regions.isEmptyB (Regions.inter s.invalid_regions iv)

/-- cached_surface.h:69 — the first component of `invalid_regions` overlapping
the surface interval equals the whole interval. -/
def SurfaceData.IsSurfaceFullyInvalid (s : SurfaceData) : Bool :=
  match (Regions.components s.invalid_regions).find?
      (fun c => c.overlaps s.params.GetInterval) with
  | some c => decide (c = s.params.GetInterval)
  | none => false

/-- `CachedSurface::CanFill` (cached_surface.cpp:69-95). -/
def SurfaceData.CanFill (s : SurfaceData) (dest : SurfaceParams) (fillIv : Iv) : Bool :=
  if s.params.type = .Fill ∧ s.IsRegionValid fillIv = true ∧
      s.params.addr ≤ fillIv.lo ∧ fillIv.hi ≤ s.params.endAddr ∧
      (dest.FromInterval fillIv).GetInterval = fillIv then
    if s.fill_size * 8 ≠ dest.GetFormatBpp then
      -- fill_test[k] = fill_data[k % fill_size], length fill_size * dest_bytes_per_pixel
      if ((List.range s.fill_size).all (fun i =>
          (List.range (max (dest.GetFormatBpp / 8) 1)).all (fun j =>
            decide (s.fill_data ((max (dest.GetFormatBpp / 8) 1 * i + j) % s.fill_size) =
                    s.fill_data (j % s.fill_size))))) = false then false
      else if dest.GetFormatBpp = 4 ∧
          s.fill_data (0 % s.fill_size) % 16 ≠ s.fill_data (0 % s.fill_size) / 16 then false
      else true
    else true
  else false

/-- Modelled from the spec: `SurfaceBase::GetCopyableInterval` (declared
surface_base.h:63, body missing).  Spec §4.2: "the largest sub-interval of
this surface's interval that is valid and whose projection onto dest is
rectangular" — each maximal valid run inside the query interval is shrunk
inwards to whole rows of tiles of `params` and the longest survivor wins. -/
def SurfaceData.GetCopyableInterval (s : SurfaceData) (params : SurfaceParams) : Iv :=
  (Regions.components
      (Regions.diff [Iv.inter params.GetInterval s.params.GetInterval]
        s.invalid_regions)).foldl
    (fun best c =>
      let lo := params.addr + alignUp (c.lo - params.addr) params.rowTiledBytes
      let hi := params.addr + alignDown (c.hi - params.addr) params.rowTiledBytes
      if best.len < Iv.len ⟨lo, hi⟩ then ⟨lo, hi⟩ else best)
    ⟨0, 0⟩

/-- `CachedSurface::CanCopy` (cached_surface.cpp:97-108). -/
def SurfaceData.CanCopy (s : SurfaceData) (dest : SurfaceParams) (copyIv : Iv) : Bool :=
  if s.params.CanSubRect (dest.FromInterval copyIv) then true
  else if s.CanFill dest copyIv then true
  else false

/-- A `SurfaceWatcher` (cached_surface.h:17-42): weak surface reference plus
validity bit.  Weak-pointer expiry is modelled by `UnlinkAllWatcher` clearing
the reference (surfaces in the model are never destroyed). -/
structure Watcher where
  ref : Option Nat := none
  valid : Bool := false

/-! ## Cache state (`rasterizer_cache.h:143-152`) and external interfaces -/

/-- The portions of the external world the cache can observe: the renderer
globals read by `GetFramebufferSurfaces` and the abstract output of the pixel
codec used when a non-fill surface is downloaded to guest memory.  The
reinterpreter registry is translated from `gl_texture_runtime.cpp:107-114` as
`glReinterpreters` below and is not part of this record. -/
structure Env where
  isNullFilter : Bool := true
  resolutionScaleFactor : Nat := 1
  textureFilterUpdateRequested : Bool := false
  resetFilterResult : Bool := false
  encoded : Nat → Nat → Nat := fun _ _ => 0

/-- The reinterpreter registry: source formats for each destination format
(`gl_texture_runtime.cpp:107-114`: `ShaderD24S8toRGBA8` registered for RGBA8,
`RGBA4toRGB5A1` for RGB5A1). -/
def glReinterpreters : PixelFormat → List PixelFormat
  | .RGBA8 => [.D24S8]
  | .RGB5A1 => [.RGBA4]
  | _ => []

/-- `RasterizerCache` state (rasterizer_cache.h:143-152) together with the
guest memory it reads and writes and the page-marking state of the memory
system.  `notifs` logs each `RasterizerMarkRegionCached` call pagewise.
`texture_cube_cache` and `render_targets` feed only operations no claim
concerns and are omitted. -/
structure CacheState where
  store : Nat → SurfaceData := fun _ => {}
  nextId : Nat := 0
  cache : List Nat := []
  dirty : List (Iv × Nat) := []
  cachedPages : Nat → Int := fun _ => 0
  notifs : List (Nat × Bool) := []
  watchers : Nat → Watcher := fun _ => {}
  nextWatcherId : Nat := 0
  removeSurfaces : List Nat := []
  mem : Nat → Nat := fun _ => 0
  memSize : Nat := 0
  resolutionScaleFactor : Nat := 1

/-- Point update of the surface store. -/
def updateSurface (st : CacheState) (sid : Nat) (f : SurfaceData → SurfaceData) : CacheState :=
  { st with store := fun i => if i = sid then f (st.store i) else st.store i }

/-- `Memory::CITRA_PAGE_BITS`: 4 KiB pages (spec §6). -/
def CITRA_PAGE_BITS : Nat := 12

/-- `RasterizerCache::UpdatePagesCachedCount` (rasterizer_cache.cpp:1196-1229).
`cached_pages` is kept as a per-page count function; the segment iteration of
the icl map notifies exactly the pages where the count condition holds, which
the model logs pagewise in `notifs` (pages with count 0 are absent from the
icl map and are never iterated, which coincides with the count test).  The
`addr + size - 1` underflow for `size = 0` is a `u32` wrap the claims exclude
by requiring registered surfaces to have positive size. -/
def updatePagesCachedCount (st : CacheState) (addr size : Nat) (delta : Int) : CacheState :=
  let pageStart := addr >>> CITRA_PAGE_BITS
  let numPages := ((addr + size - 1) >>> CITRA_PAGE_BITS) - pageStart + 1
  let pageEnd := pageStart + numPages
  let counts1 := fun p => if 0 < delta ∧ pageStart ≤ p ∧ p < pageEnd
    then st.cachedPages p + delta else st.cachedPages p
  let newNotifs := (List.range numPages).filterMap (fun i =>
    if 0 < delta ∧ counts1 (pageStart + i) = delta then some (pageStart + i, true)
    else if delta < 0 ∧ counts1 (pageStart + i) = -delta then some (pageStart + i, false)
    else none)
  let counts2 := fun p => if delta < 0 ∧ pageStart ≤ p ∧ p < pageEnd
    then counts1 p + delta else counts1 p
  { st with cachedPages := counts2, notifs := st.notifs ++ newNotifs }

/-- `RasterizerCache::RegisterSurface` (rasterizer_cache.cpp:1178-1185). -/
def registerSurface (st : CacheState) (sid : Nat) : CacheState :=
  if (st.store sid).registered then st
  else
    let st1 := updateSurface st sid (fun s => { s with registered := true })
    let st2 := { st1 with cache := st1.cache ++ [sid] }
    updatePagesCachedCount st2 (st2.store sid).params.addr (st2.store sid).params.size 1

/-- `RasterizerCache::UnregisterSurface` (rasterizer_cache.cpp:1187-1194). -/
def unregisterSurface (st : CacheState) (sid : Nat) : CacheState :=
  if !(st.store sid).registered then st
  else
    let st1 := updateSurface st sid (fun s => { s with registered := false })
    let st2 := updatePagesCachedCount st1 (st1.store sid).params.addr
      (st1.store sid).params.size (-1)
    { st2 with cache := st2.cache.filter (fun i => decide (i ≠ sid)) }

/-- `RasterizerCache::CreateSurface` (rasterizer_cache.cpp:1172-1176): a fresh
surface, fully invalid. -/
def createSurface (st : CacheState) (params : SurfaceParams) : CacheState × Nat :=
  let sid := st.nextId
  ({ st with
      store := fun i => if i = sid then
        { params := params, invalid_regions := [params.GetInterval] } else st.store i,
      nextId := sid + 1 },
   sid)

/-- `CachedSurface::CreateWatcher` (cached_surface.h:74). -/
def createWatcher (st : CacheState) (sid : Nat) : CacheState × Nat :=
  let wid := st.nextWatcherId
  let st1 := { st with
    watchers := fun w => if w = wid then { ref := some sid, valid := false } else st.watchers w,
    nextWatcherId := wid + 1 }
  (updateSurface st1 sid (fun s => { s with watcherIds := wid :: s.watcherIds }), wid)

/-- `CachedSurface::InvalidateAllWatcher` (cached_surface.h:80). -/
def invalidateAllWatcher (st : CacheState) (sid : Nat) : CacheState :=
  { st with watchers := fun w =>
      if (st.store sid).watcherIds.contains w then { st.watchers w with valid := false }
      else st.watchers w }

/-- `CachedSurface::UnlinkAllWatcher` (cached_surface.h:88). -/
def unlinkAllWatcher (st : CacheState) (sid : Nat) : CacheState :=
  let st1 := { st with watchers := fun w =>
      (if (st.store sid).watcherIds.contains w then Watcher.mk none false
       else st.watchers w) }
  updateSurface st1 sid (fun s => { s with watcherIds := [] })

/-! ## Dirty-region map (`SurfaceMap`, rasterizer_cache.h:35) -/

/-- `dirty_regions` entries: interval → owning surface id.  `set` subtracts the
new interval from every entry before appending it, which is the icl
last-writer-wins semantics; entries are not re-joined, which is observable
only through the `size ≤ 8` whole-entry flush (noted at its use sites). -/
def dirtySubtract (d : List (Iv × Nat)) (rs : Regions) : List (Iv × Nat) :=
  rs.foldl (fun d J => d.flatMap (fun p => (p.1.subtract J).map (fun q => (q, p.2)))) d

/-- `interval_map::set({interval, owner})`. -/
def dirtySet (d : List (Iv × Nat)) (iv : Iv) (owner : Nat) : List (Iv × Nat) :=
  if iv.isEmpty then d else dirtySubtract d [iv] ++ [(iv, owner)]

/-- `interval_map::erase(interval)`. -/
def dirtyErase (d : List (Iv × Nat)) (iv : Iv) : List (Iv × Nat) := dirtySubtract d [iv]

/-- `boost::icl::contains(dirty_regions, interval)`: domain coverage. -/
def dirtyCovers (d : List (Iv × Nat)) (iv : Iv) : Bool :=
  Regions.isEmptyB (Regions.diff [iv] (d.map Prod.fst))

/-- An address is in the domain of `dirty_regions`. -/
def dirtyMemP (d : List (Iv × Nat)) (a : Nat) : Prop := Regions.MemP (d.map Prod.fst) a

instance (d : List (Iv × Nat)) (a : Nat) : Decidable (dirtyMemP d a) := by
  unfold dirtyMemP; infer_instance

/-! ## Guest memory writes -/

/-- Overwrite `n` bytes starting at `base` with `src 0 .. src (n-1)`. -/
def writeBytes (mem : Nat → Nat) (base : Nat) (src : Nat → Nat) (n : Nat) : Nat → Nat :=
  fun a => if base ≤ a ∧ a < base + n then src (a - base) else mem a

/-- `RasterizerCache::DownloadSurface` (rasterizer_cache.cpp:924-952): download
the host texture and `EncodeTexture` it into guest memory over the flushed
interval.  The encoded bytes come from the host texture via the pixel codec —
both external — so they appear as the abstract `env.encoded`; `GetPhysicalRef`
fails outside guest memory and the write length is clamped to the mapped
span (`GetWriteBytes`). -/
def downloadSurface (env : Env) (st : CacheState) (sid : Nat) (iv : Iv) : CacheState :=
  if iv.lo < st.memSize then
    { st with mem := (writeBytes st.mem iv.lo (fun off => env.encoded sid (iv.lo + off))
        (min (iv.hi - iv.lo) (st.memSize - iv.lo))) }
  else st

/-- The fill loop of `DownloadFillSurface` (rasterizer_cache.cpp:975-978):
`for (offset = coarse_start_offset; offset < download_size; offset += fill_size)
 memcpy(&dest_ptr[offset], fill_data, min(fill_size, download_size - offset))`.
The fuel only bounds the iteration count; with `fill_size = 0` the C++ loop
would not terminate, and the model stops at fuel exhaustion instead. -/
def fillWriteLoop (fillData : Nat → Nat) (fillSize downloadSize base : Nat) :
    Nat → Nat → (Nat → Nat) → (Nat → Nat)
  | 0, _, mem => mem
  | fuel + 1, offset, mem =>
    if offset < downloadSize then
      fillWriteLoop fillData fillSize downloadSize base fuel (offset + fillSize)
        (writeBytes mem (base + offset) fillData (min fillSize (downloadSize - offset)))
    else mem

/-- `RasterizerCache::DownloadFillSurface` (rasterizer_cache.cpp:954-983).
Note that `dest_ptr` is obtained for `flush_start`, so all offsets in the
function — including the pattern-aligned `coarse_start_offset` and the
backup/restore — are relative to the flush start, not the surface base. -/
def downloadFillSurface (st : CacheState) (sid : Nat) (iv : Iv) : CacheState :=
  if iv.lo < st.memSize then
    let s := st.store sid
    let startOffset := iv.lo - s.params.addr
    let downloadSize := min (iv.hi - iv.lo) (st.memSize - iv.lo)
    let coarse := startOffset - startOffset % s.fill_size
    let backupBytes := startOffset % s.fill_size
    let backup := fun j => st.mem (iv.lo + coarse + j)
    let mem1 := fillWriteLoop s.fill_data s.fill_size downloadSize iv.lo
      (downloadSize + 1) coarse st.mem
    let mem2 := if backupBytes ≠ 0 then writeBytes mem1 (iv.lo + coarse) backup backupBytes
      else mem1
    { st with mem := mem2 }
  else st

/-- `RasterizerCache::FlushRegion` (rasterizer_cache.cpp:1073-1104).  The
`size ≤ 8` small-CPU-read heuristic flushes whole dirty entries.  The sanity
`ASSERT(surface->IsRegionValid(interval))` is a crash on violation and is not
modelled as a state change. -/
def flushRegion (env : Env) (st : CacheState) (addr size : Nat)
    (flushSurface : Option Nat) : CacheState :=
  if size = 0 then st
  else
    let flushIv : Iv := ⟨addr, addr + size⟩
    let pairs := st.dirty.filter (fun p => p.1.overlaps flushIv)
    let res := pairs.foldl (fun (acc : CacheState × Regions) p =>
      (if flushSurface.isSome ∧ flushSurface ≠ some p.2 then acc
       else
        ((if (acc.1.store p.2).params.type = .Fill
          then downloadFillSurface acc.1 p.2 (if size ≤ 8 then p.1 else p.1.inter flushIv)
          else downloadSurface env acc.1 p.2 (if size ≤ 8 then p.1 else p.1.inter flushIv)),
         (if size ≤ 8 then p.1 else p.1.inter flushIv) :: acc.2))) (st, ([] : Regions))
    { res.1 with dirty := dirtySubtract res.1.dirty res.2 }

/-! ## FindMatch (rasterizer_cache.cpp:234-335) -/

/-- `MatchFlags` (rasterizer_cache.cpp:234). -/
structure MatchFlags where
  fInvalid : Bool := false
  fExact : Bool := false
  fSubRect : Bool := false
  fCopy : Bool := false
  fExpand : Bool := false
  fTexCopy : Bool := false
deriving DecidableEq, Repr

/-- `ScaleMatch` (rasterizer_cache.h:21). -/
inductive ScaleMatch
  | Exact | Upscale | Ignore
deriving DecidableEq, Repr

/-- The running best match of the `FindMatch` loop
(`match_surface/match_valid/match_scale/match_interval`,
rasterizer_cache.cpp:253-256). -/
structure MatchState where
  surface : Option Nat := none
  valid : Bool := false
  scale : Nat := 0
  interval : Iv := ⟨0, 0⟩
deriving DecidableEq, Repr

/-- The `UpdateMatch` tie-break chain (rasterizer_cache.cpp:286-310): higher
res_scale wins, then validity, then the longer matched interval; ties keep the
incumbent. -/
def matchUpdate (ms : MatchState) (sid : Nat) (isValid : Bool) (scale : Nat)
    (iv : Iv) : MatchState :=
  if ms.scale < scale then ⟨some sid, isValid, scale, iv⟩
  else if scale < ms.scale then ms
  else if isValid = true ∧ ms.valid = false then ⟨some sid, isValid, scale, iv⟩
  else if isValid ≠ ms.valid then ms
  else if ms.interval.len < iv.len then ⟨some sid, isValid, scale, iv⟩
  else ms

/-- `IsMatch_Helper` (rasterizer_cache.cpp:272-311) for one flag: skip if the
flag is off or the match function failed, reject scale mismatches unless the
mode is `Ignore` or the candidate is a Fill surface, else run the tie-break. -/
def applyHelper (ms : MatchState) (enabled : Bool) (matched : Bool) (iv : Iv)
    (resScaleOk : Bool) (scaleMode : ScaleMatch) (sType : SurfaceType)
    (sid : Nat) (isValid : Bool) (scale : Nat) : MatchState :=
  if enabled = false then ms
  else if matched = false then ms
  else if resScaleOk = false ∧ scaleMode ≠ .Ignore ∧ sType ≠ .Fill then ms
  else matchUpdate ms sid isValid scale iv

/-- The copy-flag match function (rasterizer_cache.cpp:318-325). -/
def copyMatch (st : CacheState) (sid : Nat) (params : SurfaceParams) (vint : Iv) :
    Bool × Iv :=
  (decide ((Iv.inter ((st.store sid).GetCopyableInterval (params.FromInterval vint)) vint).len ≠ 0)
     && (st.store sid).CanCopy params ((st.store sid).GetCopyableInterval (params.FromInterval vint)),
   (st.store sid).GetCopyableInterval (params.FromInterval vint))

/-- The res_scale filter computed by the `FindMatch` loop for one surface
(rasterizer_cache.cpp:268-270). -/
def resScaleOkOf (st : CacheState) (params : SurfaceParams) (scaleMode : ScaleMatch)
    (sid : Nat) : Bool :=
  match scaleMode with
  | .Exact => decide (params.res_scale = (st.store sid).params.res_scale)
  | _ => decide (params.res_scale ≤ (st.store sid).params.res_scale)

/-- The validity bit the `FindMatch` loop computes for one surface
(rasterizer_cache.cpp:264-266): with `MatchFlags::Copy` in the flags it is
unconditionally `true`, otherwise it is `IsRegionValid` over the query
interval. -/
def isValidOf (flags : MatchFlags) (st : CacheState) (params : SurfaceParams)
    (vint : Option Iv) (sid : Nat) : Bool :=
  if flags.fCopy then true else (st.store sid).IsRegionValid (vint.getD params.GetInterval)

/-- Body of the surface loop of `FindMatch` (rasterizer_cache.cpp:259-332):
the five helpers run in source order on a single surface. -/
def findMatchOne (flags : MatchFlags) (st : CacheState) (params : SurfaceParams)
    (scaleMode : ScaleMatch) (vint : Option Iv) (ms : MatchState) (sid : Nat) : MatchState :=
  let s := st.store sid
  let resScaleOk := resScaleOkOf st params scaleMode sid
  let isValid := isValidOf flags st params vint sid
  if flags.fInvalid = false ∧ isValid = false then ms
  else
    let ms1 := applyHelper ms flags.fExact (s.params.ExactMatch params) s.params.GetInterval
      resScaleOk scaleMode s.params.type sid isValid s.params.res_scale
    let ms2 := applyHelper ms1 flags.fSubRect (s.params.CanSubRect params) s.params.GetInterval
      resScaleOk scaleMode s.params.type sid isValid s.params.res_scale
    let ms3 := applyHelper ms2 flags.fCopy
      (copyMatch st sid params (vint.getD params.GetInterval)).1
      (copyMatch st sid params (vint.getD params.GetInterval)).2
      resScaleOk scaleMode s.params.type sid isValid s.params.res_scale
    let ms4 := applyHelper ms3 flags.fExpand (s.params.CanExpand params) s.params.GetInterval
      resScaleOk scaleMode s.params.type sid isValid s.params.res_scale
    applyHelper ms4 flags.fTexCopy (s.params.CanTexCopy params) s.params.GetInterval
      resScaleOk scaleMode s.params.type sid isValid s.params.res_scale

/-- `FindMatch` (rasterizer_cache.cpp:249-335): fold over the registered
surfaces whose interval intersects the query.  `RangeFromInterval` yields each
overlapping surface (possibly repeatedly, which cannot change a running
maximum); the `std::set` iteration order is unspecified pointer order in the
C++, here the registration order. -/
def findMatchState (flags : MatchFlags) (st : CacheState) (params : SurfaceParams)
    (scaleMode : ScaleMatch) (vint : Option Iv) : MatchState :=
  (st.cache.filter (fun sid => (st.store sid).params.GetInterval.overlaps params.GetInterval)).foldl
    (findMatchOne flags st params scaleMode vint) {}

def findMatch (flags : MatchFlags) (st : CacheState) (params : SurfaceParams)
    (scaleMode : ScaleMatch) (vint : Option Iv) : Option Nat :=
  (findMatchState flags st params scaleMode vint).surface

/-! ## CopySurface, DuplicateSurface, Upload (rasterizer_cache.cpp:188-232, 802-830, 896-922) -/

/-- `RasterizerCache::CopySurface` (rasterizer_cache.cpp:190-232).  Both of its
branches (`ClearTexture` for fill sources, `BlitTextures` otherwise) act only
on host textures, which the cache never reads back; no tracked state
changes. -/
def copySurface (st : CacheState) (srcId dstId : Nat) (copyIv : Iv) : CacheState := st

/-- `RasterizerCache::DuplicateSurface` (rasterizer_cache.cpp:802-830): copy the
host texture (untracked), transfer validity, and re-own the source's dirty
entries. -/
def duplicateSurface (st : CacheState) (srcId dstId : Nat) : CacheState :=
  let srcIv := (st.store srcId).params.GetInterval
  let srcInvalid := (st.store srcId).invalid_regions
  let st1 := updateSurface st dstId (fun d =>
    { d with invalid_regions := srcInvalid ++ d.invalid_regions.erase srcIv })
  let regions := ((st1.dirty.filter (fun p => p.1.overlaps srcIv && decide (p.2 = srcId))).map
    Prod.fst)
  regions.foldl (fun st iv => { st with dirty := dirtySet st.dirty iv dstId }) st1

/-- `RasterizerCache::UploadSurface` (rasterizer_cache.cpp:896-922): decode
guest bytes (read-only) into a staging span and upload to the host texture.
When `GetPhysicalRef` fails nothing happens; otherwise the only tracked effect
is `Surface::Upload`'s `InvalidateAllWatcher` (cached_surface.cpp:45). -/
def uploadSurface (env : Env) (st : CacheState) (sid : Nat) (iv : Iv) : CacheState :=
  if ((st.store sid).params.FromInterval iv).addr < st.memSize then
    invalidateAllWatcher st sid
  else st

/-! ## ValidateSurface (rasterizer_cache.cpp:832-894) and helpers -/

/-- `RasterizerCache::NoUnimplementedReinterpretations`
(rasterizer_cache.cpp:985-1012): true iff no same-bit-width format has a
copyable candidate in the cache. -/
def allFormats : List PixelFormat :=
  [.RGBA8, .RGB8, .RGB5A1, .RGB565, .RGBA4, .IA8, .RG8, .I8, .A8, .IA4, .I4, .A4,
   .ETC1, .ETC1A4, .D16, .D24, .D24S8]

def noUnimplementedReinterpretations (st : CacheState) (sid : Nat)
    (params : SurfaceParams) (iv : Iv) : Bool :=
  allFormats.all (fun fmt =>
    (if GetFormatBpp fmt = (st.store sid).params.GetFormatBpp then
      (findMatch { fCopy := true } st { params with pixel_format := fmt } .Ignore
        (some iv)).isNone
     else true))

/-- `RasterizerCache::IntervalHasInvalidPixelFormat` (rasterizer_cache.cpp:1014-1025). -/
def intervalHasInvalidPixelFormat (st : CacheState) (iv : Iv) : Bool :=
  st.cache.any (fun sid => (st.store sid).params.GetInterval.overlaps iv &&
    decide ((st.store sid).params.pixel_format = PixelFormat.Invalid))

/-- `RasterizerCache::ValidateByReinterpretation` (rasterizer_cache.cpp:1027-1047):
try each registered reinterpreter for the surface's format; the GPU-side
`Reinterpret` call is untracked. -/
def validateByReinterpretation (st : CacheState) (sid : Nat) (params : SurfaceParams)
    (iv : Iv) : Bool :=
  (glReinterpreters (st.store sid).params.pixel_format).any (fun srcFmt =>
    (findMatch { fCopy := true } st { params with pixel_format := srcFmt } .Ignore
      (some iv)).isSome)

/-- One iteration of the `while (true)` loop of `ValidateSurface`
(rasterizer_cache.cpp:850-893), acting on the popped component `it`.  The
`params` reference the C++ mutates is rebuilt functionally at each use. -/
def validateStep (env : Env) (sid : Nat) (vint : Iv) (st : CacheState) (vr : Regions)
    (it : Iv) : CacheState × Regions :=
  let interval := it.inter vint
  let params := (st.store sid).params.FromInterval interval
  match findMatch { fCopy := true } st params .Ignore (some interval) with
  | some copyId =>
    -- rasterizer_cache.cpp:861-866
    let copyIv := (st.store copyId).GetCopyableInterval params
    let st1 := copySurface st copyId sid copyIv
    (updateSurface st1 sid (fun s =>
       { s with invalid_regions := s.invalid_regions.erase copyIv }),
     vr.erase copyIv)
  | none =>
    if validateByReinterpretation st sid params interval then
      -- rasterizer_cache.cpp:870-873
      (updateSurface st sid (fun s =>
         { s with invalid_regions := s.invalid_regions.erase interval }),
       vr.erase interval)
    else if noUnimplementedReinterpretations st sid params interval = true ∧
        intervalHasInvalidPixelFormat st interval = false ∧
        dirtyCovers st.dirty interval = true then
      -- rasterizer_cache.cpp:876-887: GPU-created content, skip the flush
      (st, vr.erase interval)
    else
      -- rasterizer_cache.cpp:889-892
      let st1 := flushRegion env st params.addr params.size none
      let st2 := uploadSurface env st1 sid interval
      (updateSurface st2 sid (fun s =>
         { s with invalid_regions := s.invalid_regions.erase params.GetInterval }),
       vr.erase params.GetInterval)

/-- The `while (true)` loop; the fuel bounds the iteration count (each real
iteration strictly shrinks the validate set, see
`validateLoop_empty_of_fuel`). -/
def validateLoop (env : Env) (sid : Nat) (vint : Iv) :
    Nat → CacheState → Regions → CacheState × Regions
  | 0, st, vr => (st, vr)
  | fuel + 1, st, vr =>
    match vr.firstComponent with
    | none => (st, vr)
    | some it =>
      let p := validateStep env sid vint st vr it
      validateLoop env sid vint fuel p.1 p.2

/-- `RasterizerCache::ValidateSurface` (rasterizer_cache.cpp:832-894).  For
fill surfaces the function only asserts validity and returns. -/
def validateSurface (env : Env) (st : CacheState) (sid : Nat) (addr size : Nat) :
    CacheState :=
  if size = 0 then st
  else if (st.store sid).params.type = .Fill then st
  else
    let vint : Iv := ⟨addr, addr + size⟩
    let vr := Regions.inter (st.store sid).invalid_regions vint
    (validateLoop env sid vint (Regions.totalLen vr + 1) st vr).1

/-! ## InvalidateRegion (rasterizer_cache.cpp:1110-1170) -/

/-- Set-like insertion into `remove_surfaces`. -/
def emplaceRemove (l : List Nat) (x : Nat) : List Nat :=
  if l.contains x then l else l ++ [x]

/-- `RasterizerCache::InvalidateRegion` (rasterizer_cache.cpp:1110-1170). -/
def invalidateRegion (env : Env) (st : CacheState) (addr size : Nat)
    (owner : Option Nat) : CacheState :=
  if size = 0 then st
  else
    let invalidIv : Iv := ⟨addr, addr + size⟩
    -- rasterizer_cache.cpp:1116-1122: the owner is authoritative for the region
    let st1 := match owner with
      | some oid => updateSurface st oid (fun s =>
          { s with invalid_regions := s.invalid_regions.erase invalidIv })
      | none => st
    -- rasterizer_cache.cpp:1124-1147: every other overlapping surface
    let overlapping := st1.cache.filter (fun sid =>
      (st1.store sid).params.GetInterval.overlaps invalidIv)
    let st2 := overlapping.foldl (fun st sid =>
      (if owner = some sid then st
       else if owner = none ∧ size ≤ 8 then
        -- CPU write heuristic: flush the whole surface and schedule removal
        let stf := flushRegion env st (st.store sid).params.addr (st.store sid).params.size
          (some sid)
        { stf with removeSurfaces := emplaceRemove stf.removeSurfaces sid }
       else
        let interval := (st.store sid).params.GetInterval.inter invalidIv
        let sti := updateSurface st sid (fun s =>
          { s with invalid_regions := interval :: s.invalid_regions })
        let stw := invalidateAllWatcher sti sid
        (if (stw.store sid).IsSurfaceFullyInvalid then
          { stw with removeSurfaces := emplaceRemove stw.removeSurfaces sid }
         else stw))) st1
    -- rasterizer_cache.cpp:1149-1152
    let st3 := match owner with
      | some oid => { st2 with dirty := dirtySet st2.dirty invalidIv oid }
      | none => { st2 with dirty := dirtyErase st2.dirty invalidIv }
    -- rasterizer_cache.cpp:1154-1169: drain remove_surfaces
    let st4 := st3.removeSurfaces.foldl (fun st rid =>
      (if owner = some rid then
        match findMatch { fSubRect := true, fInvalid := true } st (st.store rid).params
            .Ignore none with
        | some expandedId =>
          (if Regions.isEmptyB (Regions.diff (st.store rid).invalid_regions
              (st.store expandedId).invalid_regions) then
            unregisterSurface (duplicateSurface st rid expandedId) rid
           else st)
        | none => unregisterSurface st rid -- ASSERT(expanded_surface) would fire
       else unregisterSurface st rid)) st3
    { st4 with removeSurfaces := [] }

/-! ## AccelerateFill (rasterizer_cache.cpp:164-186) -/

/-- `GPU::Regs::MemoryFillConfig`, reduced to the fields `AccelerateFill`
reads; `GetStartAddress`/`GetEndAddress` already decoded to byte addresses. -/
structure MemoryFillConfig where
  startAddr : Nat
  finishAddr : Nat
  value32 : Nat
  fill24 : Bool := false
  fill32 : Bool := false

/-- `RasterizerCache::AccelerateFill` (rasterizer_cache.cpp:164-186): build a
Fill surface over the config range (constructed directly, so with no invalid
regions), register it and hand it the region as dirty owner.  `fill_data` is
`value_32bit` in little-endian byte order; `res_scale` is `u16` max. -/
def accelerateFill (env : Env) (st : CacheState) (cfg : MemoryFillConfig) :
    CacheState × Bool :=
  let params : SurfaceParams :=
    { addr := cfg.startAddr, endAddr := cfg.finishAddr,
      size := cfg.finishAddr - cfg.startAddr, type := .Fill, res_scale := 65535 }
  let sid := st.nextId
  let data : SurfaceData :=
    { params := params,
      fill_data := fun i => cfg.value32 >>> (8 * i) % 256,
      fill_size := if cfg.fill32 then 4 else if cfg.fill24 then 3 else 2 }
  let st1 : CacheState :=
    { st with
      store := fun i => if i = sid then data else st.store i
      nextId := sid + 1 }
  let st2 := registerSurface st1 sid
  (invalidateRegion env st2 params.addr params.size (some sid), true)

/-! ## GetSurface / GetSurfaceSubRect (rasterizer_cache.cpp:349-473) -/

/-- `RasterizerCache::GetSurface` (rasterizer_cache.cpp:349-395). The
`ASSERT(params.width == params.stride)` and tiled-alignment assert are crashes
on violation, not state changes. -/
def getSurface (env : Env) (st : CacheState) (params : SurfaceParams)
    (matchResScale : ScaleMatch) (loadIfCreate : Bool) : CacheState × Option Nat :=
  if params.addr = 0 ∨ params.height * params.width = 0 then (st, none)
  else
    match findMatch { fExact := true, fInvalid := true } st params matchResScale none with
    | some sid =>
      ((if loadIfCreate then validateSurface env st sid params.addr params.size else st),
       some sid)
    | none =>
      -- rasterizer_cache.cpp:364-383: adopt a higher res_scale from an
      -- expandable surface (including the D24S8 → RGBA8 pairing)
      let t1 :=
        if matchResScale ≠ ScaleMatch.Exact then
          match findMatch { fExpand := true, fInvalid := true } st params matchResScale none with
          | some eid => max params.res_scale (st.store eid).params.res_scale
          | none => params.res_scale
        else params.res_scale
      let t2 :=
        if matchResScale ≠ ScaleMatch.Exact ∧ params.pixel_format = PixelFormat.RGBA8 then
          match findMatch { fExpand := true, fInvalid := true } st
              { params with pixel_format := .D24S8 } matchResScale none with
          | some eid => max t1 (st.store eid).params.res_scale
          | none => t1
        else t1
      let p := createSurface st { params with res_scale := t2 }
      let st2 := registerSurface p.1 p.2
      ((if loadIfCreate then validateSurface env st2 p.2 params.addr params.size else st2),
       some p.2)

/-- `RasterizerCache::GetSurfaceSubRect` (rasterizer_cache.cpp:397-473).  The
result carries the possibly-aligned params because the expand branch rewrites
`aligned_params` before the final validation.  A null result from the inner
`GetSurface` would be dereferenced by the C++ (`surface->GetScaledSubRect`);
the model returns an empty rectangle there. -/
def getSurfaceSubRect (env : Env) (st : CacheState) (params : SurfaceParams)
    (matchResScale : ScaleMatch) (loadIfCreate : Bool) :
    CacheState × Option Nat × Rect :=
  if params.addr = 0 ∨ params.height * params.width = 0 then (st, none, ⟨0, 0, 0, 0⟩)
  else
    let m0 := findMatch { fSubRect := true, fInvalid := true } st params matchResScale none
    -- rasterizer_cache.cpp:407-421: lower-res placeholder
    let stP :=
      if m0.isNone ∧ matchResScale ≠ ScaleMatch.Ignore then
        match findMatch { fSubRect := true, fInvalid := true } st params .Ignore none with
        | some lowId =>
          let p := createSurface st
            { (st.store lowId).params with res_scale := params.res_scale }
          (registerSurface p.1 p.2, some p.2)
        | none => (st, (none : Option Nat))
      else (st, m0)
    -- rasterizer_cache.cpp:423-429: align tiled params to 8 px
    let aligned0 :=
      if params.is_tiled then
        ({ params with
            height := alignUp params.height 8
            width := alignUp params.width 8
            stride := alignUp params.stride 8 } : SurfaceParams).UpdateParams
      else params
    -- rasterizer_cache.cpp:431-458: expandable surface
    let step2 :=
      if stP.2.isNone then
        match findMatch { fExpand := true, fInvalid := true } stP.1 aligned0
            matchResScale none with
        | some eid =>
          let aligned1 := ({ aligned0 with width := aligned0.stride } :
            SurfaceParams).UpdateParams
          let old := (stP.1.store eid).params
          let newParams : SurfaceParams :=
            { old with
              addr := min aligned1.addr old.addr
              endAddr := max aligned1.endAddr old.endAddr
              size := max aligned1.endAddr old.endAddr - min aligned1.addr old.addr
              height := (max aligned1.endAddr old.endAddr - min aligned1.addr old.addr) /
                aligned1.BytesInPixels aligned1.stride }
          let p := createSurface stP.1 newParams
          let std := duplicateSurface p.1 eid p.2
          let stu := unlinkAllWatcher std eid
          let str := { stu with removeSurfaces := emplaceRemove stu.removeSurfaces eid }
          (registerSurface str p.2, (some p.2 : Option Nat), aligned1)
        | none => (stP.1, (none : Option Nat), aligned0)
      else (stP.1, stP.2, aligned0)
    match step2.2.1 with
    | some sid =>
      -- rasterizer_cache.cpp:468-472
      let stv := if loadIfCreate then
          validateSurface env step2.1 sid step2.2.2.addr step2.2.2.size
        else step2.1
      (stv, some sid, (stv.store sid).params.GetScaledSubRect params)
    | none =>
      -- rasterizer_cache.cpp:460-467: no subrect found, fall back to GetSurface
      let newParams := ({ step2.2.2 with width := step2.2.2.stride } :
        SurfaceParams).UpdateParams
      let g := getSurface env step2.1 newParams matchResScale loadIfCreate
      match g.2 with
      | some sid => (g.1, some sid, (g.1.store sid).params.GetScaledSubRect params)
      | none => (g.1, none, ⟨0, 0, 0, 0⟩)

/-! ## GetTextureSurface (rasterizer_cache.cpp:482-574) -/

/-- `Pica::Texture::TextureInfo`, reduced to the fields read. -/
structure TextureInfo where
  physicalAddress : Nat := 0
  width : Nat := 0
  height : Nat := 0
  format : TextureFormat := .RGBA8

def setLevelWatcher (st : CacheState) (sid level : Nat) (w : Option Nat) : CacheState :=
  updateSurface st sid (fun s =>
    { s with levelWatchers := fun l => if l = level then w else s.levelWatchers l })

/-- One iteration of the mip-level loop (rasterizer_cache.cpp:532-570).  The
accumulated `SurfaceParams` is the C++ `surface_params` that is advanced and
halved per level; the per-level `BlitTextures`/`GenerateMipmaps` are
host-side. -/
def mipStep (env : Env) (acc : CacheState × SurfaceParams) (baseSid level : Nat) :
    CacheState × SurfaceParams :=
  let st := acc.1
  let sp0 := acc.2
  let sp := ({ sp0 with
      addr := sp0.addr + sp0.width * sp0.height * sp0.GetFormatBpp / 8
      width := sp0.width / 2
      height := sp0.height / 2
      stride := 0
      levels := 1 } : SurfaceParams).UpdateParams
  let w0 := (st.store baseSid).levelWatchers (level - 1)
  let needNew := match w0 with
    | none => true
    | some wid => ((st.watchers wid).ref).isNone
  let st1 :=
    if needNew then
      match getSurface env st sp .Ignore true with
      | (stg, some ls) =>
        let p := createWatcher stg ls
        setLevelWatcher p.1 baseSid (level - 1) (some p.2)
      | (stg, none) => setLevelWatcher stg baseSid (level - 1) none
    else st
  let st2 := match (st1.store baseSid).levelWatchers (level - 1) with
    | some wid =>
      if (st1.watchers wid).valid = false then
        match (st1.watchers wid).ref with
        | some ls =>
          let stv := if Regions.isEmptyB (st1.store ls).invalid_regions = false then
              validateSurface env st1 ls (st1.store ls).params.addr
                (st1.store ls).params.size
            else st1
          { stv with watchers := fun w =>
              (if w = wid then { stv.watchers w with valid := true } else stv.watchers w) }
        | none => st1
      else st1
    | none => st1
  (st2, sp)

/-- `RasterizerCache::GetTextureSurface` (rasterizer_cache.cpp:482-574).  Note
the order of the guards: the 8-px and mip-consistency checks precede the
`GetSurface` call, but the `max_level >= 8` check runs after it. -/
def getTextureSurface (env : Env) (st : CacheState) (info : TextureInfo)
    (maxLevel : Nat) : CacheState × Option Nat :=
  if info.physicalAddress = 0 then (st, none)
  else
    let params := ({
      addr := info.physicalAddress
      width := info.width
      height := info.height
      levels := maxLevel + 1
      is_tiled := true
      pixel_format := PixelFormatFromTextureFormat info.format
      res_scale := if env.isNullFilter then 1 else st.resolutionScaleFactor } :
        SurfaceParams).UpdateParams
    if (info.width >>> maxLevel) % 8 ≠ 0 ∨ (info.height >>> maxLevel) % 8 ≠ 0 then
      (st, none)
    else if info.width ≠ (info.width >>> maxLevel) <<< maxLevel ∨
        info.height ≠ (info.height >>> maxLevel) <<< maxLevel then (st, none)
    else
      match getSurface env st params .Ignore true with
      | (stg, none) => (stg, none)
      | (stg, some sid) =>
        if maxLevel = 0 then (stg, some sid)
        else if 8 ≤ maxLevel then (stg, none)
        else
          let r := (List.range maxLevel).foldl (fun acc i =>
            mipStep env acc sid (i + 1)) (stg, (stg.store sid).params)
          (r.1, some sid)

/-! ## GetFramebufferSurfaces (rasterizer_cache.cpp:660-760) -/

/-- `RasterizerCache::FlushAll` (rasterizer_cache.cpp:1106-1108). -/
def flushAll (env : Env) (st : CacheState) : CacheState :=
  flushRegion env st 0 0xFFFFFFFF none

/-- Modelled from the spec: `SurfaceParams::GetSubRectInterval` (declared
surface_params.h:38, body missing): "the address interval referenced by
unscaled_rect" — the byte span of rows `[bottom, top)`, widened to whole tiles
for tiled surfaces; empty rectangles give the empty interval. -/
def SurfaceParams.GetSubRectInterval (p : SurfaceParams) (r : Rect) : Iv :=
  if r.right ≤ r.left ∨ r.top ≤ r.bottom then ⟨0, 0⟩
  else
    ⟨p.addr + p.BytesInPixels (p.stride * alignDown r.bottom p.tiledSize),
     p.addr + p.BytesInPixels (p.stride * alignUp r.top p.tiledSize)⟩

/-- The framebuffer registers read by `GetFramebufferSurfaces`
(`regs.framebuffer.framebuffer`), already decoded. -/
structure FbConfig where
  fbWidth : Nat := 0
  fbHeight : Nat := 0
  colorAddr : Nat := 0
  depthAddr : Nat := 0
  colorFormat : ColorFormat := .RGBA8
  depthFormat : DepthFormat := .D16

/-- A signed viewport rectangle (`GetViewportRect` result). -/
structure IRect where
  left : Int := 0
  top : Int := 0
  right : Int := 0
  bottom : Int := 0

/-- `std::clamp(v, 0, bound)` followed by the `u32` cast. -/
def clampVp (x : Int) (bound : Nat) : Nat := (max 0 (min x (bound : Int))).toNat

/-- rasterizer_cache.cpp:681-686. -/
def viewportClamped (vp : IRect) (w h : Nat) : Rect :=
  ⟨clampVp vp.left w, clampVp vp.top h, clampVp vp.right w, clampVp vp.bottom h⟩

/-- The color params built at rasterizer_cache.cpp:689-698. -/
def fbColorParams (cfg : FbConfig) (scale : Nat) : SurfaceParams :=
  ({ addr := cfg.colorAddr, width := cfg.fbWidth, height := cfg.fbHeight,
     is_tiled := true, res_scale := scale,
     pixel_format := PixelFormatFromColorFormat cfg.colorFormat } :
    SurfaceParams).UpdateParams

/-- The depth params built at rasterizer_cache.cpp:694-702. -/
def fbDepthParams (cfg : FbConfig) (scale : Nat) : SurfaceParams :=
  ({ addr := cfg.depthAddr, width := cfg.fbWidth, height := cfg.fbHeight,
     is_tiled := true, res_scale := scale,
     pixel_format := PixelFormatFromDepthFormat cfg.depthFormat } :
    SurfaceParams).UpdateParams

/-- `RasterizerCache::GetFramebufferSurfaces` (rasterizer_cache.cpp:660-760),
returning (state, color surface, depth surface, fb_rect).  The texture-cube
cache cleared on a resolution change is untracked; `render_targets` is only
read by `InvalidateFramebuffer`, which no claim concerns. -/
def getFramebufferSurfaces (env : Env) (st : CacheState)
    (usingColorFb usingDepthFb : Bool) (cfg : FbConfig) (vp : IRect) :
    CacheState × Option Nat × Option Nat × Rect :=
  -- rasterizer_cache.cpp:664-676: resolution-scale / texture-filter reset
  let st0 :=
    if st.resolutionScaleFactor ≠ env.resolutionScaleFactor ∨
        (env.textureFilterUpdateRequested ∧ env.resetFilterResult) then
      let sta := { st with resolutionScaleFactor := env.resolutionScaleFactor }
      let stb := flushAll env sta
      stb.cache.foldl unregisterSurface stb
    else st
  let clamped := viewportClamped vp cfg.fbWidth cfg.fbHeight
  let colorParams := fbColorParams cfg st0.resolutionScaleFactor
  let depthParams := fbDepthParams cfg st0.resolutionScaleFactor
  let colorVp := colorParams.GetSubRectInterval clamped
  let depthVp := depthParams.GetSubRectInterval clamped
  -- rasterizer_cache.cpp:707-713: overlapping color/depth regions disable depth
  let usingDepth2 := if usingColorFb = true ∧ usingDepthFb = true ∧
      (Iv.inter colorVp depthVp).len ≠ 0 then false else usingDepthFb
  let c := if usingColorFb then getSurfaceSubRect env st0 colorParams .Exact false
    else (st0, none, (⟨0, 0, 0, 0⟩ : Rect))
  let d := if usingDepth2 then getSurfaceSubRect env c.1 depthParams .Exact false
    else (c.1, none, (⟨0, 0, 0, 0⟩ : Rect))
  -- rasterizer_cache.cpp:727-741: rectangle agreement / fb_rect
  let step :=
    if c.2.1.isSome ∧ d.2.1.isSome then
      (if c.2.2 ≠ d.2.2 then
        let gc := getSurface env d.1 colorParams .Exact false
        let gd := getSurface env gc.1 depthParams .Exact false
        let fbr := match gc.2 with
          | some cid => (gd.1.store cid).params.GetScaledRect
          | none => (⟨0, 0, 0, 0⟩ : Rect)
        (gd.1, gc.2, gd.2, fbr)
       else (d.1, c.2.1, d.2.1, c.2.2))
    else if c.2.1.isSome then (d.1, c.2.1, d.2.1, c.2.2)
    else if d.2.1.isSome then (d.1, c.2.1, d.2.1, d.2.2)
    else (d.1, c.2.1, d.2.1, (⟨0, 0, 0, 0⟩ : Rect))
  -- rasterizer_cache.cpp:743-752: validate over the viewport intervals
  let stv1 := match step.2.1 with
    | some cid => invalidateAllWatcher
        (validateSurface env step.1 cid colorVp.lo colorVp.len) cid
    | none => step.1
  let stv2 := match step.2.2.1 with
    | some did => invalidateAllWatcher
        (validateSurface env stv1 did depthVp.lo depthVp.len) did
    | none => stv1
  (stv2, step.2.1, step.2.2.1, step.2.2.2)

/-- A freshly constructed cache over the given guest memory
(rasterizer_cache.cpp:337-340). -/
def initState (mem : Nat → Nat) (memSize : Nat) (scale : Nat) : CacheState :=
  { mem := mem, memSize := memSize, resolutionScaleFactor := scale }

/-! ## Claim C8 -/

/-- C8: for params with a null address or zero area, `GetSurface` returns the
null surface and `GetSurfaceSubRect` returns the null surface with an empty
rectangle, and neither modifies the cache (the returned state is the input
state). -/
theorem c8_null_params_rejected (env : Env) (st : CacheState) (params : SurfaceParams)
    (m m2 : ScaleMatch) (l l2 : Bool)
    (h : params.addr = 0 ∨ params.height * params.width = 0) :
    getSurface env st params m l = (st, none) ∧
    getSurfaceSubRect env st params m2 l2 = (st, none, ⟨0, 0, 0, 0⟩) := by
  constructor
  · unfold getSurface
    rw [if_pos h]
  · unfold getSurfaceSubRect
    rw [if_pos h]

/-- Witness for C8 at a concrete zero-area parameter set. -/
theorem c8_null_params_rejected_witness :
    ((({} : SurfaceParams).addr = 0 ∨ ({} : SurfaceParams).height * ({} : SurfaceParams).width = 0)
      ∧ getSurface {} {} {} .Exact true = ({}, none)
      ∧ getSurfaceSubRect {} {} {} .Exact true = ({}, none, ⟨0, 0, 0, 0⟩)) := by
  refine ⟨Or.inl rfl, ?_, ?_⟩
  · exact (c8_null_params_rejected {} {} {} .Exact .Exact true true (Or.inl rfl)).1
  · exact (c8_null_params_rejected {} {} {} .Exact .Exact true true (Or.inl rfl)).2

/-! ## Claim C10 -/

/-- `fillWriteLoop` never writes below `base + offset`. -/
theorem fillWriteLoop_below (fd : Nat → Nat) (fs ds base : Nat) :
    ∀ fuel offset mem x, x < base + offset →
      fillWriteLoop fd fs ds base fuel offset mem x = mem x := by
  intro fuel
  induction fuel with
  | zero => intro offset mem x _; rfl
  | succ n ih =>
    intro offset mem x hx
    show (if offset < ds then _ else mem) x = mem x
    split
    · rw [ih (offset + fs) _ x (by omega)]
      unfold writeBytes
      rw [if_neg (by omega)]
    · rfl

/-- C10: when the flush start of a fill-surface download is not aligned to the
fill pattern, the guest bytes between the pattern-aligned block start
(`surface.addr + coarse_start_offset = flush_start − backup_bytes`) and the
flush start are left unchanged.  (In fact every byte below the flush start is
untouched: because `dest_ptr` is based at `flush_start`, all writes land at or
above it, and the backup/restore pair targets
`[flush_start + coarse_start_offset, …)` instead of the pre-start bytes.) -/
theorem c10_fill_download_preserves_prefix (st : CacheState) (sid : Nat) (iv : Iv) (x : Nat)
    (hfill : (st.store sid).params.type = .Fill)
    (haddr : (st.store sid).params.addr ≤ iv.lo)
    (hunaligned : (iv.lo - (st.store sid).params.addr) % (st.store sid).fill_size ≠ 0)
    (hx1 : (st.store sid).params.addr +
      ((iv.lo - (st.store sid).params.addr) -
       (iv.lo - (st.store sid).params.addr) % (st.store sid).fill_size) ≤ x)
    (hx2 : x < iv.lo) :
    (downloadFillSurface st sid iv).mem x = st.mem x := by
  unfold downloadFillSurface
  split
  · dsimp only
    rw [if_pos hunaligned]
    unfold writeBytes
    rw [if_neg (by omega)]
    exact fillWriteLoop_below _ _ _ _ _ _ _ _ (by omega)
  · rfl

/-- Witness for C10: a 4-byte fill surface flushed from an unaligned start. -/
def c10state : CacheState :=
  { store := fun i => if i = 0 then
      { params := { addr := 0x1000, endAddr := 0x2000, size := 0x1000, type := .Fill,
                    res_scale := 65535 },
        fill_size := 4, fill_data := fun i => i + 1, registered := true }
      else {},
    nextId := 1, cache := [0], mem := fun _ => 9, memSize := 0x4000 }

theorem c10_fill_download_preserves_prefix_witness :
    (c10state.store 0).params.type = .Fill ∧
    (downloadFillSurface c10state 0 ⟨0x1002, 0x1008⟩).mem 0x1001 = c10state.mem 0x1001 := by
  refine ⟨rfl, ?_⟩
  exact c10_fill_download_preserves_prefix c10state 0 ⟨0x1002, 0x1008⟩ 0x1001
    rfl (by decide) (by decide) (by decide) (by decide)

/-! ## Claim C5 -/

theorem downloadSurface_dirty (env : Env) (st : CacheState) (sid : Nat) (iv : Iv) :
    (downloadSurface env st sid iv).dirty = st.dirty := by
  unfold downloadSurface
  split <;> rfl

theorem downloadFillSurface_dirty (st : CacheState) (sid : Nat) (iv : Iv) :
    (downloadFillSurface st sid iv).dirty = st.dirty := by
  unfold downloadFillSurface
  split <;> rfl

theorem Iv.overlaps_of_mem {I J : Iv} {x : Nat} (h1 : I.lo ≤ x) (h2 : x < I.hi)
    (h3 : J.lo ≤ x) (h4 : x < J.hi) : I.overlaps J = true := by
  have hne : (I.inter J).isEmpty = false := by
    unfold Iv.isEmpty Iv.inter
    dsimp only
    rw [decide_eq_false_iff_not]
    omega
  unfold Iv.overlaps
  rw [hne]
  rfl

theorem foldl_dirty_const {α : Type} (f : (CacheState × Regions) → α → (CacheState × Regions))
    (hf : ∀ acc p, (f acc p).1.dirty = acc.1.dirty) :
    ∀ (l : List α) (acc : CacheState × Regions), (l.foldl f acc).1.dirty = acc.1.dirty := by
  intro l
  induction l with
  | nil => intro acc; rfl
  | cons p l ih => intro acc; rw [List.foldl_cons, ih, hf]

theorem foldl_regions_accum {α : Type} (f : (CacheState × Regions) → α → (CacheState × Regions))
    (contrib : α → Iv)
    (hf1 : ∀ acc p y, y ∈ acc.2 → y ∈ (f acc p).2)
    (hf2 : ∀ acc p, contrib p ∈ (f acc p).2) :
    ∀ (l : List α) (acc : CacheState × Regions),
      (∀ y ∈ acc.2, y ∈ (l.foldl f acc).2) ∧ (∀ p ∈ l, contrib p ∈ (l.foldl f acc).2) := by
  intro l
  induction l with
  | nil => intro acc; exact ⟨fun y hy => hy, fun p hp => absurd hp (List.not_mem_nil p)⟩
  | cons p l ih =>
    intro acc
    rw [List.foldl_cons]
    refine ⟨fun y hy => (ih (f acc p)).1 y (hf1 acc p y hy), ?_⟩
    intro q hq
    rcases List.mem_cons.mp hq with hq | hq
    · rw [hq]
      exact (ih (f acc p)).1 _ (hf2 acc p)
    · exact (ih (f acc p)).2 q hq

theorem dirtyDom_subtract_one (d : List (Iv × Nat)) (J : Iv) :
    (d.flatMap (fun p => (p.1.subtract J).map (fun q => (q, p.2)))).map Prod.fst =
      Regions.erase (d.map Prod.fst) J := by
  induction d with
  | nil => rfl
  | cons p d ih =>
    have hcomp : List.map (Prod.fst ∘ fun q => (q, p.2)) (p.1.subtract J) = p.1.subtract J := by
      have hid : (Prod.fst ∘ fun q => (q, p.2)) = fun q : Iv => q := rfl
      rw [hid]
      exact List.map_id' _
    have herase : Regions.erase (List.map Prod.fst (p :: d)) J =
        p.1.subtract J ++ Regions.erase (List.map Prod.fst d) J := by
      show Regions.erase (p.1 :: List.map Prod.fst d) J = _
      unfold Regions.erase
      rw [List.flatMap_cons]
    rw [List.flatMap_cons, List.map_append, List.map_map, ih, hcomp, herase]

theorem dirtyDom_subtract (d : List (Iv × Nat)) (rs : Regions) :
    (dirtySubtract d rs).map Prod.fst = Regions.diff (d.map Prod.fst) rs := by
  induction rs generalizing d with
  | nil => rfl
  | cons J rs ih =>
    have h1 : dirtySubtract d (J :: rs) =
        dirtySubtract (d.flatMap (fun p => (p.1.subtract J).map (fun q => (q, p.2)))) rs := rfl
    have h2 : Regions.diff (d.map Prod.fst) (J :: rs) =
        Regions.diff (Regions.erase (d.map Prod.fst) J) rs := rfl
    rw [h1, h2, ih, dirtyDom_subtract_one]

/-- C5: after `FlushRegion(a, sz)` with no restricting surface and `sz > 0`,
no address of `[a, a + sz)` remains in the domain of `dirty_regions`. -/
theorem c5_flush_clears_dirty (env : Env) (st : CacheState) (a sz : Nat) (h : 0 < sz)
    (x : Nat) (hx1 : a ≤ x) (hx2 : x < a + sz) :
    ¬ dirtyMemP (flushRegion env st a sz none).dirty x := by
  unfold flushRegion
  rw [if_neg (by omega)]
  dsimp only
  intro hmem
  unfold dirtyMemP at hmem
  rw [dirtyDom_subtract, Regions.memP_diff] at hmem
  -- the fold leaves dirty_regions untouched and accumulates every contribution
  have hdirty : ((st.dirty.filter (fun p => p.1.overlaps ⟨a, a + sz⟩)).foldl
      (fun (acc : CacheState × Regions) p =>
        (if (none : Option Nat).isSome ∧ (none : Option Nat) ≠ some p.2 then acc
         else
          ((if (acc.1.store p.2).params.type = .Fill
            then downloadFillSurface acc.1 p.2 (if sz ≤ 8 then p.1 else p.1.inter ⟨a, a + sz⟩)
            else downloadSurface env acc.1 p.2 (if sz ≤ 8 then p.1 else p.1.inter ⟨a, a + sz⟩)),
           (if sz ≤ 8 then p.1 else p.1.inter ⟨a, a + sz⟩) :: acc.2)))
      (st, ([] : Regions))).1.dirty = st.dirty := by
    apply foldl_dirty_const
    intro acc p
    split
    · rfl
    · dsimp only
      split
      · rw [downloadFillSurface_dirty]
      · rw [downloadSurface_dirty]
  rw [hdirty] at hmem
  obtain ⟨⟨I, hI, hIx1, hIx2⟩, hnot⟩ := hmem
  obtain ⟨p, hpd, rfl⟩ := List.mem_map.mp hI
  apply hnot
  have hover : p.1.overlaps ⟨a, a + sz⟩ = true :=
    Iv.overlaps_of_mem hIx1 hIx2 (show (⟨a, a + sz⟩ : Iv).lo ≤ x from hx1)
      (show x < (⟨a, a + sz⟩ : Iv).hi from hx2)
  have hpin : p ∈ st.dirty.filter (fun p => p.1.overlaps ⟨a, a + sz⟩) :=
    List.mem_filter.mpr ⟨hpd, hover⟩
  have haccum := (foldl_regions_accum
    (fun (acc : CacheState × Regions) p =>
      (if (none : Option Nat).isSome ∧ (none : Option Nat) ≠ some p.2 then acc
       else
        ((if (acc.1.store p.2).params.type = .Fill
          then downloadFillSurface acc.1 p.2 (if sz ≤ 8 then p.1 else p.1.inter ⟨a, a + sz⟩)
          else downloadSurface env acc.1 p.2 (if sz ≤ 8 then p.1 else p.1.inter ⟨a, a + sz⟩)),
         (if sz ≤ 8 then p.1 else p.1.inter ⟨a, a + sz⟩) :: acc.2)))
    (fun p => if sz ≤ 8 then p.1 else p.1.inter ⟨a, a + sz⟩)
    (by
      intro acc p y hy
      dsimp only
      split
      · exact hy
      · exact List.mem_cons_of_mem _ hy)
    (by
      intro acc p
      dsimp only
      split
      · rename_i hcontra
        simp at hcontra
      · exact List.mem_cons_self _ _)
    (st.dirty.filter (fun p => p.1.overlaps ⟨a, a + sz⟩)) (st, ([] : Regions))).2 p hpin
  refine ⟨if sz ≤ 8 then p.1 else p.1.inter ⟨a, a + sz⟩, haccum, ?_, ?_⟩
  · split
    · exact hIx1
    · show (Iv.inter p.1 ⟨a, a + sz⟩).lo ≤ x
      unfold Iv.inter
      dsimp only
      omega
  · split
    · exact hIx2
    · show x < (Iv.inter p.1 ⟨a, a + sz⟩).hi
      unfold Iv.inter
      dsimp only
      omega

/-- Witness for C5 on a concrete dirty cache. -/
def c5state : CacheState :=
  { dirty := [(⟨0x1000, 0x1100⟩, 0)], memSize := 0x4000 }

theorem c5_flush_clears_dirty_witness :
    (0 : Nat) < 0x80 ∧ ¬ dirtyMemP (flushRegion {} c5state 0x1000 0x80 none).dirty 0x1040 := by
  exact ⟨by decide, c5_flush_clears_dirty {} c5state 0x1000 0x80 (by decide) 0x1040
    (by decide) (by decide)⟩

/-! ## Claim C2 -/

theorem fillWriteLoop_eval (fd : Nat → Nat) (fs ds base : Nat) (hfs : 0 < fs) :
    ∀ fuel offset mem x, offset ≤ x → x < ds → ds ≤ offset + fuel * fs →
      fillWriteLoop fd fs ds base fuel offset mem (base + x) = fd ((x - offset) % fs) := by
  intro fuel
  induction fuel with
  | zero =>
    intro offset mem x h1 h2 h3
    have hcontra : ds ≤ offset := by simpa using h3
    exact absurd h2 (by omega)
  | succ n ih =>
    intro offset mem x h1 h2 h3
    show (if offset < ds then fillWriteLoop fd fs ds base n (offset + fs)
        (writeBytes mem (base + offset) fd (min fs (ds - offset))) else mem) (base + x)
      = fd ((x - offset) % fs)
    rw [if_pos (by omega)]
    by_cases hcase : x < offset + fs
    · rw [fillWriteLoop_below fd fs ds base n (offset + fs) _ (base + x) (by omega)]
      unfold writeBytes
      rw [if_pos ⟨by omega, by omega⟩, Nat.mod_eq_of_lt (by omega)]
      congr 1
      omega
    · have hmod : (x - (offset + fs)) % fs = (x - offset) % fs := by
        have h5 : x - offset = fs + (x - (offset + fs)) := by omega
        rw [h5, Nat.add_mod_left]
      rw [ih (offset + fs) _ x (by omega) h2
        (by rw [Nat.succ_mul] at h3; omega), hmod]

/-- The guest bytes written by `DownloadFillSurface` when the flush starts at
the surface base: every byte of the flushed (and mapped) range holds the fill
pattern byte for its offset. -/
theorem downloadFillSurface_aligned (st : CacheState) (sid : Nat) (iv : Iv) (k : Nat)
    (haddr : (st.store sid).params.addr = iv.lo)
    (hmem : iv.lo < st.memSize)
    (hk : k < min (iv.hi - iv.lo) (st.memSize - iv.lo))
    (hfs : 0 < (st.store sid).fill_size) :
    (downloadFillSurface st sid iv).mem (iv.lo + k) =
      (st.store sid).fill_data (k % (st.store sid).fill_size) := by
  unfold downloadFillSurface
  rw [if_pos hmem]
  dsimp only
  rw [haddr]
  simp only [Nat.sub_self, Nat.zero_mod, Nat.add_zero]
  rw [if_neg (by omega)]
  have key := fillWriteLoop_eval (st.store sid).fill_data (st.store sid).fill_size
      (min (iv.hi - iv.lo) (st.memSize - iv.lo)) iv.lo hfs
      (min (iv.hi - iv.lo) (st.memSize - iv.lo) + 1) 0 st.mem k (Nat.zero_le k) hk
      (by
        have h6 := Nat.le_mul_of_pos_right
          (min (iv.hi - iv.lo) (st.memSize - iv.lo) + 1) hfs
        omega)
  rw [key, Nat.sub_zero]

/-- The fill configuration of the C2 scenario: a memory fill of
`[0x1000, 0x2000)` with fill value `0xDEADBEEF` (32-bit fill). -/
def c2cfg : MemoryFillConfig :=
  { startAddr := 0x1000, finishAddr := 0x2000, value32 := 0xDEADBEEF
    fill24 := false, fill32 := true }

/-- `FlushRegion` over a cache whose dirty map is a single Fill-owned entry
reduces to one `DownloadFillSurface` call on the clipped interval (the
`size > 8` path of rasterizer_cache.cpp:1083-1100). -/
theorem flushRegion_single_fill (env : Env) (st : CacheState) (sid : Nat) (iv : Iv)
    (addr size : Nat)
    (hdirty : st.dirty = [(iv, sid)])
    (hov : iv.overlaps ⟨addr, addr + size⟩ = true)
    (h8 : ¬ size ≤ 8) (hsz : ¬ size = 0)
    (hfill : (st.store sid).params.type = .Fill) :
    (flushRegion env st addr size none).mem =
      (downloadFillSurface st sid (iv.inter ⟨addr, addr + size⟩)).mem := by
  unfold flushRegion
  rw [if_neg hsz]
  dsimp only
  rw [hdirty]
  rw [show List.filter (fun p => p.1.overlaps ⟨addr, addr + size⟩) [(iv, sid)]
      = [(iv, sid)] from by
    rw [List.filter_cons, List.filter_nil]
    dsimp only
    rw [hov]
    rfl]
  rw [List.foldl_cons, List.foldl_nil]
  dsimp only
  rw [if_neg (by simp), if_pos hfill, if_neg h8]

set_option maxRecDepth 4000 in
/-- C2 counterexample: after `AccelerateFill` with value `0xDEADBEEF` and a
flush of the filled range, the first guest byte is `0xEF` (the little-endian
low byte of the fill value), not `0xBE` as the spec's byte sequence
`BE BA AD DE` begins.  `std::memcpy(&fill_data[0], &config.value_32, 4)`
(rasterizer_cache.cpp:578) copies the value in host little-endian order, so
the written pattern is `EF BE AD DE`. -/
theorem c2_counterexample :
    (flushRegion {} (accelerateFill {} (initState (fun _ => 0) 0x2000 1) c2cfg).1
        0x1000 0x1000 none).mem 0x1000 = 0xEF ∧ (0xEF : Nat) ≠ 0xBE := by
  constructor
  · have hstep : (flushRegion {} (accelerateFill {} (initState (fun _ => 0) 0x2000 1)
          c2cfg).1 0x1000 0x1000 none).mem
        = (downloadFillSurface (accelerateFill {} (initState (fun _ => 0) 0x2000 1)
            c2cfg).1 0 ⟨0x1000, 0x2000⟩).mem := by
      rw [flushRegion_single_fill {} _ 0 ⟨0x1000, 0x2000⟩ 0x1000 0x1000 rfl
        (by decide) (by decide) (by decide) rfl]
      rfl
    have key := downloadFillSurface_aligned
      (accelerateFill {} (initState (fun _ => 0) 0x2000 1) c2cfg).1 0 ⟨0x1000, 0x2000⟩ 0
      rfl (by decide) (by decide) (by decide)
    have key2 : (downloadFillSurface (accelerateFill {} (initState (fun _ => 0) 0x2000 1)
        c2cfg).1 0 ⟨0x1000, 0x2000⟩).mem 0x1000 = 0xEF := key
    rw [congrFun hstep 0x1000, key2]
  · decide

set_option maxRecDepth 4000 in
/-- C2 (amended): after `AccelerateFill({0x1000, 0x2000, 0xDEADBEEF, 32-bit})`
and `FlushRegion(0x1000, 0x1000)`, every guest byte of the filled range holds
the little-endian pattern `EF BE AD DE`: byte `0x1000 + k` equals
`[0xEF, 0xBE, 0xAD, 0xDE][k % 4]`. -/
theorem c2_fill_flush_pattern (mem : Nat → Nat) (memSize : Nat)
    (hsz : 0x2000 ≤ memSize) (k : Nat) (hk : k < 0x1000) :
    (flushRegion {} (accelerateFill {} (initState mem memSize 1) c2cfg).1
        0x1000 0x1000 none).mem (0x1000 + k)
      = [0xEF, 0xBE, 0xAD, 0xDE].getD (k % 4) 0 := by
  have hstepf : (flushRegion {} (accelerateFill {} (initState mem memSize 1) c2cfg).1
        0x1000 0x1000 none).mem
      = (downloadFillSurface (accelerateFill {} (initState mem memSize 1) c2cfg).1
          0 ⟨0x1000, 0x2000⟩).mem := by
    rw [flushRegion_single_fill {} _ 0 ⟨0x1000, 0x2000⟩ 0x1000 0x1000 rfl
      (by decide) (by decide) (by decide) rfl]
    rfl
  have hstep : (flushRegion {} (accelerateFill {} (initState mem memSize 1) c2cfg).1
        0x1000 0x1000 none).mem (0x1000 + k)
      = (downloadFillSurface (accelerateFill {} (initState mem memSize 1) c2cfg).1
          0 ⟨0x1000, 0x2000⟩).mem (0x1000 + k) := congrFun hstepf (0x1000 + k)
  have hfs : ((accelerateFill {} (initState mem memSize 1) c2cfg).1.store 0).fill_size
      = 4 := rfl
  have hms : (accelerateFill {} (initState mem memSize 1) c2cfg).1.memSize
      = memSize := rfl
  have key := downloadFillSurface_aligned
      (accelerateFill {} (initState mem memSize 1) c2cfg).1 0 ⟨0x1000, 0x2000⟩ k
      rfl
      (by
        show (0x1000 : Nat) < (accelerateFill {} (initState mem memSize 1)
          c2cfg).1.memSize
        rw [hms]; omega)
      (by
        show k < min ((0x2000 : Nat) - 0x1000)
          ((accelerateFill {} (initState mem memSize 1) c2cfg).1.memSize - 0x1000)
        rw [hms]; omega)
      (by rw [hfs]; omega)
  rw [hstep, key, hfs]
  have hfd : ((accelerateFill {} (initState mem memSize 1) c2cfg).1.store 0).fill_data
      = fun i => c2cfg.value32 >>> (8 * i) % 256 := rfl
  rw [hfd]
  have hr : k % 4 = 0 ∨ k % 4 = 1 ∨ k % 4 = 2 ∨ k % 4 = 3 := by omega
  rcases hr with h | h | h | h <;> rw [h] <;> rfl

theorem c2_fill_flush_pattern_witness :
    0x2000 ≤ 0x2000 ∧ (5 : Nat) < 0x1000 ∧
      (flushRegion {} (accelerateFill {} (initState (fun _ => 7) 0x2000 1) c2cfg).1
          0x1000 0x1000 none).mem (0x1000 + 5)
        = [0xEF, 0xBE, 0xAD, 0xDE].getD (5 % 4) 0 :=
  ⟨le_refl _, by decide,
   c2_fill_flush_pattern (fun _ => 7) 0x2000 (le_refl _) 5 (by decide)⟩

/-! ## Claim C4 -/

def bval : Bool → Nat
  | false => 0
  | true => 1

/-- The priority key of a running `FindMatch` state: `(res_scale, validity,
matched interval length)`. -/
def msKey (ms : MatchState) : Nat × Nat × Nat := (ms.scale, bval ms.valid, ms.interval.len)

/-- Strict lexicographic order on match keys, exactly the replacement
condition of `UpdateMatch` (rasterizer_cache.cpp:286-310). -/
def keyLT (a b : Nat × Nat × Nat) : Prop :=
  a.1 < b.1 ∨ (a.1 = b.1 ∧ (a.2.1 < b.2.1 ∨ (a.2.1 = b.2.1 ∧ a.2.2 < b.2.2)))

instance (a b : Nat × Nat × Nat) : Decidable (keyLT a b) := by
  unfold keyLT
  infer_instance

def keyLE (a b : Nat × Nat × Nat) : Prop := keyLT a b ∨ a = b

theorem keyLE_refl (a : Nat × Nat × Nat) : keyLE a a := Or.inr rfl

theorem keyLT_trans {a b c : Nat × Nat × Nat} (h1 : keyLT a b) (h2 : keyLT b c) :
    keyLT a c := by
  rcases a with ⟨a1, a2, a3⟩; rcases b with ⟨b1, b2, b3⟩; rcases c with ⟨c1, c2, c3⟩
  unfold keyLT at *
  dsimp only at *
  omega

theorem keyLE_trans {a b c : Nat × Nat × Nat} (h1 : keyLE a b) (h2 : keyLE b c) :
    keyLE a c := by
  rcases h1 with h1 | rfl
  · rcases h2 with h2 | rfl
    · exact Or.inl (keyLT_trans h1 h2)
    · exact Or.inl h1
  · exact h2

theorem keyLE_of_not_lt {a b : Nat × Nat × Nat} (h : ¬ keyLT a b) : keyLE b a := by
  rcases a with ⟨a1, a2, a3⟩; rcases b with ⟨b1, b2, b3⟩
  unfold keyLT at h
  dsimp only at h
  unfold keyLE keyLT
  dsimp only
  simp only [Prod.mk.injEq]
  omega

theorem not_keyLT_of_le {a b : Nat × Nat × Nat} (h : keyLE a b) : ¬ keyLT b a := by
  rcases a with ⟨a1, a2, a3⟩; rcases b with ⟨b1, b2, b3⟩
  unfold keyLE keyLT at h
  simp only [Prod.mk.injEq] at h
  unfold keyLT
  dsimp only at *
  omega

/-- `UpdateMatch` replaces the running match exactly when the new key is
strictly greater in the lexicographic order. -/
theorem matchUpdate_spec (ms : MatchState) (sid : Nat) (v : Bool) (sc : Nat) (iv : Iv) :
    matchUpdate ms sid v sc iv =
      if keyLT (msKey ms) (sc, bval v, iv.len) then ⟨some sid, v, sc, iv⟩ else ms := by
  rcases ms with ⟨s, mv, msc, miv⟩
  unfold matchUpdate msKey keyLT
  dsimp only
  cases mv <;> cases v <;>
    simp only [bval, decide_True, decide_False, ne_eq, and_true, and_false, true_and,
      false_and, not_true_eq_false, not_false_eq_true, if_true, if_false, Bool.true_eq_false,
      Bool.false_eq_true] <;>
    split_ifs <;> first
      | rfl
      | omega
      | (simp_all; omega)
      | (simp_all)
      | (exfalso; omega)

theorem matchUpdate_mono (ms : MatchState) (sid : Nat) (v : Bool) (sc : Nat) (iv : Iv) :
    keyLE (msKey ms) (msKey (matchUpdate ms sid v sc iv)) := by
  rw [matchUpdate_spec]
  split_ifs with h
  · exact Or.inl h
  · exact keyLE_refl _

theorem matchUpdate_dominates (ms : MatchState) (sid : Nat) (v : Bool) (sc : Nat) (iv : Iv) :
    keyLE (sc, bval v, iv.len) (msKey (matchUpdate ms sid v sc iv)) := by
  rw [matchUpdate_spec]
  split_ifs with h
  · exact keyLE_refl _
  · exact keyLE_of_not_lt h

theorem matchUpdate_cases (ms : MatchState) (sid : Nat) (v : Bool) (sc : Nat) (iv : Iv) :
    matchUpdate ms sid v sc iv = ms ∨
      matchUpdate ms sid v sc iv = ⟨some sid, v, sc, iv⟩ := by
  rw [matchUpdate_spec]
  split_ifs
  · exact Or.inr rfl
  · exact Or.inl rfl

theorem applyHelper_mono (ms : MatchState) (en m : Bool) (iv : Iv) (rs : Bool)
    (sm : ScaleMatch) (ty : SurfaceType) (sid : Nat) (v : Bool) (sc : Nat) :
    keyLE (msKey ms) (msKey (applyHelper ms en m iv rs sm ty sid v sc)) := by
  unfold applyHelper
  split_ifs
  · exact keyLE_refl _
  · exact keyLE_refl _
  · exact keyLE_refl _
  · exact matchUpdate_mono ms sid v sc iv

/-- When the helper's flag is enabled, the match function succeeded and the
scale filter passes, `IsMatch_Helper` reduces to the tie-break. -/
theorem applyHelper_of (ms : MatchState) (en m : Bool) (iv : Iv) (rs : Bool)
    (sm : ScaleMatch) (ty : SurfaceType) (sid : Nat) (v : Bool) (sc : Nat)
    (hen : en = true) (hm : m = true)
    (hok : rs = true ∨ sm = .Ignore ∨ ty = .Fill) :
    applyHelper ms en m iv rs sm ty sid v sc = matchUpdate ms sid v sc iv := by
  unfold applyHelper
  rw [if_neg (by simp [hen]), if_neg (by simp [hm]), if_neg ?hg]
  case hg =>
    rintro ⟨h1, h2, h3⟩
    rcases hok with h | h | h
    · rw [h] at h1; exact absurd h1 (by simp)
    · exact h2 h
    · exact h3 h

/-- Each helper either keeps the running match or, when all three filters
pass, runs the tie-break. -/
theorem applyHelper_eq (ms : MatchState) (en m : Bool) (iv : Iv) (rs : Bool)
    (sm : ScaleMatch) (ty : SurfaceType) (sid : Nat) (v : Bool) (sc : Nat) :
    applyHelper ms en m iv rs sm ty sid v sc = ms ∨
      (en = true ∧ m = true ∧ (rs = true ∨ sm = .Ignore ∨ ty = .Fill) ∧
        applyHelper ms en m iv rs sm ty sid v sc = matchUpdate ms sid v sc iv) := by
  unfold applyHelper
  split_ifs with h1 h2 h3
  · exact Or.inl rfl
  · exact Or.inl rfl
  · exact Or.inl rfl
  · refine Or.inr ⟨?_, ?_, ?_, rfl⟩
    · cases en with
      | false => exact absurd rfl h1
      | true => rfl
    · cases m with
      | false => exact absurd rfl h2
      | true => rfl
    · by_cases hrs : rs = true
      · exact Or.inl hrs
      · by_cases hsm : sm = .Ignore
        · exact Or.inr (Or.inl hsm)
        · by_cases hty : ty = .Fill
          · exact Or.inr (Or.inr hty)
          · exact absurd ⟨by revert hrs; cases rs <;> simp, hsm, hty⟩ h3

/-- The five `(flag enabled, match succeeded, matched interval)` triples a
single surface is tested with, in source order (rasterizer_cache.cpp:313-331). -/
def helperTriples (flags : MatchFlags) (st : CacheState) (params : SurfaceParams)
    (vint : Option Iv) (sid : Nat) : List (Bool × Bool × Iv) :=
  let s := st.store sid
  [(flags.fExact, s.params.ExactMatch params, s.params.GetInterval),
   (flags.fSubRect, s.params.CanSubRect params, s.params.GetInterval),
   (flags.fCopy, (copyMatch st sid params (vint.getD params.GetInterval)).1,
     (copyMatch st sid params (vint.getD params.GetInterval)).2),
   (flags.fExpand, s.params.CanExpand params, s.params.GetInterval),
   (flags.fTexCopy, s.params.CanTexCopy params, s.params.GetInterval)]

/-- A surface/interval pair that passes some enabled helper of `FindMatch`:
it is registered, overlaps the query, survives the invalid-skip check, and one
of the five helpers accepts it with the scale filter passing. -/
def Candidate (flags : MatchFlags) (st : CacheState) (params : SurfaceParams)
    (scaleMode : ScaleMatch) (vint : Option Iv) (sid : Nat) (iv : Iv) : Prop :=
  sid ∈ st.cache ∧
  (st.store sid).params.GetInterval.overlaps params.GetInterval = true ∧
  ¬(flags.fInvalid = false ∧ isValidOf flags st params vint sid = false) ∧
  ∃ en m, (en, m, iv) ∈ helperTriples flags st params vint sid ∧ en = true ∧ m = true ∧
    (resScaleOkOf st params scaleMode sid = true ∨ scaleMode = .Ignore ∨
      (st.store sid).params.type = .Fill)

instance (flags : MatchFlags) (st : CacheState) (params : SurfaceParams)
    (scaleMode : ScaleMatch) (vint : Option Iv) (sid : Nat) (iv : Iv) :
    Decidable (Candidate flags st params scaleMode vint sid iv) := by
  unfold Candidate
  infer_instance

/-- The key a candidate competes with. -/
def candKey (flags : MatchFlags) (st : CacheState) (params : SurfaceParams)
    (vint : Option Iv) (sid : Nat) (iv : Iv) : Nat × Nat × Nat :=
  ((st.store sid).params.res_scale, bval (isValidOf flags st params vint sid), iv.len)

theorem findMatchOne_mono (flags : MatchFlags) (st : CacheState) (params : SurfaceParams)
    (scaleMode : ScaleMatch) (vint : Option Iv) (ms : MatchState) (sid : Nat) :
    keyLE (msKey ms) (msKey (findMatchOne flags st params scaleMode vint ms sid)) := by
  unfold findMatchOne
  dsimp only
  by_cases h : flags.fInvalid = false ∧ isValidOf flags st params vint sid = false
  · rw [if_pos h]
    exact keyLE_refl _
  · rw [if_neg h]
    refine keyLE_trans ?_ (applyHelper_mono _ _ _ _ _ _ _ _ _ _)
    refine keyLE_trans ?_ (applyHelper_mono _ _ _ _ _ _ _ _ _ _)
    refine keyLE_trans ?_ (applyHelper_mono _ _ _ _ _ _ _ _ _ _)
    refine keyLE_trans ?_ (applyHelper_mono _ _ _ _ _ _ _ _ _ _)
    exact applyHelper_mono _ _ _ _ _ _ _ _ _ _

/-- A running match that already carries the key of some accepted helper
of `sid` keeps being dominating after the remaining helpers. -/
def Realized (flags : MatchFlags) (st : CacheState) (params : SurfaceParams)
    (scaleMode : ScaleMatch) (vint : Option Iv) (sid : Nat) (ms : MatchState) : Prop :=
  ∃ iv, ms = ⟨some sid, isValidOf flags st params vint sid,
      (st.store sid).params.res_scale, iv⟩ ∧
    ∃ en m, (en, m, iv) ∈ helperTriples flags st params vint sid ∧ en = true ∧ m = true ∧
      (resScaleOkOf st params scaleMode sid = true ∨ scaleMode = .Ignore ∨
        (st.store sid).params.type = .Fill)

theorem applyHelper_real (flags : MatchFlags) (st : CacheState) (params : SurfaceParams)
    (scaleMode : ScaleMatch) (vint : Option Iv) (sid : Nat) (ms0 X : MatchState)
    (en m : Bool) (iv : Iv)
    (htrip : (en, m, iv) ∈ helperTriples flags st params vint sid)
    (hX : X = ms0 ∨ Realized flags st params scaleMode vint sid X) :
    applyHelper X en m iv (resScaleOkOf st params scaleMode sid) scaleMode
        (st.store sid).params.type sid (isValidOf flags st params vint sid)
        (st.store sid).params.res_scale = ms0 ∨
      Realized flags st params scaleMode vint sid
        (applyHelper X en m iv (resScaleOkOf st params scaleMode sid) scaleMode
          (st.store sid).params.type sid (isValidOf flags st params vint sid)
          (st.store sid).params.res_scale) := by
  rcases applyHelper_eq X en m iv (resScaleOkOf st params scaleMode sid) scaleMode
      (st.store sid).params.type sid (isValidOf flags st params vint sid)
      (st.store sid).params.res_scale with hEq | ⟨hen, hm, hok, hEq⟩
  · rw [hEq]; exact hX
  · rw [hEq]
    rcases matchUpdate_cases X sid (isValidOf flags st params vint sid)
        (st.store sid).params.res_scale iv with h2 | h2
    · rw [h2]; exact hX
    · rw [h2]
      exact Or.inr ⟨iv, rfl, en, m, htrip, hen, hm, hok⟩

theorem findMatchOne_new (flags : MatchFlags) (st : CacheState) (params : SurfaceParams)
    (scaleMode : ScaleMatch) (vint : Option Iv) (ms : MatchState) (sid : Nat) :
    findMatchOne flags st params scaleMode vint ms sid = ms ∨
      (¬(flags.fInvalid = false ∧ isValidOf flags st params vint sid = false) ∧
        Realized flags st params scaleMode vint sid
          (findMatchOne flags st params scaleMode vint ms sid)) := by
  unfold findMatchOne
  dsimp only
  by_cases h : flags.fInvalid = false ∧ isValidOf flags st params vint sid = false
  · rw [if_pos h]
    exact Or.inl rfl
  · rw [if_neg h]
    have hskip : ¬(flags.fInvalid = false ∧
        isValidOf flags st params vint sid = false) := h
    have h1 := applyHelper_real flags st params scaleMode vint sid ms ms
      flags.fExact ((st.store sid).params.ExactMatch params)
      (st.store sid).params.GetInterval (by simp [helperTriples]) (Or.inl rfl)
    have h2 := applyHelper_real flags st params scaleMode vint sid ms _
      flags.fSubRect ((st.store sid).params.CanSubRect params)
      (st.store sid).params.GetInterval (by simp [helperTriples]) h1
    have h3 := applyHelper_real flags st params scaleMode vint sid ms _
      flags.fCopy (copyMatch st sid params (vint.getD params.GetInterval)).1
      (copyMatch st sid params (vint.getD params.GetInterval)).2
      (by simp [helperTriples]) h2
    have h4 := applyHelper_real flags st params scaleMode vint sid ms _
      flags.fExpand ((st.store sid).params.CanExpand params)
      (st.store sid).params.GetInterval (by simp [helperTriples]) h3
    have h5 := applyHelper_real flags st params scaleMode vint sid ms _
      flags.fTexCopy ((st.store sid).params.CanTexCopy params)
      (st.store sid).params.GetInterval (by simp [helperTriples]) h4
    rcases h5 with h5 | h5
    · exact Or.inl h5
    · exact Or.inr ⟨hskip, h5⟩

theorem findMatchOne_dominates (flags : MatchFlags) (st : CacheState)
    (params : SurfaceParams) (scaleMode : ScaleMatch) (vint : Option Iv)
    (ms : MatchState) (sid : Nat) (iv : Iv)
    (hskip : ¬(flags.fInvalid = false ∧ isValidOf flags st params vint sid = false))
    (hc : ∃ en m, (en, m, iv) ∈ helperTriples flags st params vint sid ∧
      en = true ∧ m = true ∧
      (resScaleOkOf st params scaleMode sid = true ∨ scaleMode = .Ignore ∨
        (st.store sid).params.type = .Fill)) :
    keyLE (candKey flags st params vint sid iv)
      (msKey (findMatchOne flags st params scaleMode vint ms sid)) := by
  obtain ⟨en, m, hmem, hen, hm, hok⟩ := hc
  subst hen hm
  unfold findMatchOne
  dsimp only
  rw [if_neg hskip]
  simp only [helperTriples, List.mem_cons, List.not_mem_nil, or_false,
    Prod.mk.injEq] at hmem
  rcases hmem with ⟨hE, hM, hI⟩ | ⟨hE, hM, hI⟩ | ⟨hE, hM, hI⟩ | ⟨hE, hM, hI⟩ | ⟨hE, hM, hI⟩
  · subst hI
    rw [applyHelper_of _ _ _ _ _ _ _ _ _ _ hE.symm hM.symm hok]
    refine keyLE_trans ?_ (applyHelper_mono _ _ _ _ _ _ _ _ _ _)
    refine keyLE_trans ?_ (applyHelper_mono _ _ _ _ _ _ _ _ _ _)
    refine keyLE_trans ?_ (applyHelper_mono _ _ _ _ _ _ _ _ _ _)
    refine keyLE_trans ?_ (applyHelper_mono _ _ _ _ _ _ _ _ _ _)
    exact matchUpdate_dominates _ _ _ _ _
  · subst hI
    rw [applyHelper_of _ _ _ _ _ _ _ _ _ _ hE.symm hM.symm hok]
    refine keyLE_trans ?_ (applyHelper_mono _ _ _ _ _ _ _ _ _ _)
    refine keyLE_trans ?_ (applyHelper_mono _ _ _ _ _ _ _ _ _ _)
    refine keyLE_trans ?_ (applyHelper_mono _ _ _ _ _ _ _ _ _ _)
    exact matchUpdate_dominates _ _ _ _ _
  · subst hI
    rw [applyHelper_of _ _ _ _ _ _ _ _ _ _ hE.symm hM.symm hok]
    refine keyLE_trans ?_ (applyHelper_mono _ _ _ _ _ _ _ _ _ _)
    refine keyLE_trans ?_ (applyHelper_mono _ _ _ _ _ _ _ _ _ _)
    exact matchUpdate_dominates _ _ _ _ _
  · subst hI
    rw [applyHelper_of _ _ _ _ _ _ _ _ _ _ hE.symm hM.symm hok]
    refine keyLE_trans ?_ (applyHelper_mono _ _ _ _ _ _ _ _ _ _)
    exact matchUpdate_dominates _ _ _ _ _
  · subst hI
    rw [applyHelper_of _ _ _ _ _ _ _ _ _ _ hE.symm hM.symm hok]
    exact matchUpdate_dominates _ _ _ _ _

theorem foldl_findMatchOne_mono (flags : MatchFlags) (st : CacheState)
    (params : SurfaceParams) (scaleMode : ScaleMatch) (vint : Option Iv) :
    ∀ (l : List Nat) (ms : MatchState),
      keyLE (msKey ms)
        (msKey (l.foldl (findMatchOne flags st params scaleMode vint) ms)) := by
  intro l
  induction l with
  | nil => intro ms; exact keyLE_refl _
  | cons y ys ih =>
    intro ms
    exact keyLE_trans (findMatchOne_mono flags st params scaleMode vint ms y) (ih _)

theorem foldl_findMatchOne_dominates (flags : MatchFlags) (st : CacheState)
    (params : SurfaceParams) (scaleMode : ScaleMatch) (vint : Option Iv)
    (sid : Nat) (iv : Iv)
    (hskip : ¬(flags.fInvalid = false ∧ isValidOf flags st params vint sid = false))
    (hc : ∃ en m, (en, m, iv) ∈ helperTriples flags st params vint sid ∧
      en = true ∧ m = true ∧
      (resScaleOkOf st params scaleMode sid = true ∨ scaleMode = .Ignore ∨
        (st.store sid).params.type = .Fill)) :
    ∀ (l : List Nat) (ms : MatchState), sid ∈ l →
      keyLE (candKey flags st params vint sid iv)
        (msKey (l.foldl (findMatchOne flags st params scaleMode vint) ms)) := by
  intro l
  induction l with
  | nil => intro ms hmem; exact absurd hmem (List.not_mem_nil sid)
  | cons y ys ih =>
    intro ms hmem
    rcases List.mem_cons.mp hmem with rfl | hmem
    · exact keyLE_trans
        (findMatchOne_dominates flags st params scaleMode vint ms sid iv hskip hc)
        (foldl_findMatchOne_mono flags st params scaleMode vint ys _)
    · exact ih _ hmem

theorem foldl_findMatchOne_real (flags : MatchFlags) (st : CacheState)
    (params : SurfaceParams) (scaleMode : ScaleMatch) (vint : Option Iv) :
    ∀ (l : List Nat) (ms : MatchState),
      (∀ x, x ∈ l → x ∈ st.cache ∧
        (st.store x).params.GetInterval.overlaps params.GetInterval = true) →
      (∀ c, ms.surface = some c →
        ∃ iv, Candidate flags st params scaleMode vint c iv ∧
          msKey ms = candKey flags st params vint c iv) →
      (∀ c, (l.foldl (findMatchOne flags st params scaleMode vint) ms).surface = some c →
        ∃ iv, Candidate flags st params scaleMode vint c iv ∧
          msKey (l.foldl (findMatchOne flags st params scaleMode vint) ms) =
            candKey flags st params vint c iv) := by
  intro l
  induction l with
  | nil => intro ms _ hgood; exact hgood
  | cons y ys ih =>
    intro ms hl hgood
    refine ih _ (fun x hx => hl x (List.mem_cons_of_mem y hx)) ?_
    rcases findMatchOne_new flags st params scaleMode vint ms y with hEq | ⟨hskip, hreal⟩
    · rw [hEq]; exact hgood
    · obtain ⟨iv, hms, en, m, htrip, hen, hm, hok⟩ := hreal
      intro c hc
      rw [hms] at hc
      cases hc
      refine ⟨iv, ⟨(hl y (List.mem_cons_self y ys)).1, (hl y (List.mem_cons_self y ys)).2,
        hskip, en, m, htrip, hen, hm, hok⟩, ?_⟩
      rw [hms]
      rfl

/-- Surface A of the C4 scenario: an 8×2 linear RGBA8 surface over
`[0x1000, 0x1040)`, fully valid. -/
def surfA : SurfaceData :=
  { params := { addr := 0x1000, endAddr := 0x1040, size := 0x40, width := 8, height := 2,
                stride := 8, res_scale := 1, is_tiled := false, pixel_format := .RGBA8,
                type := .Color },
    registered := true }

/-- Surface B of the C4 scenario: an 8×8 linear RGBA8 surface over
`[0x1000, 0x1100)` with `[0x10C0, 0x1100)` invalid. -/
def surfB : SurfaceData :=
  { params := { addr := 0x1000, endAddr := 0x1100, size := 0x100, width := 8, height := 8,
                stride := 8, res_scale := 1, is_tiled := false, pixel_format := .RGBA8,
                type := .Color },
    invalid_regions := [⟨0x10C0, 0x1100⟩],
    registered := true }

def stC4 : CacheState :=
  { store := fun i => if i = 0 then surfA else if i = 1 then surfB else {},
    nextId := 2, cache := [0, 1], memSize := 0x2000 }

/-- The query of the C4 scenario: 8×8 linear RGBA8 over `[0x1000, 0x1100)`. -/
def paramsD : SurfaceParams :=
  { addr := 0x1000, endAddr := 0x1100, size := 0x100, width := 8, height := 8,
    stride := 8, res_scale := 1, is_tiled := false, pixel_format := .RGBA8, type := .Color }

/-- C4 counterexample: with `MatchFlags::Copy`, `FindMatch` returns surface 1
even though surface 1 is invalid over the query interval, surface 0 is valid
over it, both have the same `res_scale`, and surface 0 is also a candidate.
The claimed "valid beats invalid at equal scale" tie-break does not apply
because `is_valid` is forced to `true` for every surface when the `Copy` flag
is present (rasterizer_cache.cpp:264-266): the real comparison here is the
matched-interval length. -/
theorem c4_counterexample :
    findMatch { fCopy := true } stC4 paramsD .Ignore (some ⟨0x1000, 0x1100⟩) = some 1 ∧
    (stC4.store 1).IsRegionValid ⟨0x1000, 0x1100⟩ = false ∧
    (stC4.store 0).IsRegionValid ⟨0x1000, 0x1100⟩ = true ∧
    (stC4.store 0).params.res_scale = (stC4.store 1).params.res_scale ∧
    (∃ iv, Candidate { fCopy := true } stC4 paramsD .Ignore (some ⟨0x1000, 0x1100⟩) 0 iv) := by
  refine ⟨by decide, by decide, by decide, by decide,
    ⟨(stC4.store 0).GetCopyableInterval (paramsD.FromInterval ⟨0x1000, 0x1100⟩), ?_⟩⟩
  decide

/-- C4 (amended): the surface returned by `FindMatch` is the best candidate
under the lexicographic order on `(res_scale, validity, matched interval
length)` — where, contrary to the claim's "valid over the query interval"
reading, the validity component is the loop's `is_valid` bit, which is forced
to `true` for every surface when `MatchFlags::Copy` is among the flags
(rasterizer_cache.cpp:264-266).  A candidate is a registered overlapping
surface accepted by some enabled helper, with the res_scale filter waived for
`ScaleMatch::Ignore` and Fill-type surfaces.  The returned surface realizes
the final key, and no candidate's key is strictly greater. -/
theorem c4_find_match_best (flags : MatchFlags) (st : CacheState) (params : SurfaceParams)
    (scaleMode : ScaleMatch) (vint : Option Iv) (c : Nat)
    (h : findMatch flags st params scaleMode vint = some c) :
    (∃ iv, Candidate flags st params scaleMode vint c iv ∧
        msKey (findMatchState flags st params scaleMode vint) =
          candKey flags st params vint c iv) ∧
    ∀ sid iv, Candidate flags st params scaleMode vint sid iv →
      keyLE (candKey flags st params vint sid iv)
        (msKey (findMatchState flags st params scaleMode vint)) := by
  constructor
  · refine foldl_findMatchOne_real flags st params scaleMode vint
      (st.cache.filter (fun sid =>
        (st.store sid).params.GetInterval.overlaps params.GetInterval)) {}
      (fun x hx => ?_) (fun c0 hc0 => by cases hc0) c h
    have hx2 := List.mem_filter.mp hx
    exact ⟨hx2.1, by simpa using hx2.2⟩
  · intro sid iv hcand
    obtain ⟨hmem, hov, hskip, en, m, htrip, hen, hm, hok⟩ := hcand
    exact foldl_findMatchOne_dominates flags st params scaleMode vint sid iv hskip
      ⟨en, m, htrip, hen, hm, hok⟩
      (st.cache.filter (fun sid =>
        (st.store sid).params.GetInterval.overlaps params.GetInterval)) {}
      (List.mem_filter.mpr ⟨hmem, by simpa using hov⟩)

theorem c4_find_match_best_witness :
    findMatch { fCopy := true } stC4 paramsD .Ignore (some ⟨0x1000, 0x1100⟩) = some 1 ∧
    ((∃ iv, Candidate { fCopy := true } stC4 paramsD .Ignore (some ⟨0x1000, 0x1100⟩) 1 iv ∧
        msKey (findMatchState { fCopy := true } stC4 paramsD .Ignore
          (some ⟨0x1000, 0x1100⟩)) =
          candKey { fCopy := true } stC4 paramsD (some ⟨0x1000, 0x1100⟩) 1 iv) ∧
      ∀ sid iv, Candidate { fCopy := true } stC4 paramsD .Ignore
          (some ⟨0x1000, 0x1100⟩) sid iv →
        keyLE (candKey { fCopy := true } stC4 paramsD (some ⟨0x1000, 0x1100⟩) sid iv)
          (msKey (findMatchState { fCopy := true } stC4 paramsD .Ignore
            (some ⟨0x1000, 0x1100⟩)))) :=
  ⟨by decide, c4_find_match_best { fCopy := true } stC4 paramsD .Ignore
    (some ⟨0x1000, 0x1100⟩) 1 (by decide)⟩

/-! ## Claim C3 -/

theorem updateSurface_store (st : CacheState) (y : Nat) (f : SurfaceData → SurfaceData)
    (i : Nat) :
    (updateSurface st y f).store i = if i = y then f (st.store i) else st.store i := rfl

theorem invalidateAllWatcher_store (st : CacheState) (y : Nat) :
    (invalidateAllWatcher st y).store = st.store := rfl

theorem unregisterSurface_store_inv (st : CacheState) (y sid : Nat) :
    ((unregisterSurface st y).store sid).invalid_regions =
      (st.store sid).invalid_regions := by
  unfold unregisterSurface updatePagesCachedCount
  dsimp only
  split_ifs with h
  · rfl
  · rw [updateSurface_store]
    split_ifs with h2
    · rfl
    · rfl

theorem foldl_memP_pres (g : CacheState → Nat → CacheState) (sid x : Nat)
    (hpres : ∀ st y, Regions.MemP (st.store sid).invalid_regions x →
      Regions.MemP ((g st y).store sid).invalid_regions x) :
    ∀ (l : List Nat) (st : CacheState),
      Regions.MemP (st.store sid).invalid_regions x →
      Regions.MemP ((l.foldl g st).store sid).invalid_regions x := by
  intro l
  induction l with
  | nil => intro st h; exact h
  | cons y ys ih => intro st h; exact ih _ (hpres st y h)

theorem foldl_memP_invalid (g : CacheState → Nat → CacheState) (sid x : Nat)
    (P : SurfaceParams)
    (hpar : ∀ st y, ((g st y).store sid).params = (st.store sid).params)
    (hpres : ∀ st y, Regions.MemP (st.store sid).invalid_regions x →
      Regions.MemP ((g st y).store sid).invalid_regions x)
    (hstep : ∀ st, (st.store sid).params = P →
      Regions.MemP ((g st sid).store sid).invalid_regions x) :
    ∀ (l : List Nat) (st : CacheState), sid ∈ l → (st.store sid).params = P →
      Regions.MemP ((l.foldl g st).store sid).invalid_regions x := by
  intro l
  induction l with
  | nil => intro st h; exact absurd h (List.not_mem_nil sid)
  | cons y ys ih =>
    intro st hmem hP
    rcases List.mem_cons.mp hmem with rfl | hmem
    · exact foldl_memP_pres g sid x hpres ys _ (hstep st hP)
    · exact ih _ hmem (by rw [hpar st y]; exact hP)

/-- C3 (amended): `InvalidateRegion(addr, size, owner = null)` with `8 < size`
marks on every registered overlapping surface only the clipped intersection
`GetInterval() & invalid_interval` as invalid (rasterizer_cache.cpp:1137-1138),
not the whole `[addr, addr+size)`: every address in both the invalidated range
and the surface's own interval is afterwards in its `invalid_regions`. -/
theorem c3_invalidate_clips (env : Env) (st : CacheState) (addr size : Nat)
    (h8 : 8 < size) (sid : Nat) (x : Nat)
    (hcache : sid ∈ st.cache)
    (hx1 : addr ≤ x) (hx2 : x < addr + size)
    (hs1 : (st.store sid).params.addr ≤ x) (hs2 : x < (st.store sid).params.endAddr) :
    Regions.MemP ((invalidateRegion env st addr size none).store sid).invalid_regions x := by
  unfold invalidateRegion
  rw [if_neg (by omega : ¬ size = 0)]
  dsimp only
  refine foldl_memP_pres _ sid x ?hpres2 _ _ ?hinner
  case hpres2 =>
    intro st' y h
    dsimp only
    rw [if_neg (show ¬((none : Option Nat) = some y) by simp)]
    rw [show ((unregisterSurface st' y).store sid).invalid_regions =
      (st'.store sid).invalid_regions from unregisterSurface_store_inv st' y sid] at *
    exact h
  case hinner =>
    refine foldl_memP_invalid _ sid x (st.store sid).params ?hpar ?hpres ?hstep _ _
      (List.mem_filter.mpr ⟨hcache, Iv.overlaps_of_mem hs1 hs2 hx1 hx2⟩) rfl
    case hpar =>
      intro st' y
      dsimp only
      rw [if_neg (show ¬((none : Option Nat) = some y) by simp),
        if_neg (show ¬((none : Option Nat) = none ∧ size ≤ 8) by rintro ⟨h1, h2⟩; omega)]
      split_ifs with hfull
      · dsimp only
        rw [invalidateAllWatcher_store, updateSurface_store]
        split_ifs with hy
        · rfl
        · rfl
      · rw [invalidateAllWatcher_store, updateSurface_store]
        split_ifs with hy
        · rfl
        · rfl
    case hpres =>
      intro st' y h
      dsimp only
      rw [if_neg (show ¬((none : Option Nat) = some y) by simp),
        if_neg (show ¬((none : Option Nat) = none ∧ size ≤ 8) by rintro ⟨h1, h2⟩; omega)]
      split_ifs with hfull
      · dsimp only
        rw [invalidateAllWatcher_store, updateSurface_store]
        split_ifs with hy
        · exact Regions.memP_cons.mpr (Or.inr h)
        · exact h
      · rw [invalidateAllWatcher_store, updateSurface_store]
        split_ifs with hy
        · exact Regions.memP_cons.mpr (Or.inr h)
        · exact h
    case hstep =>
      intro st' hP
      dsimp only
      rw [if_neg (show ¬((none : Option Nat) = some sid) by simp),
        if_neg (show ¬((none : Option Nat) = none ∧ size ≤ 8) by rintro ⟨h1, h2⟩; omega)]
      have hmem2 : Regions.MemP
          (((st'.store sid).params.GetInterval.inter ⟨addr, addr + size⟩)
            :: (st'.store sid).invalid_regions) x := by
        refine Regions.memP_cons.mpr (Or.inl ⟨?_, ?_⟩)
        · show max (st'.store sid).params.addr addr ≤ x
          rw [hP]
          omega
        · show x < min (st'.store sid).params.endAddr (addr + size)
          rw [hP]
          omega
      split_ifs with hfull
      · dsimp only
        rw [invalidateAllWatcher_store, updateSurface_store, if_pos rfl]
        exact hmem2
      · rw [invalidateAllWatcher_store, updateSurface_store, if_pos rfl]
        exact hmem2

/-- The surface of the C3 scenario: 8×8 tiled RGB565 over `[0x1000, 0x1080)`,
registered and fully valid. -/
def surfC3 : SurfaceData :=
  { params := { addr := 0x1000, endAddr := 0x1080, size := 0x80, width := 8, height := 8,
                stride := 8, res_scale := 1, is_tiled := true, pixel_format := .RGB565,
                type := .Color },
    registered := true }

def stC3 : CacheState :=
  { store := fun i => if i = 0 then surfC3 else {}, nextId := 1, cache := [0],
    memSize := 0x2000 }

/-- C3 counterexample: `InvalidateRegion(0x1040, 0x100, owner = null)` over a
cache holding one registered surface `[0x1000, 0x1080)`.  The surface stays in
the cache and overlaps `[0x1040, 0x1140)`, yet address `0x1100` of that range
is not in its `invalid_regions`: only the clipped `[0x1040, 0x1080)` was
inserted. -/
theorem c3_counterexample :
    0 ∈ (invalidateRegion {} stC3 0x1040 0x100 none).cache ∧
    (stC3.store 0).params.GetInterval.overlaps ⟨0x1040, 0x1140⟩ = true ∧
    ¬ Regions.MemP
      ((invalidateRegion {} stC3 0x1040 0x100 none).store 0).invalid_regions 0x1100 := by
  decide

theorem c3_invalidate_clips_witness :
    8 < 0x100 ∧ 0 ∈ stC3.cache ∧
    0x1040 ≤ 0x1050 ∧ 0x1050 < 0x1040 + 0x100 ∧
    (stC3.store 0).params.addr ≤ 0x1050 ∧ 0x1050 < (stC3.store 0).params.endAddr ∧
    Regions.MemP ((invalidateRegion {} stC3 0x1040 0x100 none).store 0).invalid_regions
      0x1050 :=
  ⟨by decide, by decide, by decide, by decide, by decide, by decide,
   c3_invalidate_clips {} stC3 0x1040 0x100 (by decide) 0 0x1050 (by decide)
     (by decide) (by decide) (by decide) (by decide)⟩

/-! ## Claim C7 -/

def infoC7 : TextureInfo :=
  { physicalAddress := 0x1000, width := 2048, height := 2048, format := .RGBA8 }

/-- C7 counterexample: requesting mip level 8 (> 7) makes `GetTextureSurface`
return a null surface, but the cache does NOT stay unchanged: the
`max_level >= 8` check (rasterizer_cache.cpp:518) runs only after `GetSurface`
has already created and registered the surface, so the call leaves a new
surface in the cache's interval index. -/
theorem c7_counterexample :
    (getTextureSurface {} (initState (fun _ => 7) 0x2000 1) infoC7 8).2 = none ∧
    (getTextureSurface {} (initState (fun _ => 7) 0x2000 1) infoC7 8).1.cache = [0] ∧
    (initState (fun _ => 7) 0x2000 1).cache = [] := by
  refine ⟨by decide, by decide, by decide⟩

/-- C7 (amended): the two pre-`GetSurface` guards of `GetTextureSurface`
return a null surface with the state untouched (the 8-pixel alignment check on
the smallest mip, rasterizer_cache.cpp:496-504), while the `max_level >= 8`
guard (rasterizer_cache.cpp:518) still returns a null surface but only after
`GetSurface` may already have modified the cache — only the returned handle is
guaranteed null. -/
theorem c7_texture_guards (env : Env) (st : CacheState) (info : TextureInfo)
    (maxLevel : Nat) :
    (((info.width >>> maxLevel) % 8 ≠ 0 ∨ (info.height >>> maxLevel) % 8 ≠ 0) →
      getTextureSurface env st info maxLevel = (st, none)) ∧
    (8 ≤ maxLevel → (getTextureSurface env st info maxLevel).2 = none) := by
  constructor
  · intro hg
    unfold getTextureSurface
    dsimp only
    by_cases h0 : info.physicalAddress = 0
    · rw [if_pos h0]
    · rw [if_neg h0]
      rw [if_pos hg]
  · intro h8
    unfold getTextureSurface
    dsimp only
    by_cases h0 : info.physicalAddress = 0
    · rw [if_pos h0]
    · rw [if_neg h0]
      by_cases h1 : (info.width >>> maxLevel) % 8 ≠ 0 ∨ (info.height >>> maxLevel) % 8 ≠ 0
      · rw [if_pos h1]
      · rw [if_neg h1]
        by_cases h2 : info.width ≠ (info.width >>> maxLevel) <<< maxLevel ∨
            info.height ≠ (info.height >>> maxLevel) <<< maxLevel
        · rw [if_pos h2]
        · rw [if_neg h2]
          rcases hgs : getSurface env st (({
              addr := info.physicalAddress
              width := info.width
              height := info.height
              levels := maxLevel + 1
              is_tiled := true
              pixel_format := PixelFormatFromTextureFormat info.format
              res_scale := (if env.isNullFilter then 1 else st.resolutionScaleFactor) } :
                SurfaceParams).UpdateParams) .Ignore true with ⟨stg, os⟩
          cases os with
          | none => rfl
          | some sid =>
            dsimp only
            rw [if_neg (by omega : ¬ maxLevel = 0), if_pos h8]

def infoC7w : TextureInfo :=
  { physicalAddress := 0x1000, width := 256, height := 256, format := .RGBA8 }

theorem c7_texture_guards_witness :
    getTextureSurface {} (initState (fun _ => 7) 0x2000 1) infoC7w 8 =
      (initState (fun _ => 7) 0x2000 1, none) ∧
    (getTextureSurface {} (initState (fun _ => 7) 0x2000 1) infoC7w 8).2 = none :=
  ⟨(c7_texture_guards {} (initState (fun _ => 7) 0x2000 1) infoC7w 8).1 (by decide),
   (c7_texture_guards {} (initState (fun _ => 7) 0x2000 1) infoC7w 8).2 (by decide)⟩

/-! ## Claim C6 -/

/-- The page range a surface's `[addr, addr+size)` touches, as
`UpdatePagesCachedCount` computes it (`addr >> PAGE_BITS` through
`(addr + size - 1) >> PAGE_BITS`, inclusive). -/
def pageRangeP (P : SurfaceParams) (p : Nat) : Bool :=
  decide (P.addr >>> CITRA_PAGE_BITS ≤ p) &&
    decide (p ≤ (P.addr + P.size - 1) >>> CITRA_PAGE_BITS)

theorem updatePages_pos (st : CacheState) (addr size : Nat) (hsz : 1 ≤ size) :
    (∀ p, (updatePagesCachedCount st addr size 1).cachedPages p =
        (if addr >>> CITRA_PAGE_BITS ≤ p ∧ p ≤ (addr + size - 1) >>> CITRA_PAGE_BITS
         then st.cachedPages p + 1 else st.cachedPages p)) ∧
    (updatePagesCachedCount st addr size 1).store = st.store ∧
    (∃ Δ, (updatePagesCachedCount st addr size 1).notifs = st.notifs ++ Δ ∧
      (∀ pg b, (pg, b) ∈ Δ ↔ b = true ∧ addr >>> CITRA_PAGE_BITS ≤ pg ∧
        pg ≤ (addr + size - 1) >>> CITRA_PAGE_BITS ∧ st.cachedPages pg = 0)) := by
  have hle : addr >>> CITRA_PAGE_BITS ≤ (addr + size - 1) >>> CITRA_PAGE_BITS := by
    rw [Nat.shiftRight_eq_div_pow, Nat.shiftRight_eq_div_pow]
    exact Nat.div_le_div_right (by omega)
  unfold updatePagesCachedCount
  dsimp only
  refine ⟨?_, rfl, _, rfl, ?_⟩
  · intro p
    rw [if_neg (by rintro ⟨h1, -⟩; norm_num at h1)]
    by_cases hp : addr >>> CITRA_PAGE_BITS ≤ p ∧ p ≤ (addr + size - 1) >>> CITRA_PAGE_BITS
    · rw [if_pos ⟨by norm_num, hp.1, by omega⟩, if_pos hp]
    · rw [if_neg (by rintro ⟨-, h2, h3⟩; exact hp ⟨h2, by omega⟩), if_neg hp]
  · intro pg b
    simp only [List.mem_filterMap, List.mem_range]
    constructor
    · rintro ⟨i, hi, hsome⟩
      rw [if_pos (show (0:Int) < 1 ∧
          addr >>> CITRA_PAGE_BITS ≤ addr >>> CITRA_PAGE_BITS + i ∧
          addr >>> CITRA_PAGE_BITS + i < addr >>> CITRA_PAGE_BITS +
            ((addr + size - 1) >>> CITRA_PAGE_BITS - addr >>> CITRA_PAGE_BITS + 1)
        from ⟨by norm_num, by omega, by omega⟩)] at hsome
      by_cases hA : (0:Int) < 1 ∧
          st.cachedPages (addr >>> CITRA_PAGE_BITS + i) + 1 = 1
      · rw [if_pos hA] at hsome
        obtain ⟨hpg, hb⟩ := Prod.mk.injEq .. ▸ Option.some.inj hsome
        refine ⟨hb.symm, by omega, by omega, ?_⟩
        rw [← hpg]
        have h2 := hA.2
        omega
      · rw [if_neg hA, if_neg (show ¬((1:Int) < 0 ∧
            st.cachedPages (addr >>> CITRA_PAGE_BITS + i) + 1 = -1)
          from by rintro ⟨hx, -⟩; norm_num at hx)] at hsome
        exact absurd hsome (by simp)
    · rintro ⟨hb, h1, h2, h3⟩
      subst hb
      refine ⟨pg - (addr >>> CITRA_PAGE_BITS), by omega, ?_⟩
      have hpg : addr >>> CITRA_PAGE_BITS + (pg - (addr >>> CITRA_PAGE_BITS)) = pg := by
        omega
      rw [hpg]
      rw [if_pos (show (0:Int) < 1 ∧ addr >>> CITRA_PAGE_BITS ≤ pg ∧
          pg < addr >>> CITRA_PAGE_BITS +
            ((addr + size - 1) >>> CITRA_PAGE_BITS - addr >>> CITRA_PAGE_BITS + 1)
        from ⟨by norm_num, h1, by omega⟩)]
      rw [if_pos (show (0:Int) < 1 ∧ st.cachedPages pg + 1 = 1
        from ⟨by norm_num, by rw [h3]; norm_num⟩)]

theorem updatePages_neg (st : CacheState) (addr size : Nat) (hsz : 1 ≤ size) :
    (∀ p, (updatePagesCachedCount st addr size (-1)).cachedPages p =
        (if addr >>> CITRA_PAGE_BITS ≤ p ∧ p ≤ (addr + size - 1) >>> CITRA_PAGE_BITS
         then st.cachedPages p - 1 else st.cachedPages p)) ∧
    (updatePagesCachedCount st addr size (-1)).store = st.store ∧
    (∃ Δ, (updatePagesCachedCount st addr size (-1)).notifs = st.notifs ++ Δ ∧
      (∀ pg b, (pg, b) ∈ Δ ↔ b = false ∧ addr >>> CITRA_PAGE_BITS ≤ pg ∧
        pg ≤ (addr + size - 1) >>> CITRA_PAGE_BITS ∧ st.cachedPages pg = 1)) := by
  have hle : addr >>> CITRA_PAGE_BITS ≤ (addr + size - 1) >>> CITRA_PAGE_BITS := by
    rw [Nat.shiftRight_eq_div_pow, Nat.shiftRight_eq_div_pow]
    exact Nat.div_le_div_right (by omega)
  unfold updatePagesCachedCount
  dsimp only
  refine ⟨?_, rfl, _, rfl, ?_⟩
  · intro p
    rw [if_neg (show ¬((0:Int) < -1 ∧ addr >>> CITRA_PAGE_BITS ≤ p ∧
        p < addr >>> CITRA_PAGE_BITS + ((addr + size - 1) >>> CITRA_PAGE_BITS -
          addr >>> CITRA_PAGE_BITS + 1))
      from by rintro ⟨hx, -⟩; norm_num at hx)]
    by_cases hp : addr >>> CITRA_PAGE_BITS ≤ p ∧ p ≤ (addr + size - 1) >>> CITRA_PAGE_BITS
    · rw [if_pos (show (-1:Int) < 0 ∧ addr >>> CITRA_PAGE_BITS ≤ p ∧
          p < addr >>> CITRA_PAGE_BITS + ((addr + size - 1) >>> CITRA_PAGE_BITS -
            addr >>> CITRA_PAGE_BITS + 1)
        from ⟨by norm_num, hp.1, by omega⟩), if_pos hp]
      omega
    · rw [if_neg (show ¬((-1:Int) < 0 ∧ addr >>> CITRA_PAGE_BITS ≤ p ∧
          p < addr >>> CITRA_PAGE_BITS + ((addr + size - 1) >>> CITRA_PAGE_BITS -
            addr >>> CITRA_PAGE_BITS + 1))
        from by rintro ⟨-, h2, h3⟩; exact hp ⟨h2, by omega⟩), if_neg hp]
  · intro pg b
    simp only [List.mem_filterMap, List.mem_range]
    constructor
    · rintro ⟨i, hi, hsome⟩
      rw [if_neg (show ¬((0:Int) < -1 ∧
          addr >>> CITRA_PAGE_BITS ≤ addr >>> CITRA_PAGE_BITS + i ∧
          addr >>> CITRA_PAGE_BITS + i < addr >>> CITRA_PAGE_BITS +
            ((addr + size - 1) >>> CITRA_PAGE_BITS - addr >>> CITRA_PAGE_BITS + 1))
        from by rintro ⟨hx, -⟩; norm_num at hx)] at hsome
      rw [if_neg (show ¬((0:Int) < -1 ∧
          st.cachedPages (addr >>> CITRA_PAGE_BITS + i) = -1)
        from by rintro ⟨hx, -⟩; norm_num at hx)] at hsome
      by_cases hB : (-1:Int) < 0 ∧ st.cachedPages (addr >>> CITRA_PAGE_BITS + i) = -(-1)
      · rw [if_pos hB] at hsome
        obtain ⟨hpg, hb⟩ := Prod.mk.injEq .. ▸ Option.some.inj hsome
        refine ⟨hb.symm, by omega, by omega, ?_⟩
        rw [← hpg]
        have h2 := hB.2
        omega
      · rw [if_neg hB] at hsome
        exact absurd hsome (by simp)
    · rintro ⟨hb, h1, h2, h3⟩
      subst hb
      refine ⟨pg - (addr >>> CITRA_PAGE_BITS), by omega, ?_⟩
      have hpg : addr >>> CITRA_PAGE_BITS + (pg - (addr >>> CITRA_PAGE_BITS)) = pg := by
        omega
      rw [hpg]
      rw [if_neg (show ¬((0:Int) < -1 ∧ addr >>> CITRA_PAGE_BITS ≤ pg ∧
          pg < addr >>> CITRA_PAGE_BITS +
            ((addr + size - 1) >>> CITRA_PAGE_BITS - addr >>> CITRA_PAGE_BITS + 1))
        from by rintro ⟨hx, -⟩; norm_num at hx)]
      rw [if_neg (show ¬((0:Int) < -1 ∧ st.cachedPages pg = -1)
        from by rintro ⟨hx, -⟩; norm_num at hx)]
      rw [if_pos (show (-1:Int) < 0 ∧ st.cachedPages pg = -(-1)
        from ⟨by norm_num, by rw [h3]; norm_num⟩)]

theorem length_filter_flip (l : List Nat) (hU : l.Nodup) (x : Nat) (hx : x ∈ l)
    (p q : Nat → Bool) (hagree : ∀ y ∈ l, y ≠ x → p y = q y)
    (hpx : p x = false) (hqx : q x = true) :
    (l.filter q).length = (l.filter p).length + 1 := by
  induction l with
  | nil => exact absurd hx (List.not_mem_nil x)
  | cons y ys ih =>
    rcases List.mem_cons.mp hx with rfl | hx2
    · have hys : ys.filter p = ys.filter q := by
        refine List.filter_congr ?_
        intro z hz
        exact hagree z (List.mem_cons_of_mem x hz)
          (fun hzx => (List.nodup_cons.mp hU).1 (hzx ▸ hz))
      rw [List.filter_cons, List.filter_cons, hqx, hpx]
      simp [hys]
    · have hyx : y ≠ x := fun hyx => (List.nodup_cons.mp hU).1 (hyx ▸ hx2)
      rw [List.filter_cons, List.filter_cons, hagree y (List.mem_cons_self y ys) hyx]
      split_ifs with hq
      · simp only [List.length_cons]
        rw [ih (List.nodup_cons.mp hU).2 hx2
          (fun z hz hzx => hagree z (List.mem_cons_of_mem y hz) hzx)]
      · exact ih (List.nodup_cons.mp hU).2 hx2
          (fun z hz hzx => hagree z (List.mem_cons_of_mem y hz) hzx)

/-- The accounting invariant of `cached_pages`: each page's count is the
number of registered surfaces (among the universe `U` of surface ids in use)
whose data touches the page. -/
def RegInv (U : List Nat) (st : CacheState) : Prop :=
  ∀ p, st.cachedPages p =
    ((U.filter (fun sid => (st.store sid).registered &&
      pageRangeP (st.store sid).params p)).length : Int)

theorem regInv_nonneg {U : List Nat} {st : CacheState} (h : RegInv U st) (p : Nat) :
    0 ≤ st.cachedPages p := by
  rw [h p]
  exact_mod_cast Nat.zero_le _

theorem registerSurface_params (st : CacheState) (y sid : Nat) :
    ((registerSurface st y).store sid).params = (st.store sid).params := by
  unfold registerSurface updatePagesCachedCount
  dsimp only
  split_ifs with h
  · rfl
  · rw [updateSurface_store]
    split_ifs with h2
    · rfl
    · rfl

theorem unregisterSurface_params (st : CacheState) (y sid : Nat) :
    ((unregisterSurface st y).store sid).params = (st.store sid).params := by
  unfold unregisterSurface updatePagesCachedCount
  dsimp only
  split_ifs with h
  · rfl
  · rw [updateSurface_store]
    split_ifs with h2
    · rfl
    · rfl

theorem registerSurface_step (U : List Nat) (hU : U.Nodup) (st : CacheState) (sid : Nat)
    (hsid : sid ∈ U) (hsz1 : 1 ≤ (st.store sid).params.size) (hinv : RegInv U st) :
    RegInv U (registerSurface st sid) ∧
    (∀ p, (registerSurface st sid).cachedPages p = st.cachedPages p ∨
      (registerSurface st sid).cachedPages p = st.cachedPages p + 1) ∧
    (∃ Δ, (registerSurface st sid).notifs = st.notifs ++ Δ ∧
      (∀ pg, ((pg, true) ∈ Δ) ↔ st.cachedPages pg = 0 ∧
        0 < (registerSurface st sid).cachedPages pg) ∧
      (∀ pg, ¬ (pg, false) ∈ Δ)) := by
  by_cases hreg : (st.store sid).registered = true
  · have hid : registerSurface st sid = st := by
      unfold registerSurface
      rw [if_pos hreg]
    rw [hid]
    refine ⟨hinv, fun p => Or.inl rfl, [], by simp, ?_, by simp⟩
    intro pg
    simp only [List.not_mem_nil, false_iff]
    rintro ⟨h0, hpos⟩
    omega
  · obtain ⟨st2, hEq, hcp, hnf, hpar, hregT, hother⟩ :
        ∃ st2 : CacheState, registerSurface st sid = updatePagesCachedCount st2
            (st.store sid).params.addr (st.store sid).params.size 1 ∧
          st2.cachedPages = st.cachedPages ∧ st2.notifs = st.notifs ∧
          (∀ i, (st2.store i).params = (st.store i).params) ∧
          (st2.store sid).registered = true ∧
          (∀ i, i ≠ sid → st2.store i = st.store i) := by
      refine ⟨{ updateSurface st sid (fun s => { s with registered := true }) with
        cache := (updateSurface st sid (fun s => { s with registered := true })).cache
          ++ [sid] }, ?_, rfl, rfl, ?_, ?_, ?_⟩
      · unfold registerSurface
        rw [if_neg hreg]
        dsimp only
        rw [updateSurface_store, if_pos rfl]
      · intro i
        dsimp only
        rw [updateSurface_store]
        split_ifs with h2 <;> rfl
      · dsimp only
        rw [updateSurface_store, if_pos rfl]
      · intro i hi
        dsimp only
        rw [updateSurface_store, if_neg hi]
    obtain ⟨hcounts, hstore, Δ, hnot, hmem⟩ := updatePages_pos st2 (st.store sid).params.addr
      (st.store sid).params.size hsz1
    rw [hEq]
    have hregF : (st.store sid).registered = false := by
      revert hreg
      cases (st.store sid).registered <;> simp
    refine ⟨?_, ?_, Δ, by rw [hnot, hnf], ?_, ?_⟩
    · intro p
      rw [hcounts p, hcp]
      simp only [hstore]
      by_cases hp : (st.store sid).params.addr >>> CITRA_PAGE_BITS ≤ p ∧
          p ≤ ((st.store sid).params.addr + (st.store sid).params.size - 1) >>>
            CITRA_PAGE_BITS
      · rw [if_pos hp, hinv p]
        have hflip := length_filter_flip U hU sid hsid
          (fun y => (st.store y).registered && pageRangeP (st.store y).params p)
          (fun y => (st2.store y).registered && pageRangeP (st2.store y).params p)
          (fun y hy hyne => by
            dsimp only
            rw [hother y hyne])
          (by
            show ((st.store sid).registered && pageRangeP (st.store sid).params p) = false
            rw [hregF, Bool.false_and])
          (by
            show ((st2.store sid).registered && pageRangeP (st2.store sid).params p) = true
            rw [hregT, Bool.true_and, hpar]
            simp only [pageRangeP, Bool.and_eq_true, decide_eq_true_eq]
            exact ⟨hp.1, hp.2⟩)
        rw [hflip]
        push_cast
        ring
      · rw [if_neg hp, hinv p]
        have hcong : U.filter (fun y => (st.store y).registered &&
              pageRangeP (st.store y).params p)
            = U.filter (fun y => (st2.store y).registered &&
              pageRangeP (st2.store y).params p) := by
          refine List.filter_congr ?_
          intro y hy
          dsimp only
          by_cases hysid : y = sid
          · subst hysid
            have hprF : pageRangeP (st.store y).params p = false := by
              rw [Bool.eq_false_iff]
              intro hT
              simp only [pageRangeP, Bool.and_eq_true, decide_eq_true_eq] at hT
              exact hp hT
            rw [hregF, Bool.false_and, hregT, Bool.true_and, hpar, hprF]
          · rw [hother y hysid]
        rw [hcong]
    · intro p
      rw [hcounts p, hcp]
      split_ifs with hp
      · exact Or.inr rfl
      · exact Or.inl rfl
    · intro pg
      rw [hmem pg true, hcp, hcounts pg, hcp]
      by_cases hp : (st.store sid).params.addr >>> CITRA_PAGE_BITS ≤ pg ∧
          pg ≤ ((st.store sid).params.addr + (st.store sid).params.size - 1) >>>
            CITRA_PAGE_BITS
      · rw [if_pos hp]
        constructor
        · rintro ⟨-, -, -, h0⟩
          exact ⟨h0, by omega⟩
        · rintro ⟨h0, -⟩
          exact ⟨rfl, hp.1, hp.2, h0⟩
      · rw [if_neg hp]
        constructor
        · rintro ⟨-, ha, hb, -⟩
          exact absurd ⟨ha, hb⟩ hp
        · rintro ⟨h0, hposx⟩
          omega
    · intro pg
      rw [hmem pg false]
      rintro ⟨hfb, -⟩
      exact Bool.noConfusion hfb

theorem unregisterSurface_step (U : List Nat) (hU : U.Nodup) (st : CacheState) (sid : Nat)
    (hsid : sid ∈ U) (hsz1 : 1 ≤ (st.store sid).params.size) (hinv : RegInv U st) :
    RegInv U (unregisterSurface st sid) ∧
    (∀ p, (unregisterSurface st sid).cachedPages p = st.cachedPages p ∨
      (unregisterSurface st sid).cachedPages p = st.cachedPages p - 1) ∧
    (∃ Δ, (unregisterSurface st sid).notifs = st.notifs ++ Δ ∧
      (∀ pg, ¬ (pg, true) ∈ Δ) ∧
      (∀ pg, ((pg, false) ∈ Δ) ↔ 0 < st.cachedPages pg ∧
        (unregisterSurface st sid).cachedPages pg = 0)) := by
  by_cases hreg : (st.store sid).registered = true
  · obtain ⟨st1, hcpr, hnfr, hstr, hcp, hnf, hpar, hregF, hother⟩ :
        ∃ st1 : CacheState,
          (unregisterSurface st sid).cachedPages = (updatePagesCachedCount st1
            (st.store sid).params.addr (st.store sid).params.size (-1)).cachedPages ∧
          (unregisterSurface st sid).notifs = (updatePagesCachedCount st1
            (st.store sid).params.addr (st.store sid).params.size (-1)).notifs ∧
          (unregisterSurface st sid).store = (updatePagesCachedCount st1
            (st.store sid).params.addr (st.store sid).params.size (-1)).store ∧
          st1.cachedPages = st.cachedPages ∧ st1.notifs = st.notifs ∧
          (∀ i, (st1.store i).params = (st.store i).params) ∧
          (st1.store sid).registered = false ∧
          (∀ i, i ≠ sid → st1.store i = st.store i) := by
      refine ⟨updateSurface st sid (fun s => { s with registered := false }),
        ?_, ?_, ?_, rfl, rfl, ?_, ?_, ?_⟩
      · unfold unregisterSurface
        rw [if_neg (by rw [hreg]; simp)]
        dsimp only
        rw [updateSurface_store, if_pos rfl]
      · unfold unregisterSurface
        rw [if_neg (by rw [hreg]; simp)]
        dsimp only
        rw [updateSurface_store, if_pos rfl]
      · unfold unregisterSurface
        rw [if_neg (by rw [hreg]; simp)]
        dsimp only
        rw [updateSurface_store, if_pos rfl]
      · intro i
        rw [updateSurface_store]
        split_ifs with h2 <;> rfl
      · rw [updateSurface_store, if_pos rfl]
      · intro i hi
        rw [updateSurface_store, if_neg hi]
    obtain ⟨hcounts, hstore, Δ, hnot, hmem⟩ := updatePages_neg st1 (st.store sid).params.addr
      (st.store sid).params.size hsz1
    refine ⟨?_, ?_, Δ, by rw [hnfr, hnot, hnf], ?_, ?_⟩
    · intro p
      rw [hcpr, hcounts p, hcp]
      simp only [hstr, hstore]
      by_cases hp : (st.store sid).params.addr >>> CITRA_PAGE_BITS ≤ p ∧
          p ≤ ((st.store sid).params.addr + (st.store sid).params.size - 1) >>>
            CITRA_PAGE_BITS
      · rw [if_pos hp, hinv p]
        have hflip := length_filter_flip U hU sid hsid
          (fun y => (st1.store y).registered && pageRangeP (st1.store y).params p)
          (fun y => (st.store y).registered && pageRangeP (st.store y).params p)
          (fun y hy hyne => by
            dsimp only
            rw [hother y hyne])
          (by
            show ((st1.store sid).registered && pageRangeP (st1.store sid).params p) = false
            rw [hregF, Bool.false_and])
          (by
            show ((st.store sid).registered && pageRangeP (st.store sid).params p) = true
            rw [hreg, Bool.true_and]
            simp only [pageRangeP, Bool.and_eq_true, decide_eq_true_eq]
            exact ⟨hp.1, hp.2⟩)
        rw [hflip]
        push_cast
        ring
      · rw [if_neg hp, hinv p]
        have hcong : U.filter (fun y => (st.store y).registered &&
              pageRangeP (st.store y).params p)
            = U.filter (fun y => (st1.store y).registered &&
              pageRangeP (st1.store y).params p) := by
          refine List.filter_congr ?_
          intro y hy
          dsimp only
          by_cases hysid : y = sid
          · subst hysid
            have hprF : pageRangeP (st.store y).params p = false := by
              rw [Bool.eq_false_iff]
              intro hT
              simp only [pageRangeP, Bool.and_eq_true, decide_eq_true_eq] at hT
              exact hp hT
            rw [hregF, Bool.false_and, hreg, Bool.true_and, hprF]
          · rw [hother y hysid]
        rw [hcong]
    · intro p
      rw [hcpr, hcounts p, hcp]
      split_ifs with hp
      · exact Or.inr rfl
      · exact Or.inl rfl
    · intro pg
      rw [hmem pg true]
      rintro ⟨hfb, -⟩
      exact Bool.noConfusion hfb
    · intro pg
      rw [hmem pg false, hcp, hcpr, hcounts pg, hcp]
      by_cases hp : (st.store sid).params.addr >>> CITRA_PAGE_BITS ≤ pg ∧
          pg ≤ ((st.store sid).params.addr + (st.store sid).params.size - 1) >>>
            CITRA_PAGE_BITS
      · rw [if_pos hp]
        constructor
        · rintro ⟨-, -, -, h1⟩
          constructor
          · omega
          · omega
        · rintro ⟨h0, h1⟩
          exact ⟨rfl, hp.1, hp.2, by omega⟩
      · rw [if_neg hp]
        constructor
        · rintro ⟨-, ha, hb, -⟩
          exact absurd ⟨ha, hb⟩ hp
        · rintro ⟨h0, h1⟩
          omega
  · have hregF2 : (st.store sid).registered = false := by
      revert hreg
      cases (st.store sid).registered <;> simp
    have hid : unregisterSurface st sid = st := by
      unfold unregisterSurface
      rw [if_pos (by rw [hregF2]; rfl)]
    rw [hid]
    refine ⟨hinv, fun p => Or.inl rfl, [], by simp, by simp, ?_⟩
    intro pg
    simp only [List.not_mem_nil, false_iff]
    rintro ⟨h0, h1⟩
    omega

/-- One cache-registration event: `true` = `RegisterSurface`, `false` =
`UnregisterSurface`, of the given surface id. -/
def applyRegOp (st : CacheState) (op : Bool × Nat) : CacheState :=
  if op.1 then registerSurface st op.2 else unregisterSurface st op.2

def runRegOps (st : CacheState) (ops : List (Bool × Nat)) : CacheState :=
  ops.foldl applyRegOp st

theorem applyRegOp_params (st : CacheState) (op : Bool × Nat) (sid : Nat) :
    ((applyRegOp st op).store sid).params = (st.store sid).params := by
  unfold applyRegOp
  split_ifs with h
  · exact registerSurface_params st op.2 sid
  · exact unregisterSurface_params st op.2 sid

theorem runRegOps_params (ops : List (Bool × Nat)) :
    ∀ (st : CacheState) (sid : Nat),
      ((runRegOps st ops).store sid).params = (st.store sid).params := by
  induction ops with
  | nil => intro st sid; rfl
  | cons op ops ih =>
    intro st sid
    show ((runRegOps (applyRegOp st op) ops).store sid).params = (st.store sid).params
    rw [ih, applyRegOp_params]

theorem runRegOps_inv (U : List Nat) (hU : U.Nodup) :
    ∀ (ops : List (Bool × Nat)) (st : CacheState), (∀ op ∈ ops, op.2 ∈ U) →
      (∀ s ∈ U, 1 ≤ (st.store s).params.size) → RegInv U st →
      RegInv U (runRegOps st ops) := by
  intro ops
  induction ops with
  | nil => intro st _ _ h; exact h
  | cons op ops ih =>
    intro st hops hsz hinv
    have hmem := hops op (List.mem_cons_self op ops)
    have hstep : RegInv U (applyRegOp st op) := by
      unfold applyRegOp
      split_ifs with hb
      · exact (registerSurface_step U hU st op.2 hmem (hsz op.2 hmem) hinv).1
      · exact (unregisterSurface_step U hU st op.2 hmem (hsz op.2 hmem) hinv).1
    exact ih (applyRegOp st op) (fun o ho => hops o (List.mem_cons_of_mem op ho))
      (fun s hs => by rw [applyRegOp_params]; exact hsz s hs) hstep

/-- C6: for every sequence of `RegisterSurface`/`UnregisterSurface` calls over
surfaces of positive size (ids drawn from a duplicate-free universe `U`,
starting from a state satisfying the page-accounting invariant `RegInv`),
`UpdatePagesCachedCount` never takes any page's cached count below 0, and the
next call of either kind notifies the memory system to mark a page cached
exactly when that page's count passes from 0 to positive, and to unmark
exactly when it returns to 0. -/
theorem c6_pages_cached_count (U : List Nat) (hU : U.Nodup) (st0 : CacheState)
    (ops : List (Bool × Nat)) (hops : ∀ op ∈ ops, op.2 ∈ U)
    (hsz : ∀ s ∈ U, 1 ≤ (st0.store s).params.size) (hinv : RegInv U st0) :
    (∀ p, 0 ≤ (runRegOps st0 ops).cachedPages p) ∧
    (∀ b sid, sid ∈ U →
      (∀ p, 0 ≤ (applyRegOp (runRegOps st0 ops) (b, sid)).cachedPages p) ∧
      ∃ Δ, (applyRegOp (runRegOps st0 ops) (b, sid)).notifs =
          (runRegOps st0 ops).notifs ++ Δ ∧
        (∀ pg, ((pg, true) ∈ Δ) ↔ (runRegOps st0 ops).cachedPages pg = 0 ∧
          0 < (applyRegOp (runRegOps st0 ops) (b, sid)).cachedPages pg) ∧
        (∀ pg, ((pg, false) ∈ Δ) ↔ 0 < (runRegOps st0 ops).cachedPages pg ∧
          (applyRegOp (runRegOps st0 ops) (b, sid)).cachedPages pg = 0)) := by
  have hinvN : RegInv U (runRegOps st0 ops) := runRegOps_inv U hU ops st0 hops hsz hinv
  have hszN : ∀ s ∈ U, 1 ≤ ((runRegOps st0 ops).store s).params.size := by
    intro s hs
    rw [runRegOps_params]
    exact hsz s hs
  refine ⟨regInv_nonneg hinvN, ?_⟩
  intro b sid hsid
  cases b
  · obtain ⟨hinv2, hor, Δ, hnotif, htrue, hfalse⟩ :=
      unregisterSurface_step U hU (runRegOps st0 ops) sid hsid (hszN sid hsid) hinvN
    have happ : applyRegOp (runRegOps st0 ops) (false, sid) =
        unregisterSurface (runRegOps st0 ops) sid := rfl
    rw [happ]
    refine ⟨regInv_nonneg hinv2, Δ, hnotif, ?_, hfalse⟩
    intro pg
    constructor
    · intro hmm
      exact absurd hmm (htrue pg)
    · rintro ⟨h0, hposx⟩
      rcases hor pg with h | h <;> omega
  · obtain ⟨hinv2, hor, Δ, hnotif, htrue, hfalse⟩ :=
      registerSurface_step U hU (runRegOps st0 ops) sid hsid (hszN sid hsid) hinvN
    have happ : applyRegOp (runRegOps st0 ops) (true, sid) =
        registerSurface (runRegOps st0 ops) sid := rfl
    rw [happ]
    refine ⟨regInv_nonneg hinv2, Δ, hnotif, htrue, ?_⟩
    intro pg
    constructor
    · intro hmm
      exact absurd hmm (hfalse pg)
    · rintro ⟨h0, hzero⟩
      rcases hor pg with h | h <;> omega

/-- The surface of the C6 witness scenario (64 bytes at `0x1000`, initially
unregistered). -/
def surfC6 : SurfaceData :=
  { params := { addr := 0x1000, endAddr := 0x1040, size := 0x40, width := 8, height := 2,
                stride := 8, res_scale := 1, is_tiled := false, pixel_format := .RGBA8,
                type := .Color } }

def stC6 : CacheState :=
  { store := fun i => if i = 0 then surfC6 else {}, nextId := 1, memSize := 0x2000 }

theorem c6_pages_cached_count_witness :
    ([0] : List Nat).Nodup ∧ (∀ op ∈ [(true, 0), (false, 0)], op.2 ∈ ([0] : List Nat)) ∧
    (∀ s ∈ ([0] : List Nat), 1 ≤ (stC6.store s).params.size) ∧ RegInv [0] stC6 ∧
    (∀ p, 0 ≤ (runRegOps stC6 [(true, 0), (false, 0)]).cachedPages p) :=
  ⟨by decide, by decide, by decide, fun p => rfl,
   (c6_pages_cached_count [0] (by decide) stC6 [(true, 0), (false, 0)] (by decide)
     (by decide) (fun p => rfl)).1⟩

/-! ## Claim C9 -/

theorem downloadSurface_resolution (env : Env) (st : CacheState) (sid : Nat) (iv : Iv) :
    (downloadSurface env st sid iv).resolutionScaleFactor = st.resolutionScaleFactor := by
  unfold downloadSurface
  split <;> rfl

theorem downloadFillSurface_resolution (st : CacheState) (sid : Nat) (iv : Iv) :
    (downloadFillSurface st sid iv).resolutionScaleFactor = st.resolutionScaleFactor := by
  unfold downloadFillSurface
  split <;> rfl

theorem foldl_resolution_const {α : Type}
    (f : (CacheState × Regions) → α → (CacheState × Regions))
    (hf : ∀ acc p, (f acc p).1.resolutionScaleFactor = acc.1.resolutionScaleFactor) :
    ∀ (l : List α) (acc : CacheState × Regions),
      (l.foldl f acc).1.resolutionScaleFactor = acc.1.resolutionScaleFactor := by
  intro l
  induction l with
  | nil => intro acc; rfl
  | cons p l ih => intro acc; rw [List.foldl_cons, ih, hf]

theorem flushRegion_resolution (env : Env) (st : CacheState) (addr size : Nat)
    (os : Option Nat) :
    (flushRegion env st addr size os).resolutionScaleFactor = st.resolutionScaleFactor := by
  unfold flushRegion
  by_cases h : size = 0
  · rw [if_pos h]
  · rw [if_neg h]
    dsimp only
    rw [foldl_resolution_const]
    intro acc p
    dsimp only
    split_ifs <;> first
      | rfl
      | exact downloadFillSurface_resolution acc.1 p.2 _
      | exact downloadSurface_resolution env acc.1 p.2 _

theorem unregisterSurface_resolution (st : CacheState) (y : Nat) :
    (unregisterSurface st y).resolutionScaleFactor = st.resolutionScaleFactor := by
  unfold unregisterSurface updatePagesCachedCount
  dsimp only
  split_ifs <;> rfl

theorem foldl_unregister_resolution (l : List Nat) :
    ∀ st : CacheState, (l.foldl unregisterSurface st).resolutionScaleFactor =
      st.resolutionScaleFactor := by
  induction l with
  | nil => intro st; rfl
  | cons y ys ih =>
    intro st
    rw [List.foldl_cons, ih, unregisterSurface_resolution]

theorem getSurface_isSome (env : Env) (st : CacheState) (params : SurfaceParams)
    (msr : ScaleMatch) (lic : Bool)
    (h : ¬(params.addr = 0 ∨ params.height * params.width = 0)) :
    (getSurface env st params msr lic).2.isSome = true := by
  unfold getSurface
  rw [if_neg h]
  dsimp only
  cases hm : findMatch { fExact := true, fInvalid := true } st params msr none with
  | some sid => rfl
  | none => rfl

theorem subrect_fallback_isSome (env : Env) (st1 : CacheState) (np pr : SurfaceParams)
    (msr : ScaleMatch) (lic : Bool)
    (h : (getSurface env st1 np msr lic).2.isSome = true) :
    (match (getSurface env st1 np msr lic).2 with
      | some sid => ((getSurface env st1 np msr lic).1, some sid,
          (((getSurface env st1 np msr lic).1.store sid).params.GetScaledSubRect pr))
      | none => ((getSurface env st1 np msr lic).1, (none : Option Nat),
          (⟨0, 0, 0, 0⟩ : Rect))).2.1.isSome = true := by
  cases hg : (getSurface env st1 np msr lic).2 with
  | none =>
    rw [hg] at h
    exact absurd h (by simp)
  | some sid =>
    rfl

theorem getSurfaceSubRect_some (env : Env) (st : CacheState) (params : SurfaceParams)
    (msr : ScaleMatch) (lic : Bool)
    (ha : ¬(params.addr = 0 ∨ params.height * params.width = 0))
    (hh : 0 < params.height) (hw : 0 < params.width) (hstr : 0 < params.stride) :
    (getSurfaceSubRect env st params msr lic).2.1.isSome = true := by
  unfold getSurfaceSubRect
  rw [if_neg ha]
  dsimp only
  generalize hap : (if params.is_tiled then
      ({ params with
          height := alignUp params.height 8
          width := alignUp params.width 8
          stride := alignUp params.stride 8 } : SurfaceParams).UpdateParams
    else params) = ap
  have hA1 : ap.addr = params.addr := by
    rw [← hap]
    split_ifs with ht <;> rfl
  have hA2 : 0 < ap.height := by
    rw [← hap]
    split_ifs with ht
    · show 0 < alignUp params.height 8
      have := le_alignUp params.height 8
      omega
    · exact hh
  have hA3 : 0 < ap.stride := by
    rw [← hap]
    split_ifs with ht
    · show 0 < (if alignUp params.stride 8 = 0 then alignUp params.width 8
        else alignUp params.stride 8)
      have h1 := le_alignUp params.stride 8
      rw [if_neg (by omega)]
      omega
    · exact hstr
  have hnp : ∀ stX : CacheState,
      (getSurface env stX (({ ap with width := ap.stride } :
        SurfaceParams).UpdateParams) msr lic).2.isSome = true := by
    intro stX
    refine getSurface_isSome env stX _ msr lic ?_
    rintro (h1 | h2)
    · rw [show (({ ap with width := ap.stride } :
          SurfaceParams).UpdateParams).addr = ap.addr from rfl, hA1] at h1
      rcases ha (Or.inl h1)
    · rw [show (({ ap with width := ap.stride } :
          SurfaceParams).UpdateParams).height = ap.height from rfl,
        show (({ ap with width := ap.stride } :
          SurfaceParams).UpdateParams).width = ap.stride from rfl] at h2
      rcases Nat.mul_eq_zero.mp h2 with h | h <;> omega
  generalize (if (findMatch { fSubRect := true, fInvalid := true } st params
        msr none).isNone = true ∧ msr ≠ ScaleMatch.Ignore then
      match findMatch { fSubRect := true, fInvalid := true } st params .Ignore none with
      | some lowId =>
        (registerSurface (createSurface st
            { (st.store lowId).params with res_scale := params.res_scale }).1
          (createSurface st
            { (st.store lowId).params with res_scale := params.res_scale }).2,
         some (createSurface st
            { (st.store lowId).params with res_scale := params.res_scale }).2)
      | none => (st, (none : Option Nat))
    else (st, findMatch { fSubRect := true, fInvalid := true } st params msr none))
    = stPv
  obtain ⟨stP1, stP2⟩ := stPv
  cases stP2 with
  | some sid =>
    first
      | rfl
      | (dsimp only; rfl)
  | none =>
    first
      | skip
      | dsimp only
    cases hfm : findMatch { fExpand := true, fInvalid := true } stP1 ap msr none with
    | some eid =>
      first
        | rfl
        | (dsimp only; rfl)
    | none =>
      exact subrect_fallback_isSome env stP1
        (({ ap with width := ap.stride } : SurfaceParams).UpdateParams) params msr lic
        (hnp stP1)

/-- C9: when both framebuffers are requested and the color and depth viewport
memory intervals overlap, `GetFramebufferSurfaces` does not fail: the overlap
check (rasterizer_cache.cpp:707-713) simply turns off `using_depth_fb`, so the
call returns a null depth surface and a valid color surface. -/
theorem c9_overlap_disables_depth (env : Env) (st : CacheState) (cfg : FbConfig)
    (vp : IRect)
    (hca : cfg.colorAddr ≠ 0) (hw : 0 < cfg.fbWidth) (hh : 0 < cfg.fbHeight)
    (hov : (Iv.inter
        ((fbColorParams cfg env.resolutionScaleFactor).GetSubRectInterval
          (viewportClamped vp cfg.fbWidth cfg.fbHeight))
        ((fbDepthParams cfg env.resolutionScaleFactor).GetSubRectInterval
          (viewportClamped vp cfg.fbWidth cfg.fbHeight))).len ≠ 0) :
    (getFramebufferSurfaces env st true true cfg vp).2.2.1 = none ∧
    (getFramebufferSurfaces env st true true cfg vp).2.1.isSome = true := by
  unfold getFramebufferSurfaces
  dsimp only
  have hres : (if st.resolutionScaleFactor ≠ env.resolutionScaleFactor ∨
      (env.textureFilterUpdateRequested ∧ env.resetFilterResult) then
      (flushAll env { st with
        resolutionScaleFactor := env.resolutionScaleFactor }).cache.foldl
        unregisterSurface
        (flushAll env { st with resolutionScaleFactor := env.resolutionScaleFactor })
    else st).resolutionScaleFactor = env.resolutionScaleFactor := by
    split_ifs with hc
    · rw [foldl_unregister_resolution]
      unfold flushAll
      rw [flushRegion_resolution]
    · push_neg at hc
      exact hc.1
  rw [hres]
  rw [if_pos (show (true : Bool) = true ∧ (true : Bool) = true ∧
      (Iv.inter ((fbColorParams cfg env.resolutionScaleFactor).GetSubRectInterval
        (viewportClamped vp cfg.fbWidth cfg.fbHeight))
      ((fbDepthParams cfg env.resolutionScaleFactor).GetSubRectInterval
        (viewportClamped vp cfg.fbWidth cfg.fbHeight))).len ≠ 0
    from ⟨rfl, rfl, hov⟩)]
  have hsome := getSurfaceSubRect_some env
    (if st.resolutionScaleFactor ≠ env.resolutionScaleFactor ∨
        (env.textureFilterUpdateRequested ∧ env.resetFilterResult) then
      (flushAll env { st with
        resolutionScaleFactor := env.resolutionScaleFactor }).cache.foldl
        unregisterSurface
        (flushAll env { st with resolutionScaleFactor := env.resolutionScaleFactor })
    else st)
    (fbColorParams cfg env.resolutionScaleFactor) .Exact false
    (by
      rintro (h1 | h2)
      · exact hca (by
          rw [show (fbColorParams cfg env.resolutionScaleFactor).addr = cfg.colorAddr
            from rfl] at h1
          exact h1)
      · rw [show (fbColorParams cfg env.resolutionScaleFactor).height = cfg.fbHeight
            from rfl,
          show (fbColorParams cfg env.resolutionScaleFactor).width = cfg.fbWidth
            from rfl] at h2
        rcases Nat.mul_eq_zero.mp h2 with h | h <;> omega)
    hh hw hw
  generalize hcg : getSurfaceSubRect env
    (if st.resolutionScaleFactor ≠ env.resolutionScaleFactor ∨
        (env.textureFilterUpdateRequested ∧ env.resetFilterResult) then
      (flushAll env { st with
        resolutionScaleFactor := env.resolutionScaleFactor }).cache.foldl
        unregisterSurface
        (flushAll env { st with resolutionScaleFactor := env.resolutionScaleFactor })
    else st)
    (fbColorParams cfg env.resolutionScaleFactor) .Exact false = cRes
  rw [hcg] at hsome
  obtain ⟨c1, c2, c3⟩ := cRes
  cases c2 with
  | none => exact absurd hsome (by simp)
  | some cid => exact ⟨rfl, rfl⟩

def cfgC9 : FbConfig :=
  { fbWidth := 8, fbHeight := 8, colorAddr := 0x1000, depthAddr := 0x1000,
    colorFormat := .RGBA8, depthFormat := .D16 }

def vpC9 : IRect := { left := 0, top := 8, right := 8, bottom := 0 }

theorem c9_overlap_disables_depth_witness :
    cfgC9.colorAddr ≠ 0 ∧ 0 < cfgC9.fbWidth ∧ 0 < cfgC9.fbHeight ∧
    (Iv.inter
      ((fbColorParams cfgC9 (Env.resolutionScaleFactor {})).GetSubRectInterval
        (viewportClamped vpC9 cfgC9.fbWidth cfgC9.fbHeight))
      ((fbDepthParams cfgC9 (Env.resolutionScaleFactor {})).GetSubRectInterval
        (viewportClamped vpC9 cfgC9.fbWidth cfgC9.fbHeight))).len ≠ 0 ∧
    ((getFramebufferSurfaces {} (initState (fun _ => 7) 0x2000 1) true true cfgC9
        vpC9).2.2.1 = none ∧
      (getFramebufferSurfaces {} (initState (fun _ => 7) 0x2000 1) true true cfgC9
        vpC9).2.1.isSome = true) :=
  ⟨by decide, by decide, by decide, by decide,
   c9_overlap_disables_depth {} (initState (fun _ => 7) 0x2000 1) cfgC9 vpC9
     (by decide) (by decide) (by decide) (by decide)⟩

/-! ## Claim C1 -/

theorem downloadSurface_store (env : Env) (st : CacheState) (sid : Nat) (iv : Iv) :
    (downloadSurface env st sid iv).store = st.store := by
  unfold downloadSurface
  split <;> rfl

theorem downloadFillSurface_store (st : CacheState) (sid : Nat) (iv : Iv) :
    (downloadFillSurface st sid iv).store = st.store := by
  unfold downloadFillSurface
  split <;> rfl

theorem foldl_store_const {α : Type}
    (f : (CacheState × Regions) → α → (CacheState × Regions))
    (hf : ∀ acc p, (f acc p).1.store = acc.1.store) :
    ∀ (l : List α) (acc : CacheState × Regions),
      (l.foldl f acc).1.store = acc.1.store := by
  intro l
  induction l with
  | nil => intro acc; rfl
  | cons p l ih => intro acc; rw [List.foldl_cons, ih, hf]

theorem flushRegion_store (env : Env) (st : CacheState) (addr size : Nat)
    (os : Option Nat) : (flushRegion env st addr size os).store = st.store := by
  unfold flushRegion
  by_cases h : size = 0
  · rw [if_pos h]
  · rw [if_neg h]
    dsimp only
    rw [foldl_store_const]
    intro acc p
    dsimp only
    split_ifs <;> first
      | rfl
      | exact downloadFillSurface_store acc.1 p.2 _
      | exact downloadSurface_store env acc.1 p.2 _

theorem uploadSurface_store (env : Env) (st : CacheState) (sid : Nat) (iv : Iv) :
    (uploadSurface env st sid iv).store = st.store := by
  unfold uploadSurface
  split_ifs with h
  · rfl
  · rfl

theorem uploadSurface_dirty (env : Env) (st : CacheState) (sid : Nat) (iv : Iv) :
    (uploadSurface env st sid iv).dirty = st.dirty := by
  unfold uploadSurface
  split_ifs with h
  · rfl
  · rfl

theorem flushRegion_dirty_sub (env : Env) (st : CacheState) (addr size : Nat)
    (os : Option Nat) (x : Nat)
    (h : dirtyMemP (flushRegion env st addr size os).dirty x) :
    dirtyMemP st.dirty x := by
  unfold flushRegion at h
  by_cases h0 : size = 0
  · rw [if_pos h0] at h
    exact h
  · rw [if_neg h0] at h
    dsimp only at h
    rw [foldl_dirty_const _ (fun acc p => by
        first
          | skip
          | dsimp only
        split_ifs <;> first
          | rfl
          | exact downloadFillSurface_dirty acc.1 p.2 _
          | exact downloadSurface_dirty env acc.1 p.2 _)] at h
    unfold dirtyMemP at h ⊢
    rw [dirtyDom_subtract, Regions.memP_diff] at h
    exact h.1

theorem dirtyCovers_mem (d : List (Iv × Nat)) (iv : Iv) (hcov : dirtyCovers d iv = true)
    (x : Nat) (h1 : iv.lo ≤ x) (h2 : x < iv.hi) : dirtyMemP d x := by
  unfold dirtyCovers at hcov
  have hno := Regions.not_memP_of_isEmptyB hcov x
  rw [Regions.memP_diff] at hno
  by_cases hd : dirtyMemP d x
  · exact hd
  · exfalso
    exact hno ⟨⟨iv, List.mem_cons_self iv [], h1, h2⟩, hd⟩

theorem copySurface_eq (st : CacheState) (a b : Nat) (iv : Iv) :
    copySurface st a b iv = st := rfl

theorem updateSurface_erase_params (st : CacheState) (sid : Nat) (J : Iv) :
    ((updateSurface st sid (fun s =>
      { s with invalid_regions := s.invalid_regions.erase J })).store sid).params =
      (st.store sid).params := by
  rw [updateSurface_store, if_pos rfl]

theorem updateSurface_erase_inv (st : CacheState) (sid : Nat) (J : Iv) :
    ((updateSurface st sid (fun s =>
      { s with invalid_regions := s.invalid_regions.erase J })).store sid).invalid_regions =
      (st.store sid).invalid_regions.erase J := by
  rw [updateSurface_store, if_pos rfl]

/-- A surface returned by a `MatchFlags::Copy` search passed the copy helper,
whose match bit (rasterizer_cache.cpp:318-325) requires the copyable interval
to intersect the validate interval. -/
theorem findMatch_copy_overlap (st : CacheState) (params : SurfaceParams) (iv : Iv)
    (copyId : Nat)
    (h : findMatch { fCopy := true } st params .Ignore (some iv) = some copyId) :
    (Iv.inter ((st.store copyId).GetCopyableInterval (params.FromInterval iv)) iv).len
      ≠ 0 := by
  obtain ⟨civ, hcand, -⟩ := foldl_findMatchOne_real { fCopy := true } st params .Ignore
    (some iv)
    (st.cache.filter (fun sid =>
      (st.store sid).params.GetInterval.overlaps params.GetInterval)) {}
    (fun x hx => by
      have hx2 := List.mem_filter.mp hx
      exact ⟨hx2.1, by simpa using hx2.2⟩)
    (fun c0 hc0 => by cases hc0) copyId h
  obtain ⟨-, -, -, en, m, htrip, hen, hm, -⟩ := hcand
  unfold helperTriples at htrip
  dsimp only at htrip
  simp only [List.mem_cons, List.not_mem_nil, or_false] at htrip
  rcases htrip with h1 | h1 | h1 | h1 | h1
  · rw [Prod.mk.injEq, Prod.mk.injEq] at h1
    rw [hen] at h1
    exact absurd h1.1 (by decide)
  · rw [Prod.mk.injEq, Prod.mk.injEq] at h1
    rw [hen] at h1
    exact absurd h1.1 (by decide)
  · rw [Prod.mk.injEq, Prod.mk.injEq] at h1
    obtain ⟨-, h1b, -⟩ := h1
    rw [hm] at h1b
    have hcm := h1b.symm
    rw [Option.getD_some] at hcm
    unfold copyMatch at hcm
    dsimp only at hcm
    rw [Bool.and_eq_true] at hcm
    exact of_decide_eq_true hcm.1
  · rw [Prod.mk.injEq, Prod.mk.injEq] at h1
    rw [hen] at h1
    exact absurd h1.1 (by decide)
  · rw [Prod.mk.injEq, Prod.mk.injEq] at h1
    rw [hen] at h1
    exact absurd h1.1 (by decide)

/-- The invariant the `ValidateSurface` loop maintains relative to the entry
state `st0` and the requested interval `vint`: the surface's params are
untouched, the pending validate set stays inside `vint` and starts no earlier
than the surface, the dirty set only shrinks, and every still-invalid address
of `vint` is either still pending or was dirty on entry. -/
def ValidInv (st0 : CacheState) (sid : Nat) (vint : Iv)
    (p : CacheState × Regions) : Prop :=
  (p.1.store sid).params = (st0.store sid).params ∧
  (∀ y, Regions.MemP p.2 y → vint.lo ≤ y ∧ y < vint.hi) ∧
  (∀ y, Regions.MemP p.2 y → (st0.store sid).params.addr ≤ y) ∧
  (∀ y, dirtyMemP p.1.dirty y → dirtyMemP st0.dirty y) ∧
  (∀ y, Regions.MemP (p.1.store sid).invalid_regions y → vint.lo ≤ y → y < vint.hi →
    Regions.MemP p.2 y ∨ dirtyMemP st0.dirty y)

/-- One iteration of the `ValidateSurface` loop preserves `ValidInv` and
strictly shrinks the pending validate set: the copy branch erases the
(nonempty, by `findMatch_copy_overlap`) copyable overlap, the reinterpret and
GPU-skip branches erase the popped component itself, and the flush branch
erases the whole `FromInterval` params interval, which contains it. -/
theorem validateStep_spec (env : Env) (st0 : CacheState) (sid : Nat) (vint : Iv)
    (stC : CacheState) (vr : Regions) (it : Iv)
    (hInv : ValidInv st0 sid vint (stC, vr))
    (hit : vr.firstComponent = some it) :
    ValidInv st0 sid vint (validateStep env sid vint stC vr it) ∧
    (validateStep env sid vint stC vr it).2.toF.card < vr.toF.card := by
  obtain ⟨hW3, hW1, hW2, hQ, hP⟩ := hInv
  obtain ⟨hitne, hitmem⟩ := Regions.firstComponent_some hit
  have hlov := hW1 it.lo (hitmem it.lo (le_refl _) hitne)
  have hI1 : (it.inter vint).lo < (it.inter vint).hi := by
    show max it.lo vint.lo < min it.hi vint.hi
    omega
  have hImem : ∀ y, (it.inter vint).lo ≤ y → y < (it.inter vint).hi →
      Regions.MemP vr y := by
    intro y h1 h2
    have h1a : max it.lo vint.lo ≤ y := h1
    have h2a : y < min it.hi vint.hi := h2
    exact hitmem y (by omega) (by omega)
  have hImlo : Regions.MemP vr (it.inter vint).lo := hImem _ (le_refl _) hI1
  have hIaddr : (st0.store sid).params.addr ≤ (it.inter vint).lo := hW2 _ hImlo
  unfold validateStep
  dsimp only
  cases hfm : findMatch { fCopy := true } stC
      ((stC.store sid).params.FromInterval (it.inter vint)) .Ignore
      (some (it.inter vint)) with
  | some copyId =>
    dsimp only
    rw [copySurface_eq]
    have hov := findMatch_copy_overlap stC
      ((stC.store sid).params.FromInterval (it.inter vint)) (it.inter vint) copyId hfm
    rw [SurfaceParams.fromInterval_idem (stC.store sid).params (it.inter vint)
      (by rw [hW3]; exact hIaddr) hI1] at hov
    have hov2 : max ((stC.store copyId).GetCopyableInterval
          ((stC.store sid).params.FromInterval (it.inter vint))).lo (it.inter vint).lo <
        min ((stC.store copyId).GetCopyableInterval
          ((stC.store sid).params.FromInterval (it.inter vint))).hi (it.inter vint).hi := by
      have hov1 : min ((stC.store copyId).GetCopyableInterval
            ((stC.store sid).params.FromInterval (it.inter vint))).hi (it.inter vint).hi -
          max ((stC.store copyId).GetCopyableInterval
            ((stC.store sid).params.FromInterval (it.inter vint))).lo (it.inter vint).lo
          ≠ 0 := hov
      omega
    constructor
    · refine ⟨?_, ?_, ?_, ?_, ?_⟩
      · dsimp only
        rw [updateSurface_erase_params]
        exact hW3
      · intro y hy
        exact hW1 y (Regions.memP_erase.mp hy).1
      · intro y hy
        exact hW2 y (Regions.memP_erase.mp hy).1
      · exact fun y hy => hQ y hy
      · intro y hy h1 h2
        dsimp only at hy
        rw [updateSurface_erase_inv, Regions.memP_erase] at hy
        rcases hP y hy.1 h1 h2 with hvr | hd
        · exact Or.inl (Regions.memP_erase.mpr ⟨hvr, hy.2⟩)
        · exact Or.inr hd
    · dsimp only
      refine Regions.card_erase_lt
        (hImem (max ((stC.store copyId).GetCopyableInterval
            ((stC.store sid).params.FromInterval (it.inter vint))).lo (it.inter vint).lo)
          (le_max_right _ _) (by omega))
        (le_max_left _ _) (by omega)
  | none =>
    by_cases h1 : validateByReinterpretation stC sid
        ((stC.store sid).params.FromInterval (it.inter vint)) (it.inter vint) = true
    · rw [if_pos h1]
      constructor
      · refine ⟨?_, ?_, ?_, ?_, ?_⟩
        · dsimp only
          rw [updateSurface_erase_params]
          exact hW3
        · intro y hy
          exact hW1 y (Regions.memP_erase.mp hy).1
        · intro y hy
          exact hW2 y (Regions.memP_erase.mp hy).1
        · exact fun y hy => hQ y hy
        · intro y hy hb1 hb2
          dsimp only at hy
          rw [updateSurface_erase_inv, Regions.memP_erase] at hy
          rcases hP y hy.1 hb1 hb2 with hvr | hd
          · exact Or.inl (Regions.memP_erase.mpr ⟨hvr, hy.2⟩)
          · exact Or.inr hd
      · dsimp only
        exact Regions.card_erase_lt hImlo (le_refl _) hI1
    · rw [if_neg h1]
      by_cases h2 : noUnimplementedReinterpretations stC sid
            ((stC.store sid).params.FromInterval (it.inter vint)) (it.inter vint) = true ∧
          intervalHasInvalidPixelFormat stC (it.inter vint) = false ∧
          dirtyCovers stC.dirty (it.inter vint) = true
      · rw [if_pos h2]
        constructor
        · refine ⟨hW3, ?_, ?_, fun y hy => hQ y hy, ?_⟩
          · intro y hy
            exact hW1 y (Regions.memP_erase.mp hy).1
          · intro y hy
            exact hW2 y (Regions.memP_erase.mp hy).1
          · intro y hy hb1 hb2
            rcases hP y hy hb1 hb2 with hvr | hd
            · by_cases hyI : (it.inter vint).lo ≤ y ∧ y < (it.inter vint).hi
              · exact Or.inr (hQ y
                  (dirtyCovers_mem stC.dirty (it.inter vint) h2.2.2 y hyI.1 hyI.2))
              · exact Or.inl (Regions.memP_erase.mpr ⟨hvr, hyI⟩)
            · exact Or.inr hd
        · dsimp only
          exact Regions.card_erase_lt hImlo (le_refl _) hI1
      · rw [if_neg h2]
        have hst2 : (uploadSurface env (flushRegion env stC
            ((stC.store sid).params.FromInterval (it.inter vint)).addr
            ((stC.store sid).params.FromInterval (it.inter vint)).size none) sid
            (it.inter vint)).store = stC.store := by
          rw [uploadSurface_store, flushRegion_store]
        constructor
        · refine ⟨?_, ?_, ?_, ?_, ?_⟩
          · dsimp only
            rw [updateSurface_erase_params, hst2]
            exact hW3
          · intro y hy
            exact hW1 y (Regions.memP_erase.mp hy).1
          · intro y hy
            exact hW2 y (Regions.memP_erase.mp hy).1
          · intro y hy
            have hy1 : dirtyMemP (uploadSurface env (flushRegion env stC
                ((stC.store sid).params.FromInterval (it.inter vint)).addr
                ((stC.store sid).params.FromInterval (it.inter vint)).size none) sid
                (it.inter vint)).dirty y := hy
            rw [uploadSurface_dirty] at hy1
            exact hQ y (flushRegion_dirty_sub env stC _ _ none y hy1)
          · intro y hy hb1 hb2
            dsimp only at hy
            rw [updateSurface_erase_inv, hst2, Regions.memP_erase] at hy
            rcases hP y hy.1 hb1 hb2 with hvr | hd
            · exact Or.inl (Regions.memP_erase.mpr ⟨hvr, hy.2⟩)
            · exact Or.inr hd
        · dsimp only
          refine Regions.card_erase_lt hImlo ?_ ?_
          · show ((stC.store sid).params.FromInterval (it.inter vint)).addr ≤
              (it.inter vint).lo
            exact SurfaceParams.fromInterval_addr_le _ _ (by rw [hW3]; exact hIaddr)
          · show (it.inter vint).lo <
              ((stC.store sid).params.FromInterval (it.inter vint)).endAddr
            have hend := SurfaceParams.le_fromInterval_endAddr (stC.store sid).params
              (it.inter vint) (by rw [hW3]; omega)
            omega

/-- Running the `ValidateSurface` loop with fuel exceeding the pending set's
cardinality preserves `ValidInv` and drains the pending set completely. -/
theorem validateLoop_spec (env : Env) (st0 : CacheState) (sid : Nat) (vint : Iv) :
    ∀ (fuel : Nat) (stC : CacheState) (vr : Regions),
      ValidInv st0 sid vint (stC, vr) → vr.toF.card < fuel →
      ValidInv st0 sid vint (validateLoop env sid vint fuel stC vr) ∧
      ∀ y, ¬ Regions.MemP (validateLoop env sid vint fuel stC vr).2 y := by
  intro fuel
  induction fuel with
  | zero =>
    intro stC vr hInv hcard
    exact absurd hcard (Nat.not_lt_zero _)
  | succ n ih =>
    intro stC vr hInv hcard
    rw [validateLoop]
    cases hfc : vr.firstComponent with
    | none =>
      exact ⟨hInv, fun y => Regions.firstComponent_none hfc y⟩
    | some it =>
      obtain ⟨hInv2, hcard2⟩ := validateStep_spec env st0 sid vint stC vr it hInv hfc
      exact ih (validateStep env sid vint stC vr it).1
        (validateStep env sid vint stC vr it).2 hInv2 (by omega)

/-- C1 (corrected): `ValidateSurface` does not always empty the validated
interval out of `invalid_regions` — the GPU-created-content diagnostic
(rasterizer_cache.cpp:876-887) erases the component only from the local
`validate_regions`, leaving `invalid_regions` untouched.  What does hold: for
a non-fill surface whose invalid regions start no earlier than the surface
does, every address of the validated range that is still invalid afterwards
was covered by `dirty_regions` when the call began. -/
theorem c1_validate_dirty_or_cleared (env : Env) (st : CacheState) (sid : Nat)
    (addr size : Nat)
    (hfill : ¬ (st.store sid).params.type = SurfaceType.Fill)
    (hwf : ∀ iv ∈ (st.store sid).invalid_regions, (st.store sid).params.addr ≤ iv.lo)
    (x : Nat) (hx1 : addr ≤ x) (hx2 : x < addr + size)
    (hinv : Regions.MemP
      ((validateSurface env st sid addr size).store sid).invalid_regions x) :
    dirtyMemP st.dirty x := by
  by_cases hsz : size = 0
  · exact absurd hx2 (by omega)
  · unfold validateSurface at hinv
    rw [if_neg hsz, if_neg hfill] at hinv
    dsimp only at hinv
    have hInit : ValidInv st sid ⟨addr, addr + size⟩
        (st, Regions.inter (st.store sid).invalid_regions ⟨addr, addr + size⟩) := by
      refine ⟨rfl, ?_, ?_, fun y hy => hy, ?_⟩
      · intro y hy
        have hy2 := Regions.memP_inter.mp hy
        exact ⟨hy2.2.1, hy2.2.2⟩
      · intro y hy
        obtain ⟨iv, hivmem, hylo, -⟩ := (Regions.memP_inter.mp hy).1
        exact le_trans (hwf iv hivmem) hylo
      · intro y hy h1 h2
        exact Or.inl (Regions.memP_inter.mpr ⟨hy, h1, h2⟩)
    obtain ⟨⟨hW3, hW1, hW2, hQ, hP⟩, hempty⟩ := validateLoop_spec env st sid
      ⟨addr, addr + size⟩
      (Regions.totalLen (Regions.inter (st.store sid).invalid_regions
        ⟨addr, addr + size⟩) + 1)
      st (Regions.inter (st.store sid).invalid_regions ⟨addr, addr + size⟩)
      hInit (Nat.lt_succ_of_le (Regions.card_toF_le_totalLen _))
    rcases hP x hinv hx1 hx2 with hvr | hd
    · exact absurd hvr (hempty x)
    · exact hd

/-- An 8×8 tiled RGB565 surface at 0x1000 (`[0x1000, 0x1080)`). -/
def pBc1 : SurfaceParams :=
  ({ addr := 0x1000, width := 8, height := 8, stride := 8, is_tiled := true,
     pixel_format := .RGB565, res_scale := 1 } : SurfaceParams).UpdateParams

/-- An 8×8 tiled RGBA8 surface at 0x1000 (`[0x1000, 0x1100)`). -/
def pAc1 : SurfaceParams :=
  ({ addr := 0x1000, width := 8, height := 8, stride := 8, is_tiled := true,
     pixel_format := .RGBA8, res_scale := 1 } : SurfaceParams).UpdateParams

/-- The C1 scenario, built through the public API: create the RGB565 surface
(id 0), invalidate `[0x1000, 0x1080)` with surface 0 as the authoritative
owner (a GPU write, making the range dirty), then create the RGBA8 surface
(id 1), which is born fully invalid over `[0x1000, 0x1100)`. -/
def stC1 : CacheState :=
  (getSurface {} (invalidateRegion {}
      (getSurface {} (initState (fun _ => 7) 0x2000 1) pBc1 .Exact false).1
      0x1000 0x80 (some 0)) pAc1 .Exact false).1

set_option maxRecDepth 8000 in
/-- C1 counterexample: in `stC1`, the interval `[0x1000, 0x1080)` is contained
in surface 1's `invalid_regions`, yet after
`ValidateSurface(surface 1, 0x1000, 0x80)` the address 0x1000 of that interval
is still invalid — the dirty-skip branch (rasterizer_cache.cpp:876-887) only
dropped it from the local `validate_regions`, so the claimed
`I ∩ s.invalid_regions = ∅` fails. -/
theorem c1_counterexample :
    Regions.isEmptyB (Regions.diff [(⟨0x1000, 0x1080⟩ : Iv)]
      ((stC1.store 1).invalid_regions)) = true ∧
    Regions.memB
      (((validateSurface {} stC1 1 0x1000 0x80).store 1).invalid_regions) 0x1000 =
      true :=
  ⟨by decide, by decide⟩

set_option maxRecDepth 8000 in
/-- Witness for `c1_validate_dirty_or_cleared` on the `stC1` scenario: address
0x1000 of the validated range `[0x1000, 0x1080)` of surface 1 is still invalid
after the call, and it was indeed dirty on entry. -/
theorem c1_validate_dirty_or_cleared_witness :
    (¬ (stC1.store 1).params.type = SurfaceType.Fill) ∧
    (∀ iv ∈ (stC1.store 1).invalid_regions, (stC1.store 1).params.addr ≤ iv.lo) ∧
    ((0x1000 : Nat) ≤ 0x1000) ∧ ((0x1000 : Nat) < 0x1000 + 0x80) ∧
    Regions.MemP
      ((validateSurface {} stC1 1 0x1000 0x80).store 1).invalid_regions 0x1000 ∧
    dirtyMemP stC1.dirty 0x1000 :=
  ⟨by decide, by decide, by decide, by decide, by decide,
   c1_validate_dirty_or_cleared {} stC1 1 0x1000 0x80 (by decide) (by decide) 0x1000
     (by decide) (by decide) (by decide)⟩

end Citra
